import Mathlib

/-!
# Mystical Teachings: local storage layer and card API client

A shallow embedding of `src/js/storage.js` (class `StorageManager`), of
`src/js/api.js` (class `ScryfallAPI`: the search path, the card normalization
helpers, the suggestions and the request throttler) and of the `fetch` listener
of `src/sw.js`.

Modelling conventions.

* `localStorage` holds, per storage key, the JSON text of one value.  The
  embedding keeps the parsed value: `JSON.parse (JSON.stringify v) = v` for
  JSON values, and writes succeed (the quota path of `setItem`, which leaves the
  medium untouched, is not modelled).
* `Date.now()` is an explicit argument `now : Int` (milliseconds); every
  synchronous method body runs at one instant.
* A plain JavaScript object is an association list in own-property order
  (`Object.entries` order): array-index keys first, ascending, then the other
  keys in insertion order.  For the objects kept in the store, whose keys the
  application builds from fixed prefixes, keys are ordinary property names and
  the names inherited from `Object.prototype` are not modelled;
  `getCardImageUrl`, which indexes an object literal with its argument, models
  them (`objectPrototypeMembers`).
* `String.prototype.toLowerCase` is an argument `toLowerCase : String → String`
  of the functions that call it, so every theorem holds for the Unicode
  lowering of the host engine; `asciiLower` instantiates it on examples.
* A JavaScript value that may be `undefined` is an `Option Json`, `none`
  standing for `undefined`.
* Asynchronous code is cut at its `await`s: a method takes the outcome of the
  awaited promise as an argument (`Except JsError _`: the value it resolves
  with, or the error it rejects with), and the throttler is a transition system
  whose events are the runs of synchronous code.
-/

set_option autoImplicit false

namespace MysticalTeachings

/-! ## JSON values -/

/-- JSON values as produced by `JSON.parse`; numbers are restricted to integers. -/
inductive Json where
  | null
  | bool (b : Bool)
  | num (n : Int)
  | str (s : String)
  | arr (xs : List Json)
  | obj (kvs : List (String × Json))

namespace Json

mutual
/-- Structural equality test on JSON values. -/
def beq : Json → Json → Bool
  | null, null => true
  | bool a, bool b => a == b
  | num a, num b => a == b
  | str a, str b => a == b
  | arr xs, arr ys => beqList xs ys
  | obj xs, obj ys => beqObj xs ys
  | _, _ => false
/-- Structural equality test on lists of JSON values. -/
def beqList : List Json → List Json → Bool
  | [], [] => true
  | x :: xs, y :: ys => beq x y && beqList xs ys
  | _, _ => false
/-- Structural equality test on lists of members of a JSON object. -/
def beqObj : List (String × Json) → List (String × Json) → Bool
  | [], [] => true
  | (k, x) :: xs, (l, y) :: ys => k == l && beq x y && beqObj xs ys
  | _, _ => false
end

mutual
theorem beq_iff : ∀ a b : Json, beq a b = true ↔ a = b
  | null, b => by cases b <;> simp [beq]
  | bool a, b => by cases b <;> simp [beq]
  | num a, b => by cases b <;> simp [beq]
  | str a, b => by cases b <;> simp [beq]
  | arr xs, b => by cases b <;> simp [beq, beqList_iff xs]
  | obj xs, b => by cases b <;> simp [beq, beqObj_iff xs]
theorem beqList_iff : ∀ a b : List Json, beqList a b = true ↔ a = b
  | [], b => by cases b <;> simp [beqList]
  | x :: xs, b => by cases b <;> simp [beqList, beq_iff x, beqList_iff xs]
theorem beqObj_iff : ∀ a b : List (String × Json), beqObj a b = true ↔ a = b
  | [], b => by cases b <;> simp [beqObj]
  | (k, x) :: xs, b => by
    cases b with
    | nil => simp [beqObj]
    | cons p ys => cases p; simp [beqObj, beq_iff x, beqObj_iff xs, and_assoc]
end

instance instDecidableEq : DecidableEq Json := fun a b =>
  if h : beq a b = true then isTrue ((beq_iff a b).1 h)
  else isFalse (fun e => h ((beq_iff a b).2 e))

/-- JavaScript truthiness of a JSON value (`ToBoolean`): `null`, `false`, `0`
and the empty string are falsy, every array and object is truthy. -/
def truthy : Json → Bool
  | null => false
  | bool b => b
  | num n => n != 0
  | str s => s != ""
  | arr _ => true
  | obj _ => true

end Json

/-! ## Strings -/

/-- ECMAScript `WhiteSpace` and `LineTerminator` code points, the characters
removed by `String.prototype.trim`. -/
def isJsWhiteSpace (c : Char) : Bool :=
  let n := c.toNat
  n == 0x09 || n == 0x0A || n == 0x0B || n == 0x0C || n == 0x0D || n == 0x20 ||
  n == 0xA0 || n == 0x1680 || (0x2000 ≤ n && n ≤ 0x200A) || n == 0x2028 ||
  n == 0x2029 || n == 0x202F || n == 0x205F || n == 0x3000 || n == 0xFEFF

/-- `String.prototype.trim`: strip white space from both ends. -/
def trim (s : String) : String :=
  String.mk ((s.data.dropWhile isJsWhiteSpace).reverse.dropWhile isJsWhiteSpace).reverse

/-- Lowering of the ASCII letters, an instance of `toLowerCase` that agrees
with the host engine on ASCII text. -/
def asciiLower (s : String) : String :=
  String.mk (s.data.map Char.toLower)

/-- Substring test on character lists. -/
def includesChars : List Char → List Char → Bool
  | [], sub => sub.isEmpty
  | c :: cs, sub => sub.isPrefixOf (c :: cs) || includesChars cs sub

/-- `String.prototype.includes`. -/
def includes (s sub : String) : Bool :=
  includesChars s.data sub.data

/-! ## Plain objects as ordered association lists -/

/-- A plain JavaScript object with values in `β`, in own-property order. -/
abbrev Obj (β : Type) := List (String × β)

/-- Numeric value of a string of decimal digits read left to right. -/
def digitsValue : List Char → Nat → Option Nat
  | [], acc => some acc
  | c :: cs, acc => if c.isDigit then digitsValue cs (10 * acc + (c.toNat - 48)) else none

/-- The array index denoted by a property name: a canonical numeric string
(no sign, no leading zero) whose value is below `2^32 - 1`. -/
def arrayIndex (k : String) : Option Nat :=
  match k.data with
  | [] => none
  | c :: cs =>
    if c = '0' ∧ cs ≠ [] then none
    else match digitsValue (c :: cs) 0 with
      | some n => if n < 4294967295 then some n else none
      | none => none

namespace Obj

variable {β : Type}

/-- Property read `o[k]`; `none` stands for `undefined`. -/
def get (o : Obj β) (k : String) : Option β :=
  o.lookup k

/-- Whether `k` is an own property of `o`. -/
def has (o : Obj β) (k : String) : Bool :=
  o.any (fun e => e.1 == k)

/-- Position of a new array-index property `k` (of index `n`): after the
array-index properties of smaller index. -/
def insertIndex (n : Nat) (k : String) (v : β) : Obj β → Obj β
  | [] => [(k, v)]
  | e :: es =>
    match arrayIndex e.1 with
    | some m => if m < n then e :: insertIndex n k v es else (k, v) :: e :: es
    | none => (k, v) :: e :: es

/-- Property write `o[k] = v`: an existing property keeps its position, a new
one is created in own-property order. -/
def set (o : Obj β) (k : String) (v : β) : Obj β :=
  if o.has k then o.map (fun e => if e.1 = k then (k, v) else e)
  else match arrayIndex k with
    | some n => insertIndex n k v o
    | none => o ++ [(k, v)]

/-- Property removal `delete o[k]`. -/
def delete (o : Obj β) (k : String) : Obj β :=
  o.filter (fun e => e.1 ≠ k)

/-- The property names of `o`, `Object.keys` order. -/
def keys (o : Obj β) : List String :=
  o.map Prod.fst

end Obj

/-! ## The store -/

/-- An entry of the semantic cache, as written by `setCachedCard`. -/
structure CacheEntry where
  data : Json
  cached_at : Int
  access_count : Int
  last_accessed : Int
  deriving DecidableEq

/-- An item of the search history, as written by `addToSearchHistory`. -/
structure HistoryItem where
  query : String
  timestamp : Int
  id : String
  deriving DecidableEq

/-- A card handed to the favorites methods: its `id` and its other
properties (`favorited_at` apart). -/
structure Card where
  id : String
  props : Obj Json
  deriving DecidableEq

/-- An entry of the favorites list: `{...card, favorited_at}`. -/
structure Favorite where
  id : String
  props : Obj Json
  favorited_at : Int
  deriving DecidableEq

/-- The value stored under `mt_analytics`; `unique_searches` is the stored
array. -/
structure Analytics where
  total_searches : Int
  unique_searches : List String
  popular_searches : Obj Int
  last_search : Option Int
  deriving DecidableEq

/-- The parsed contents of `localStorage`: what `getItem` returns for each of
the keys of `STORAGE_KEYS` and for `mt_analytics`.  An absent list or cache
reads as empty (`getItem(...) || []`, `getItem(...) || {}`); absent settings
read as `null`; absent analytics read as `none`. -/
structure Store where
  search_history : List HistoryItem
  favorites : List Favorite
  cached_cards : Obj CacheEntry
  app_settings : Json
  analytics : Option Analytics
  deriving DecidableEq

/-- Constant `MAX_SEARCH_HISTORY`. -/
def MAX_SEARCH_HISTORY : Nat := 10

/-- Constant `MAX_CACHED_CARDS`. -/
def MAX_CACHED_CARDS : Nat := 50

/-- The `maxAge` of `getCachedCard`: `24 * 60 * 60 * 1000` milliseconds. -/
def maxAge : Int := 24 * 60 * 60 * 1000

/-! ## Card cache methods -/

/-- Method `getCachedCards`: the cache object. -/
def getCachedCards (s : Store) : Obj CacheEntry :=
  s.cached_cards

/-- Method `removeCachedCard`: delete the entry and persist the cache. -/
def removeCachedCard (s : Store) (cardId : String) : Store :=
  let cache := getCachedCards s
  { s with cached_cards := cache.delete cardId }

/-- Method `getCachedCard`: the payload of a live entry, else `null`; an
expired entry is removed.  Returns the value and the store afterwards. -/
def getCachedCard (s : Store) (cardId : String) (now : Int) : Json × Store :=
  let cache := getCachedCards s
  match cache.get cardId with
  | some cachedCard =>
    let cacheAge := now - cachedCard.cached_at
    if cacheAge < maxAge then (cachedCard.data, s)
    else (Json.null, removeCachedCard s cardId)
  | none => (Json.null, s)

/-- Comparator order of `manageCacheSize`: `a[1].last_accessed - b[1].last_accessed ≤ 0`. -/
def olderFirst (a b : String × CacheEntry) : Prop :=
  a.2.last_accessed ≤ b.2.last_accessed

instance olderFirstDecidable : DecidableRel olderFirst :=
  fun a b => inferInstanceAs (Decidable (a.2.last_accessed ≤ b.2.last_accessed))

instance olderFirstTotal : IsTotal (String × CacheEntry) olderFirst :=
  ⟨fun a b => le_total a.2.last_accessed b.2.last_accessed⟩

instance olderFirstTrans : IsTrans (String × CacheEntry) olderFirst :=
  ⟨fun _ _ _ h₁ h₂ => le_trans h₁ h₂⟩

/-- Method `manageCacheSize`: above capacity, sort the entries by
`last_accessed` (`Array.prototype.sort` is stable) and delete the keys of the
first `length - MAX_CACHED_CARDS` of them. -/
def manageCacheSize (cache : Obj CacheEntry) : Obj CacheEntry :=
  let cacheEntries := cache
  if cacheEntries.length > MAX_CACHED_CARDS then
    let sorted := cacheEntries.insertionSort olderFirst
    let entriesToRemove := cacheEntries.length - MAX_CACHED_CARDS
    (sorted.take entriesToRemove).foldl (fun c e => Obj.delete c e.1) cache
  else cache

/-- Method `setCachedCard`: write the entry, trim the cache, persist it. -/
def setCachedCard (s : Store) (cardId : String) (cardData : Json) (now : Int) : Store :=
  let cache := getCachedCards s
  let prior : Int := match cache.get cardId with
    | some e => if e.access_count = 0 then 0 else e.access_count
    | none => 0
  let cache := cache.set cardId
    { data := cardData, cached_at := now, access_count := prior + 1, last_accessed := now }
  { s with cached_cards := manageCacheSize cache }

/-- Method `updateCachedCardAccess`: touch an existing entry. -/
def updateCachedCardAccess (s : Store) (cardId : String) (now : Int) : Store :=
  let cache := getCachedCards s
  match cache.get cardId with
  | some e =>
    { s with cached_cards :=
        cache.set cardId { e with last_accessed := now, access_count := e.access_count + 1 } }
  | none => s

/-- Method `clearCardCache`. -/
def clearCardCache (s : Store) : Store :=
  { s with cached_cards := [] }

/-! ## Search history methods -/

/-- Method `getSearchHistory`. -/
def getSearchHistory (s : Store) : List HistoryItem :=
  s.search_history

/-- Method `addToSearchHistory`; `id` is the value of `generateId()`.  Returns
the result of `setItem` and the store afterwards. -/
def addToSearchHistory (toLowerCase : String → String) (s : Store) (query : String)
    (timestamp : Int) (id : String) : Bool × Store :=
  let history := getSearchHistory s
  let existingIndex :=
    history.findIdx? (fun item => toLowerCase item.query == toLowerCase query)
  let history := match existingIndex with
    | some i => history.eraseIdx i
    | none => history
  let history := { query := trim query, timestamp := timestamp, id := id } :: history
  let history :=
    if history.length > MAX_SEARCH_HISTORY then history.take MAX_SEARCH_HISTORY else history
  (true, { s with search_history := history })

/-! ## Favorites methods -/

/-- Method `getFavorites`. -/
def getFavorites (s : Store) : List Favorite :=
  s.favorites

/-- Method `addToFavorites`: `false` when the card is already a favorite. -/
def addToFavorites (s : Store) (card : Card) (now : Int) : Bool × Store :=
  let favorites := getFavorites s
  let alreadyThere := favorites.any (fun fav => fav.id == card.id)
  if alreadyThere then (false, s)
  else
    let favorites :=
      { id := card.id, props := card.props, favorited_at := now : Favorite } :: favorites
    (true, { s with favorites := favorites })

/-- Method `removeFromFavorites`. -/
def removeFromFavorites (s : Store) (cardId : String) : Bool × Store :=
  let favorites := getFavorites s
  let filteredFavorites := favorites.filter (fun fav => fav.id != cardId)
  (true, { s with favorites := filteredFavorites })

/-- Method `isFavorite`. -/
def isFavorite (s : Store) (cardId : String) : Bool :=
  (getFavorites s).any (fun fav => fav.id == cardId)

/-- Method `toggleFavorite`. -/
def toggleFavorite (s : Store) (card : Card) (now : Int) : Bool × Store :=
  if isFavorite s card.id then removeFromFavorites s card.id
  else addToFavorites s card now

/-! ## Export and import -/

/-- Method `getAppSettings`: the stored settings, `null` when absent. -/
def getAppSettings (s : Store) : Json :=
  s.app_settings

/-- The object serialised by `exportData`. -/
structure ExportData where
  search_history : List HistoryItem
  favorites : List Favorite
  app_settings : Json
  exported_at : Int
  version : String
  deriving DecidableEq

/-- Method `exportData`: the document whose JSON text is returned. -/
def exportData (s : Store) (now : Int) : ExportData :=
  { search_history := getSearchHistory s,
    favorites := getFavorites s,
    app_settings := getAppSettings s,
    exported_at := now,
    version := "1.0.0" }

/-- What `importData` reads off a parsed document: `search_history` and
`favorites` are `none` when the member is absent or falsy, `app_settings` is
`null` when the member is absent. -/
structure ImportDoc where
  search_history : Option (List HistoryItem)
  favorites : Option (List Favorite)
  app_settings : Json
  deriving DecidableEq

/-- `JSON.parse` of the text produced by `exportData`: the same members back;
arrays are truthy.  `none` would stand for a text that does not parse. -/
def parseExported (d : ExportData) : Option ImportDoc :=
  some { search_history := some d.search_history,
         favorites := some d.favorites,
         app_settings := d.app_settings }

/-- Method `importData` on the outcome of `JSON.parse(jsonData)` (`none`: the
parse, or reading a member of the parsed value, throws).  Returns the boolean
result and the store afterwards. -/
def importData (s : Store) (jsonData : Option ImportDoc) : Bool × Store :=
  match jsonData with
  | none => (false, s)
  | some data =>
    let s := match data.search_history with
      | some h => { s with search_history := h }
      | none => s
    let s := match data.favorites with
      | some f => { s with favorites := f }
      | none => s
    let s := if data.app_settings.truthy then { s with app_settings := data.app_settings } else s
    (true, s)

/-! ## Search analytics -/

/-- The in-memory `unique_searches` of `recordSearchAnalytics`: a `Set` in the
default object, the stored array after `getItem`. -/
inductive UniqueSearches where
  | set (members : List String)
  | array (items : List String)
  deriving DecidableEq

/-- A JavaScript error value: its `name` and `message`. -/
structure JsError where
  name : String
  message : String
  deriving DecidableEq

deriving instance DecidableEq for Except

/-- Call `unique_searches.add(x)`: `Set.prototype.add`, or a `TypeError` when
the receiver is an array. -/
def UniqueSearches.add (u : UniqueSearches) (x : String) : Except JsError UniqueSearches :=
  match u with
  | .set members => .ok (.set (if x ∈ members then members else members ++ [x]))
  | .array _ =>
    .error { name := "TypeError", message := "analytics.unique_searches.add is not a function" }

/-- `Array.from(unique_searches)`. -/
def UniqueSearches.toArray : UniqueSearches → List String
  | .set members => members
  | .array items => items

/-- Method `recordSearchAnalytics`: the thrown error, or the store afterwards.
The body never reads `resultCount`. -/
def recordSearchAnalytics (toLowerCase : String → String) (s : Store) (query : String)
    (_resultCount : Json) (now : Int) : Except JsError Store :=
  let (total, unique, popular) :=
    match s.analytics with
    | some a => (a.total_searches, UniqueSearches.array a.unique_searches, a.popular_searches)
    | none => (0, UniqueSearches.set [], [])
  let total := total + 1
  match unique.add (toLowerCase query) with
  | .error e => .error e
  | .ok unique =>
    let count : Int := match popular.get (toLowerCase query) with
      | some n => if n = 0 then 0 else n
      | none => 0
    let popular := popular.set (toLowerCase query) (count + 1)
    let stored : Analytics :=
      { total_searches := total, unique_searches := unique.toArray,
        popular_searches := popular, last_search := some now }
    .ok { s with analytics := some stored }

/-! ## The search path of the API client -/

/-- The options object of `searchCards`; `none` stands for an absent member. -/
structure SearchOptions where
  forceRefresh : Bool
  order : Option String
  direction : Option String
  unique : Option String
  page : Option Nat
  include_extras : Option Bool
  include_multilingual : Option Bool
  deriving DecidableEq

/-- Expression `v || d` on an optional string. -/
def orDefault (v : Option String) (d : String) : String :=
  match v with
  | some x => if x = "" then d else x
  | none => d

/-- The `URLSearchParams` built by `searchCards`. -/
def searchParams (query : String) (options : SearchOptions) : List (String × String) :=
  let page : Nat := match options.page with
    | some n => if n = 0 then 1 else n
    | none => 1
  [("q", query),
   ("order", orDefault options.order "name"),
   ("dir", orDefault options.direction "auto"),
   ("unique", orDefault options.unique "cards"),
   ("page", toString page)]
  ++ (match options.include_extras with
      | some b => [("include_extras", toString b)]
      | none => [])
  ++ (match options.include_multilingual with
      | some b => [("include_multilingual", toString b)]
      | none => [])

/-- The `cacheKey` of `searchCards`, a template over the lowercased query. -/
def searchCacheKey (toLowerCase : String → String) (query : String) : String :=
  "search_" ++ toLowerCase query

/-- The error thrown by `processQueue` for a response that is not `ok`. -/
def httpError (status : Nat) (statusText : String) : JsError :=
  { name := "Error", message := "HTTP " ++ toString status ++ ": " ++ statusText }

/-- Own enumerable properties copied by the spread `{...data}`. -/
def spreadProps : Json → Obj Json
  | .obj kvs => kvs
  | .arr xs => xs.enum.map fun p => (toString p.1, p.2)
  | .str t => t.data.enum.map fun p => (toString p.1, Json.str (String.singleton p.2))
  | _ => []

/-- Member read `data.data`; `none` stands for `undefined`. -/
def dataMember : Json → Option Json
  | .obj kvs => kvs.lookup "data"
  | _ => none

/-- The `processedData` of `searchCards`:
`{...data, data: data.data ? data.data.map(processCardData) : []}`. -/
def processSearchData (processCardData : Json → Except JsError Json) (data : Json) :
    Except JsError Json :=
  match data with
  | .null =>
    .error { name := "TypeError", message := "Cannot read properties of null (reading 'data')" }
  | _ =>
    match dataMember data with
    | some (.arr cards) =>
      match cards.mapM processCardData with
      | .ok processed => .ok (.obj ((spreadProps data).set "data" (.arr processed)))
      | .error e => .error e
    | some v =>
      if v.truthy then
        .error { name := "TypeError", message := "data.data.map is not a function" }
      else .ok (.obj ((spreadProps data).set "data" (.arr [])))
    | none => .ok (.obj ((spreadProps data).set "data" (.arr [])))

/-- Expression `processedData.total_cards || 0`. -/
def totalCardsOrZero (processedData : Json) : Json :=
  match (spreadProps processedData).get "total_cards" with
  | some v => if v.truthy then v else .num 0
  | none => .num 0

/-- The object returned by `searchCards` for a not-found failure. -/
def notFoundResult : Json :=
  .obj [("object", .str "error"), ("code", .str "not_found"), ("status", .num 404),
        ("details", .str "No cards found matching your search."), ("data", .arr [])]

/-- The `catch` block of `searchCards`: the value returned, or the error
thrown, for the caught `error`. -/
def searchCatch (error : JsError) : Except JsError Json :=
  if error.name = "AbortError" then
    .error { name := "Error", message := "Request timed out. Please try again." }
  else if includes error.message "404" then
    .ok notFoundResult
  else if includes error.message "429" then
    .error { name := "Error",
             message := "Too many requests. Please wait a moment and try again." }
  else
    .error { name := "Error",
             message := "Failed to search cards. Please check your connection." }

/-- One completed call of `searchCards`: what it returned or threw, the store
afterwards, and the request it passed to `makeRequest`, if any. -/
structure SearchRun where
  result : Except JsError Json
  store : Store
  request : Option (List (String × String))

/-- Method `searchCards`.  The cache lookup runs at `t0`; `response` is the
outcome of `makeRequest` (its resolved value or the error it rejects with) and
the code after the `await` runs at `t1`. -/
def searchCards (toLowerCase : String → String)
    (processCardData : Json → Except JsError Json) (s : Store) (query : String)
    (options : SearchOptions) (t0 t1 : Int) (response : Except JsError Json) : SearchRun :=
  let cacheKey := searchCacheKey toLowerCase query
  let (cachedResult, s) := getCachedCard s cacheKey t0
  if cachedResult.truthy && !options.forceRefresh then
    { result := .ok cachedResult, store := s, request := none }
  else
    let request := some (searchParams query options)
    match response with
    | .error e => { result := searchCatch e, store := s, request := request }
    | .ok data =>
      match processSearchData processCardData data with
      | .error e => { result := searchCatch e, store := s, request := request }
      | .ok processedData =>
        let s := setCachedCard s cacheKey processedData t1
        match recordSearchAnalytics toLowerCase s query (totalCardsOrZero processedData) t1 with
        | .error e => { result := searchCatch e, store := s, request := request }
        | .ok s => { result := .ok processedData, store := s, request := request }

/-- Two successive calls of `searchCards` for the same query: the second
starts from the store the first one left. -/
def searchCardsTwice (toLowerCase : String → String)
    (processCardData : Json → Except JsError Json) (s : Store) (query : String)
    (o₁ o₂ : SearchOptions) (t0 t1 t2 t3 : Int) (r₁ r₂ : Except JsError Json) :
    SearchRun × SearchRun :=
  let run₁ := searchCards toLowerCase processCardData s query o₁ t0 t1 r₁
  (run₁, searchCards toLowerCase processCardData run₁.store query o₂ t2 t3 r₂)

/-- Number of requests a run passed to `makeRequest`. -/
def SearchRun.requests (r : SearchRun) : Nat :=
  if r.request.isSome then 1 else 0

/-! ## Sample stores and responses -/

/-- A small cache holding one entry written at time `1000`. -/
def sampleStore : Store :=
  { search_history := [], favorites := [],
    cached_cards := [("search_bolt", { data := .str "page", cached_at := 1000,
                                       access_count := 1, last_accessed := 1000 })],
    app_settings := .null, analytics := none }

/-- A store with nothing in it: no history, no favorites, an empty cache, no
settings and no analytics. -/
def emptyStore : Store :=
  { search_history := [], favorites := [], cached_cards := [],
    app_settings := .null, analytics := none }

/-- A store holding the default settings written by `initializeStorage`. -/
def defaultStore : Store :=
  { emptyStore with
    app_settings := .obj [("theme", .str "auto"), ("cardImageQuality", .str "normal"),
                          ("enableNotifications", .bool false), ("cacheEnabled", .bool true)] }

/-- A store with one search, one favorite and a dark theme. -/
def usedStore : Store :=
  { emptyStore with
    search_history := [{ query := "bolt", timestamp := 1, id := "a" }],
    favorites := [{ id := "c1", props := [("name", .str "Shock")], favorited_at := 5 }],
    app_settings := .obj [("theme", .str "dark")] }

/-- A card normalizer that keeps the raw card, for the examples. -/
def keepCard : Json → Except JsError Json :=
  fun card => .ok card

/-- Options asking for a given page, nothing else set. -/
def pageOptions (n : Nat) : SearchOptions :=
  { forceRefresh := false, order := none, direction := none, unique := none,
    page := some n, include_extras := none, include_multilingual := none }

/-- A first page of search results as the remote API sends it. -/
def pageOne : Json :=
  .obj [("object", .str "list"), ("has_more", .bool true), ("data", .arr [.str "card A"])]

/-- A second page of search results. -/
def pageTwo : Json :=
  .obj [("object", .str "list"), ("has_more", .bool false), ("data", .arr [.str "card B"])]

/-- A cache at capacity: 50 entries `k`, `kk`, `kkk`, ... whose
`last_accessed` times are `100, 101, ..., 149`. -/
def fullCache : Obj CacheEntry :=
  (List.range 50).map fun i =>
    (String.mk (List.replicate (i + 1) 'k'),
      { data := .null, cached_at := 0, access_count := 1, last_accessed := 100 + i })

/-- A store whose cache is `fullCache`. -/
def fullStore : Store :=
  { search_history := [], favorites := [], cached_cards := fullCache,
    app_settings := .null, analytics := none }

/-! ## Analytics read-back -/

/-- `new Set(array)`: the members in first-occurrence order. -/
def setOfArray (items : List String) : List String :=
  items.foldl (fun members x => if x ∈ members then members else members ++ [x]) []

/-- The object returned by `getAnalytics`: the stored members, with
`unique_searches` rebuilt as a `Set`. -/
structure AnalyticsView where
  total_searches : Int
  unique_searches : UniqueSearches
  popular_searches : Obj Int
  last_search : Option Int
  deriving DecidableEq

/-- Method `getAnalytics`; `none` stands for `null`. -/
def getAnalytics (s : Store) : Option AnalyticsView :=
  match s.analytics with
  | some analytics =>
    some { total_searches := analytics.total_searches,
           unique_searches := .set (setOfArray analytics.unique_searches),
           popular_searches := analytics.popular_searches,
           last_search := analytics.last_search }
  | none => none

/-! ## Card normalization helpers -/

/-- One match of the pattern `\{([^}]+)\}` starting at the head of the text:
an opening brace, the longest run of characters other than the closing brace
(at least one), and a closing brace.  Returns the captured group and the text
after the match.  A shorter run cannot match, since it is followed by a
character of the run. -/
def matchManaToken : List Char → Option (List Char × List Char)
  | [] => none
  | c :: cs =>
    if c = '{' then
      match cs.takeWhile (fun x => x != '}'), cs.dropWhile (fun x => x != '}') with
      | g :: gs, d :: rest => if d = '}' then some (g :: gs, rest) else none
      | _, _ => none
    else none

/-- The loop `while ((match = regex.exec(manaCost)) !== null)`: the leftmost
match from the current position on is recorded and the search resumes behind
it.  Every round consumes a character, so a fuel equal to the length of the
text is never used up. -/
def execAll : Nat → List Char → List String
  | 0, _ => []
  | _ + 1, [] => []
  | fuel + 1, c :: cs =>
    match matchManaToken (c :: cs) with
    | some (group, rest) => String.mk group :: execAll fuel rest
    | none => execAll fuel cs

/-- A token between an opening and a closing brace, as in a cost notation. -/
def braced (t : String) : String :=
  "\x7b" ++ t ++ "\x7d"

/-- Method `parseManaSymbols`; `none` stands for an absent cost notation. -/
def parseManaSymbols (manaCost : Option String) : List String :=
  match manaCost with
  | none => []
  | some text => if text = "" then [] else execAll text.data.length text.data

/-- Truthiness of a JavaScript value; `none` stands for `undefined`. -/
def jsTruthy : Option Json → Bool
  | none => false
  | some v => v.truthy

/-- Expression `typeLine && test(typeLine)`: the falsy type line itself
(`undefined` or the empty string), otherwise the boolean result of the test. -/
def guardTypeLine (typeLine : Option String) (test : String → Bool) : Option Json :=
  match typeLine with
  | none => none
  | some t => if t = "" then some (.str "") else some (.bool (test t))

/-- Method `isCreature`. -/
def isCreature (toLowerCase : String → String) (typeLine : Option String) : Option Json :=
  guardTypeLine typeLine (fun t => includes (toLowerCase t) "creature")

/-- Method `isPlaneswalker`. -/
def isPlaneswalker (toLowerCase : String → String) (typeLine : Option String) : Option Json :=
  guardTypeLine typeLine (fun t => includes (toLowerCase t) "planeswalker")

/-- Method `isSpell`. -/
def isSpell (toLowerCase : String → String) (typeLine : Option String) : Option Json :=
  guardTypeLine typeLine
    (fun t => includes (toLowerCase t) "instant" || includes (toLowerCase t) "sorcery")

/-- Method `isLand`. -/
def isLand (toLowerCase : String → String) (typeLine : Option String) : Option Json :=
  guardTypeLine typeLine (fun t => includes (toLowerCase t) "land")

/-- The members of a raw API card from which `processCardData` derives the
flags and the mana symbols; `none` stands for an absent member. -/
structure RawCard where
  type_line : Option String
  mana_cost : Option String
  deriving DecidableEq

/-- The members of the object built by `processCardData` that depend on
`type_line` and `mana_cost`. -/
structure DerivedCard where
  mana_cost : String
  type_line : String
  is_creature : Option Json
  is_planeswalker : Option Json
  is_spell : Option Json
  is_land : Option Json
  mana_symbols : List String
  processed_at : Int
  deriving DecidableEq

/-- Method `processCardData` on a card object, restricted to the members
listed in `DerivedCard`; the other members of the result are copies of, or
defaults for, members of the raw card. -/
def processCardData (toLowerCase : String → String) (card : RawCard) (now : Int) :
    DerivedCard :=
  { mana_cost := orDefault card.mana_cost "",
    type_line := orDefault card.type_line "",
    is_creature := isCreature toLowerCase card.type_line,
    is_planeswalker := isPlaneswalker toLowerCase card.type_line,
    is_spell := isSpell toLowerCase card.type_line,
    is_land := isLand toLowerCase card.type_line,
    mana_symbols := parseManaSymbols card.mana_cost,
    processed_at := now }

/-- Member read `value.k` on a JSON value other than `null`; `none` stands for
`undefined`. -/
def Json.member (value : Json) (k : String) : Option Json :=
  match value with
  | .obj kvs => kvs.lookup k
  | _ => none

/-- The quality tiers listed in the `qualityMap` of `getCardImageUrl`. -/
def qualityTiers : List String :=
  ["small", "normal", "large", "png", "art_crop", "border_crop"]

/-- The names of the members that an object literal inherits from
`Object.prototype`.  Each is a function, except `__proto__`, which reads as the
prototype object; all of them are truthy. -/
def objectPrototypeMembers : List String :=
  ["constructor", "__defineGetter__", "__defineSetter__", "hasOwnProperty",
   "__lookupGetter__", "__lookupSetter__", "isPrototypeOf", "propertyIsEnumerable",
   "toString", "valueOf", "__proto__", "toLocaleString"]

/-- What a property read yields in `getCardImageUrl`: a JSON value, or a
built-in member `name` inherited from the prototype `owner`, which is no JSON
value. -/
inductive PropertyValue where
  | json (v : Json)
  | inherited (owner name : String)
  deriving DecidableEq

/-- Truthiness of a property value: built-in members are functions or
objects, hence truthy. -/
def PropertyValue.truthy : PropertyValue → Bool
  | .json v => v.truthy
  | .inherited _ _ => true

/-- Expression `card.image_uris.<tier>` for one of the six tiers, where
`image_uris` is truthy; `none` stands for `undefined`.  An object yields its own
member (no tier is the name of an inherited one).  A string yields the method
`String.prototype.small` for the tier `small` and nothing for the other tiers.
Arrays, numbers and `true` have no member named like a tier. -/
def readTier (image_uris : Json) (tier : String) : Option PropertyValue :=
  match image_uris with
  | .obj kvs => (kvs.lookup tier).map .json
  | .str _ => if tier = "small" then some (.inherited "String.prototype" "small") else none
  | _ => none

/-- Method `getCardImageUrl` on a card object; `some (.json .null)` is the
returned `null`, `none` stands for `undefined`.  `qualityMap` is an object
literal with six members of its own, so `qualityMap[quality]` is that member
for a tier, the member inherited from `Object.prototype` for a name of
`objectPrototypeMembers`, and `undefined` for any other name. -/
def getCardImageUrl (card : Obj Json) (quality : String) : Option PropertyValue :=
  match card.get "image_uris" with
  | none => some (.json .null)
  | some image_uris =>
    if !image_uris.truthy then some (.json .null)
    else
      let qualityMap : Obj (Option PropertyValue) :=
        [("small", readTier image_uris "small"),
         ("normal", readTier image_uris "normal"),
         ("large", readTier image_uris "large"),
         ("png", readTier image_uris "png"),
         ("art_crop", readTier image_uris "art_crop"),
         ("border_crop", readTier image_uris "border_crop")]
      let member : Option PropertyValue :=
        match qualityMap.get quality with
        | some own => own
        | none =>
          if quality ∈ objectPrototypeMembers then
            some (.inherited "Object.prototype" quality)
          else none
      match member with
      | some url => if url.truthy then some url else readTier image_uris "normal"
      | none => readTier image_uris "normal"

/-! ## Suggestions -/

/-- Method `getRecentSearchSuggestions`. -/
def getRecentSearchSuggestions (toLowerCase : String → String) (s : Store) (query : String)
    (limit : Nat) : List String :=
  let history := getSearchHistory s
  let lowercaseQuery := toLowerCase query
  ((history.filter (fun item => includes (toLowerCase item.query) lowercaseQuery)).take
    limit).map (fun item => item.query)

/-- A suggestion object: `{type: 'history', name}` or
`{type: 'card', name, image, type_line, id}`; `none` stands for `undefined`. -/
inductive Suggestion where
  | history (name : String)
  | card (name image type_line id : Option Json)
  deriving DecidableEq

/-- The `length` of a string: its number of UTF-16 code units. -/
def utf16Length (s : String) : Nat :=
  (s.data.map fun c => if c.toNat < 0x10000 then 1 else 2).sum

/-- Call `xs.slice(0, end)`: a negative `end` counts from the end. -/
def sliceTo {α : Type} (xs : List α) (stop : Int) : List α :=
  if stop < 0 then xs.take (xs.length - stop.natAbs) else xs.take stop.toNat

/-- The suggestion object built from a card other than `null`. -/
def cardSuggestionOf (card : Json) : Suggestion :=
  let image := match card.member "image_uris" with
    | none => none
    | some .null => none
    | some image_uris => image_uris.member "small"
  .card (card.member "name") image (card.member "type_line") (card.member "id")

/-- The callback of `searchResult.data.slice(...).map(...)`: reading a member
of `null` throws. -/
def cardSuggestion (card : Json) : Except JsError Suggestion :=
  match card with
  | .null =>
    .error { name := "TypeError", message := "Cannot read properties of null (reading 'name')" }
  | _ => .ok (cardSuggestionOf card)

/-- Method `getCardSuggestions`; `searchOutcome` is what the awaited
`searchCards` call returned or threw. -/
def getCardSuggestions (toLowerCase : String → String) (s : Store) (query : String)
    (limit : Nat) (searchOutcome : Except JsError Json) : List Suggestion :=
  if utf16Length query < 2 then []
  else
    let historySuggestions := getRecentSearchSuggestions toLowerCase s query 3
    let fallback :=
      (getRecentSearchSuggestions toLowerCase s query limit).map Suggestion.history
    match searchOutcome with
    | .error _ => fallback
    | .ok .null => fallback
    | .ok searchResult =>
      let cardSuggestions : Except JsError (List Suggestion) :=
        match dataMember searchResult with
        | some (.arr data) =>
          (sliceTo data ((limit : Int) - historySuggestions.length)).mapM cardSuggestion
        | some data =>
          if data.truthy then
            .error { name := "TypeError", message := "searchResult.data.slice(...).map is not a function" }
          else .ok []
        | none => .ok []
      match cardSuggestions with
      | .error _ => fallback
      | .ok cardSuggestions =>
        (historySuggestions.map Suggestion.history ++ cardSuggestions).take limit


/-! ## The request throttler

`makeRequest` and `processQueue` of `ScryfallAPI` as a transition system.  A
state holds the fields of the object, the pending timers, the dispatch
callbacks suspended at an `await`, and a record of what has happened.  An event
is one run of synchronous code: a call of `makeRequest`, a timer callback, or
the resumption of a dispatch callback after its `await`. -/

/-- The `options` argument of `makeRequest`; `none` stands for an absent
member.  `body` is the value whose JSON text is sent. -/
structure RequestOptions where
  method : Option String
  headers : Option (Obj String)
  body : Option Json
  deriving DecidableEq

/-- The options object that `processQueue` passes to `fetchWithTimeout`. -/
structure FetchInit where
  method : String
  headers : Obj String
  body : Option Json
  deriving DecidableEq

/-- Field `userAgent`. -/
def userAgent : String := "Mystical Teachings PWA/1.0"

/-- Field `minRequestInterval`, in milliseconds. -/
def minRequestInterval : Int := 100

/-- The default `timeout` of `fetchWithTimeout`, in milliseconds. -/
def fetchTimeout : Int := 10000

/-- The object literal of `processQueue`:
`{ method: 'GET', headers: { 'User-Agent': ..., 'Accept': ..., ...options.headers }, ...options }`.
The members of `options` are spread last and replace the members written
before them. -/
def fetchInit (options : RequestOptions) : FetchInit :=
  let headers : Obj String :=
    (options.headers.getD []).foldl (fun h kv => h.set kv.1 kv.2)
      [("User-Agent", userAgent), ("Accept", "application/json")]
  { method := match options.method with
      | some m => m
      | none => "GET",
    headers := match options.headers with
      | some h => h
      | none => headers,
    body := options.body }

/-- The options that `getMultipleCards` passes to `makeRequest`. -/
def getMultipleCardsOptions (cardIds : List String) : RequestOptions :=
  { method := some "POST",
    headers := some [("Content-Type", "application/json")],
    body := some (.obj [("identifiers", .arr (cardIds.map fun id => .obj [("id", .str id)]))]) }

/-- An entry of `requestQueue`; `id` names the promise returned by the
`makeRequest` call, that is its `resolve` and `reject`. -/
structure QueuedRequest where
  id : Nat
  url : String
  options : RequestOptions
  deriving DecidableEq

/-- A dispatch callback suspended at an `await`: its request, the time at
which the fetch started, and whether the response has arrived (the callback
then awaits `response.json()`). -/
structure InFlight where
  request : QueuedRequest
  started : Int
  awaitingBody : Bool
  deriving DecidableEq

/-- Record of a dispatch: the time at which `fetchWithTimeout` was called, and
with what. -/
structure Dispatch where
  time : Int
  id : Nat
  url : String
  init : FetchInit
  deriving DecidableEq

/-- State of the throttler. -/
structure Throttler where
  requestQueue : List QueuedRequest
  isRateLimited : Bool
  lastRequestTime : Int
  /-- Due times of the pending dispatch callbacks (`setTimeout(..., waitTime)`). -/
  dispatchTimers : List Int
  /-- Due times of the pending `setTimeout(() => this.processQueue(), ...)`. -/
  drainTimers : List Int
  inFlight : List InFlight
  /-- Time of the latest event. -/
  clock : Int
  /-- The dispatches so far, oldest first. -/
  dispatches : List Dispatch
  /-- The promises settled so far, oldest first, with their outcome. -/
  settled : List (Nat × Except JsError Json)
  /-- Errors thrown by a dispatch callback outside its `try`. -/
  uncaught : List JsError
  deriving DecidableEq

/-- The throttler as constructed at time `now`. -/
def Throttler.init (now : Int) : Throttler :=
  { requestQueue := [], isRateLimited := false, lastRequestTime := 0,
    dispatchTimers := [], drainTimers := [], inFlight := [], clock := now,
    dispatches := [], settled := [], uncaught := [] }

/-- Method `processQueue`, up to the `setTimeout` call it ends with. -/
def processQueue (t : Throttler) (now : Int) : Throttler :=
  if t.isRateLimited || t.requestQueue.isEmpty then t
  else
    let timeSinceLastRequest := now - t.lastRequestTime
    let waitTime := max 0 (minRequestInterval - timeSinceLastRequest)
    { t with isRateLimited := true, dispatchTimers := t.dispatchTimers ++ [now + waitTime] }

/-- Method `makeRequest`: enqueue, then call `processQueue`. -/
def makeRequest (t : Throttler) (now : Int) (request : QueuedRequest) : Throttler :=
  processQueue { t with requestQueue := t.requestQueue ++ [request] } now

/-- The dispatch callback up to its first `await`: take the queue head and
call `fetchWithTimeout`.  Destructuring the head of an empty queue throws
outside the `try`. -/
def dispatchHead (t : Throttler) (now : Int) : Throttler :=
  match t.requestQueue with
  | [] =>
    { t with uncaught := t.uncaught ++
        [{ name := "TypeError", message := "Cannot destructure property of undefined" }] }
  | head :: rest =>
    { t with
      requestQueue := rest,
      inFlight := t.inFlight ++ [{ request := head, started := now, awaitingBody := false }],
      dispatches := t.dispatches ++
        [{ time := now, id := head.id, url := head.url, init := fetchInit head.options }] }

/-- The `finally` block of the dispatch callback, entered when the callback of
request `id` ends. -/
def finish (t : Throttler) (now : Int) (id : Nat) : Throttler :=
  { t with
    inFlight := t.inFlight.filter (fun f => f.request.id != id),
    isRateLimited := false,
    drainTimers :=
      if t.requestQueue.isEmpty then t.drainTimers
      else t.drainTimers ++ [now + minRequestInterval] }

/-- Settle the promise of request `id`, then run `finally`. -/
def settle (t : Throttler) (now : Int) (id : Nat) (outcome : Except JsError Json) :
    Throttler :=
  finish { t with settled := t.settled ++ [(id, outcome)] } now id

/-- One run of synchronous code of the throttler. -/
inductive Event where
  /-- A call `makeRequest(url, options)`. -/
  | request (r : QueuedRequest)
  /-- The dispatch callback scheduled for `due` runs. -/
  | dispatchTimer (due : Int)
  /-- The callback `() => this.processQueue()` scheduled for `due` runs. -/
  | drainTimer (due : Int)
  /-- The fetch of request `id` resolves with a response. -/
  | response (id : Nat) (status : Nat) (statusText : String)
  /-- The fetch of request `id` rejects with a network error. -/
  | networkError (id : Nat) (message : String)
  /-- The timeout of `fetchWithTimeout` aborts the fetch of request `id`. -/
  | timeout (id : Nat)
  /-- The promise `response.json()` of request `id` settles. -/
  | body (id : Nat) (result : Except JsError Json)
  deriving DecidableEq

/-- Property `response.ok`. -/
def statusOk (status : Nat) : Bool :=
  200 ≤ status && status ≤ 299

/-- The throttler after the event `ev` at time `now`; `none` when the event
cannot happen in state `t` at that time (time running backwards, a timer that
is not pending or not yet due, a request that is not awaiting this). -/
def Throttler.step (t : Throttler) (now : Int) (ev : Event) : Option Throttler :=
  if now < t.clock then none
  else
    let t := { t with clock := now }
    match ev with
    | .request r => some (makeRequest t now r)
    | .dispatchTimer due =>
      if due ∈ t.dispatchTimers ∧ due ≤ now then
        some (dispatchHead { t with dispatchTimers := t.dispatchTimers.erase due } now)
      else none
    | .drainTimer due =>
      if due ∈ t.drainTimers ∧ due ≤ now then
        some (processQueue { t with drainTimers := t.drainTimers.erase due } now)
      else none
    | .response id status statusText =>
      match t.inFlight.find? (fun f => f.request.id == id && !f.awaitingBody) with
      | some f =>
        let t := { t with lastRequestTime := now }
        if statusOk status then
          some { t with inFlight := t.inFlight.map fun g =>
                  if g = f then { g with awaitingBody := true } else g }
        else some (settle t now id (.error (httpError status statusText)))
      | none => none
    | .networkError id message =>
      match t.inFlight.find? (fun f => f.request.id == id && !f.awaitingBody) with
      | some _ => some (settle t now id (.error { name := "TypeError", message := message }))
      | none => none
    | .timeout id =>
      match t.inFlight.find? (fun f => f.request.id == id && !f.awaitingBody) with
      | some f =>
        if f.started + fetchTimeout ≤ now then
          some (settle t now id
            (.error { name := "AbortError", message := "The user aborted a request." }))
        else none
      | none => none
    | .body id result =>
      match t.inFlight.find? (fun f => f.request.id == id && f.awaitingBody) with
      | some _ => some (settle t now id result)
      | none => none

/-- The throttler after a sequence of timed events, when each can happen. -/
def Throttler.run (t : Throttler) : List (Int × Event) → Option Throttler
  | [] => some t
  | (now, ev) :: rest =>
    match t.step now ev with
    | some t' => t'.run rest
    | none => none

/-- The times of the dispatches so far. -/
def Throttler.dispatchTimes (t : Throttler) : List Int :=
  t.dispatches.map (fun d => d.time)


/-! ## The service worker

The `fetch` listener of `src/sw.js` with `handleApiRequest` and
`handleImageRequest`.  The Cache API itself is taken to work: `caches.match`
and `caches.open` settle with a value.  A handler sees the cache through the
outcome of `caches.match(request)`, and the network through the outcome of
`fetch(request)`. -/

/-- Constant `STATIC_ASSETS`. -/
def STATIC_ASSETS : List String :=
  ["./", "./index.html", "./css/styles.css", "./css/cards.css", "./css/mana-symbols.css",
   "./js/app.js", "./js/api.js", "./js/cards.js", "./js/storage.js", "./manifest.json",
   "./icon.jpg"]

/-- Constant `API_CACHE_DURATION`: 24 hours in milliseconds. -/
def API_CACHE_DURATION : Int := 24 * 60 * 60 * 1000

/-- Constant `IMAGE_CACHE_DURATION`: 7 days in milliseconds. -/
def IMAGE_CACHE_DURATION : Int := 7 * 24 * 60 * 60 * 1000

/-- A request handed to the `fetch` listener: its `url`, the `hostname` of
`new URL(url)`, and its `destination`. -/
structure SwRequest where
  url : String
  hostname : String
  destination : String
  deriving DecidableEq

/-- A `Response`.  `cachedAt` is the number read by
`parseInt(headers.get('sw-cached-at'))`; `none` when the header is absent,
empty or not a number, the cases in which the freshness test is false. -/
structure SwResponse where
  status : Nat
  statusText : String
  body : String
  cachedAt : Option Int
  deriving DecidableEq

/-- Where the response returned by a handler comes from. -/
inductive SwReply where
  /-- The response of `fetch(request)`. -/
  | network (r : SwResponse)
  /-- A response found by `caches.match`. -/
  | cache (r : SwResponse)
  /-- A response built by the handler with `new Response(...)`. -/
  | synthesized (r : SwResponse)
  deriving DecidableEq

/-- What a handler returns and what it stores with `cache.put`, if anything. -/
structure SwOutcome where
  reply : SwReply
  stored : Option SwResponse
  deriving DecidableEq

/-- The copy stored by the handlers: status, status text and body of the
network response, stamped with `sw-cached-at: Date.now()`. -/
def stamped (r : SwResponse) (now : Int) : SwResponse :=
  { status := r.status, statusText := r.statusText, body := r.body, cachedAt := some now }

/-- The offline response of `handleApiRequest`: status 503 with a JSON body. -/
def offlineResponse : SwResponse :=
  { status := 503, statusText := "",
    body := "\x7b\"error\":\"offline\",\"message\":\"Unable to fetch data. Please check your connection.\"\x7d",
    cachedAt := none }

/-- The placeholder response of `handleImageRequest`: status 404, empty body. -/
def imageNotFound : SwResponse :=
  { status := 404, statusText := "Image not found", body := "", cachedAt := none }

/-- The test `cachedAt && (now - parseInt(cachedAt)) < duration`. -/
def isFresh (r : SwResponse) (now duration : Int) : Bool :=
  match r.cachedAt with
  | some t => now - t < duration
  | none => false

/-- Function `handleApiRequest`; `cached` is the outcome of
`caches.match(request)`, `net` the outcome of `fetch(request)`. -/
def handleApiRequest (cached : Option SwResponse) (net : Except JsError SwResponse)
    (now : Int) : SwOutcome :=
  let fallback : SwOutcome :=
    match cached with
    | some cachedResponse =>
      if isFresh cachedResponse now API_CACHE_DURATION then
        { reply := .cache cachedResponse, stored := none }
      else { reply := .synthesized offlineResponse, stored := none }
    | none => { reply := .synthesized offlineResponse, stored := none }
  match net with
  | .ok networkResponse =>
    if statusOk networkResponse.status then
      { reply := .network networkResponse, stored := some (stamped networkResponse now) }
    else fallback
  | .error _ => fallback

/-- Function `handleImageRequest`.  The `catch` block asks the cache again and
finds what the first lookup found. -/
def handleImageRequest (cached : Option SwResponse) (net : Except JsError SwResponse)
    (now : Int) : SwOutcome :=
  let lastResort : SwOutcome :=
    match cached with
    | some cachedResponse => { reply := .cache cachedResponse, stored := none }
    | none => { reply := .synthesized imageNotFound, stored := none }
  let viaNetwork : SwOutcome :=
    match net with
    | .ok networkResponse =>
      if statusOk networkResponse.status then
        { reply := .network networkResponse, stored := some (stamped networkResponse now) }
      else
        match cached with
        | some cachedResponse => { reply := .cache cachedResponse, stored := none }
        | none => lastResort
    | .error _ => lastResort
  match cached with
  | some cachedResponse =>
    if isFresh cachedResponse now IMAGE_CACHE_DURATION then
      { reply := .cache cachedResponse, stored := none }
    else viaNetwork
  | none => viaNetwork

/-- What the promise given to `event.respondWith` settles with. -/
inductive Settlement where
  | replied (r : SwReply)
  /-- The promise resolves with `undefined`. -/
  | nothing
  | rejected (e : JsError)
  deriving DecidableEq

/-- The `fetch` listener; `shell` is the outcome of
`caches.match('./index.html')`. -/
def onFetch (request : SwRequest) (cached shell : Option SwResponse)
    (net : Except JsError SwResponse) (now : Int) : Settlement :=
  if STATIC_ASSETS.any (fun asset => includes request.url asset) then
    match cached with
    | some response => .replied (.cache response)
    | none =>
      match net with
      | .ok response => .replied (.network response)
      | .error e => .rejected e
  else if request.hostname = "api.scryfall.com" then
    .replied (handleApiRequest cached net now).reply
  else if request.hostname = "cards.scryfall.io" ∨ request.hostname = "c1.scryfall.com" then
    .replied (handleImageRequest cached net now).reply
  else
    match cached with
    | some response => .replied (.cache response)
    | none =>
      match net with
      | .ok fetchResponse => .replied (.network fetchResponse)
      | .error _ =>
        if request.destination = "document" then
          match shell with
          | some response => .replied (.cache response)
          | none => .nothing
        else .nothing

/-! ## Sample requests and traces -/

/-- Options of a plain `makeRequest(url)` call. -/
def noOptions : RequestOptions :=
  { method := none, headers := none, body := none }

/-- Two calls of `makeRequest` ten milliseconds apart, the fetch of the first
failing at once with a network error, as it does offline. -/
def offlineBurst : List (Int × Event) :=
  [(1000, .request { id := 1, url := "https://api.scryfall.com/cards/search?q=bolt",
                     options := noOptions }),
   (1000, .dispatchTimer 1000),
   (1005, .networkError 1 "Failed to fetch"),
   (1010, .request { id := 2, url := "https://api.scryfall.com/cards/search?q=shock",
                     options := noOptions }),
   (1010, .dispatchTimer 1010)]

/-- A batch lookup entering the throttler and being dispatched. -/
def batchLookup : List (Int × Event) :=
  [(1000, .request { id := 1, url := "https://api.scryfall.com/cards/collection",
                     options := getMultipleCardsOptions ["c1", "c2"] }),
   (1000, .dispatchTimer 1000)]

/-- A script of the application, requested by a page. -/
def scriptRequest : SwRequest :=
  { url := "https://example.org/app/js/app.js", hostname := "example.org",
    destination := "script" }

/-- A request for a card image. -/
def imageRequest : SwRequest :=
  { url := "https://cards.scryfall.io/normal/front/a/b/ab.jpg",
    hostname := "cards.scryfall.io", destination := "image" }

/-- A search request to the card API. -/
def apiRequest : SwRequest :=
  { url := "https://api.scryfall.com/cards/search?q=bolt", hostname := "api.scryfall.com",
    destination := "" }

/-- An image response stored eight days before time `800000000`. -/
def staleImage : SwResponse :=
  { status := 200, statusText := "OK", body := "jpeg bytes",
    cachedAt := some (800000000 - 8 * 24 * 60 * 60 * 1000) }

/-- An API response stored one hour before time `800000000`. -/
def recentPage : SwResponse :=
  { status := 200, statusText := "OK", body := "page", cachedAt := some (800000000 - 3600000) }

/-- The error with which `fetch` rejects when the network is down. -/
def networkDown : JsError :=
  { name := "TypeError", message := "Failed to fetch" }


/-! ## Card lookups by name and by identifier -/

/-- The `cacheKey` of `getCardByName`, a template over the lowercased name. -/
def cardNameCacheKey (toLowerCase : String → String) (name : String) : String :=
  "card_" ++ toLowerCase name

/-- The `cacheKey` of `getCardById`, a template over the identifier. -/
def cardIdCacheKey (id : String) : String :=
  "card_id_" ++ id

/-- The request a card lookup passes to `makeRequest`: `/cards/named` with
the parameter `fuzzy` or `exact`, or `/cards/` followed by the identifier. -/
inductive CardRequest where
  | named (fuzzy : Bool) (name : String)
  | byId (id : String)
  deriving DecidableEq

/-- One completed call of `getCardByName` or `getCardById`: what it returned
or threw, the store afterwards, and the request it sent, if any. -/
structure CardRun where
  result : Except JsError Json
  store : Store
  request : Option CardRequest

/-- Method `getCardByName`.  The cache lookup runs at `t0`; `response` is the
outcome of `makeRequest` and the code after the `await` runs at `t1`. -/
def getCardByName (toLowerCase : String → String)
    (processCardData : Json → Except JsError Json) (s : Store) (name : String)
    (fuzzy : Bool) (t0 t1 : Int) (response : Except JsError Json) : CardRun :=
  let cacheKey := cardNameCacheKey toLowerCase name
  let (cachedCard, s) := getCachedCard s cacheKey t0
  if cachedCard.truthy then
    { result := .ok cachedCard, store := updateCachedCardAccess s cacheKey t0, request := none }
  else
    let request := some (CardRequest.named fuzzy name)
    let caught (error : JsError) : Except JsError Json :=
      if includes error.message "404" then
        .error { name := "Error", message := "Card \"" ++ name ++ "\" not found." }
      else .error { name := "Error", message := "Failed to fetch card details." }
    match response with
    | .error e => { result := caught e, store := s, request := request }
    | .ok data =>
      match processCardData data with
      | .error e => { result := caught e, store := s, request := request }
      | .ok processedCard =>
        { result := .ok processedCard, store := setCachedCard s cacheKey processedCard t1,
          request := request }

/-- Method `getCardById`. -/
def getCardById (processCardData : Json → Except JsError Json) (s : Store) (id : String)
    (t0 t1 : Int) (response : Except JsError Json) : CardRun :=
  let cacheKey := cardIdCacheKey id
  let (cachedCard, s) := getCachedCard s cacheKey t0
  if cachedCard.truthy then
    { result := .ok cachedCard, store := updateCachedCardAccess s cacheKey t0, request := none }
  else
    let request := some (CardRequest.byId id)
    let caught : Except JsError Json :=
      .error { name := "Error", message := "Failed to fetch card by ID." }
    match response with
    | .error _ => { result := caught, store := s, request := request }
    | .ok data =>
      match processCardData data with
      | .error _ => { result := caught, store := s, request := request }
      | .ok processedCard =>
        { result := .ok processedCard, store := setCachedCard s cacheKey processedCard t1,
          request := request }

/-! ## Executions of the throttler -/

/-- The states the throttler can be in: those reached from a newly
constructed throttler by some sequence of events. -/
def Throttler.Reachable (t : Throttler) : Prop :=
  ∃ (start : Int) (events : List (Int × Event)), (Throttler.init start).run events = some t

/-- The requests passed to `makeRequest` in a sequence of events, in order. -/
def requestsOf : List (Int × Event) → List QueuedRequest
  | [] => []
  | (_, .request r) :: rest => r :: requestsOf rest
  | _ :: rest => requestsOf rest

/-- The request and the error of an event that makes a dispatch fail: a
network error, a timeout, or a response whose status is not `ok`. -/
def Event.failure : Event → Option (Nat × JsError)
  | .networkError id message => some (id, { name := "TypeError", message := message })
  | .timeout id => some (id, { name := "AbortError", message := "The user aborted a request." })
  | .response id status statusText =>
    if statusOk status then none else some (id, httpError status statusText)
  | _ => none

/-- The three situations of the throttler: idle; a dispatch callback pending
while the queue waits; one request in flight. -/
def Throttler.Serialized (t : Throttler) : Prop :=
  t.uncaught = [] ∧
  ((t.isRateLimited = false ∧ t.dispatchTimers = [] ∧ t.inFlight = []) ∨
   (t.isRateLimited = true ∧ (∃ due, t.dispatchTimers = [due]) ∧ t.inFlight = [] ∧
      t.requestQueue ≠ []) ∨
   (t.isRateLimited = true ∧ t.dispatchTimers = [] ∧ ∃ f, t.inFlight = [f]))

/-- Every dispatched request is accounted for: the promises settled so far
followed by the requests in flight are the requests dispatched so far. -/
def Throttler.Accounted (t : Throttler) : Prop :=
  t.settled.map Prod.fst ++ t.inFlight.map (fun f => f.request.id)
    = t.dispatches.map (fun d => d.id)

/-! ## Further samples -/

/-- A processed card, as a lookup caches it. -/
def sampleCard : Json :=
  .obj [("id", .str "c1"), ("name", .str "Shock")]

/-- A request is made and dispatched, another one waits in the queue. -/
def oneInFlight : List (Int × Event) :=
  [(1000, .request { id := 1, url := "https://api.scryfall.com/cards/random",
                     options := noOptions }),
   (1000, .request { id := 2, url := "https://api.scryfall.com/cards/random",
                     options := noOptions }),
   (1000, .dispatchTimer 1000)]


/-- A cache above capacity: the 50 entries of `fullCache` followed by two
entries whose `last_accessed` is `100`, that of the first entry `k`. -/
def overfullCache : Obj CacheEntry :=
  fullCache ++
    [("tie", { data := .null, cached_at := 0, access_count := 1, last_accessed := 100 }),
     ("late", { data := .null, cached_at := 0, access_count := 1, last_accessed := 100 })]


/-- The first request of `oneInFlight`. -/
def firstRequest : QueuedRequest :=
  { id := 1, url := "https://api.scryfall.com/cards/random", options := noOptions }

/-- The second request of `oneInFlight`. -/
def secondRequest : QueuedRequest :=
  { id := 2, url := "https://api.scryfall.com/cards/random", options := noOptions }

/-- The throttler after `oneInFlight`, started at time 0: the first request
is in flight since time 1000 and the second one waits in the queue. -/
def queuedBehind : Throttler :=
  { requestQueue := [secondRequest], isRateLimited := true, lastRequestTime := 0,
    dispatchTimers := [], drainTimers := [],
    inFlight := [{ request := firstRequest, started := 1000, awaitingBody := false }],
    clock := 1000,
    dispatches := [{ time := 1000, id := 1, url := "https://api.scryfall.com/cards/random",
                     init := fetchInit noOptions }],
    settled := [], uncaught := [] }

/-- The throttler `queuedBehind` after the fetch of the first request failed
at time 1005 with a network error. -/
def afterFailure : Throttler :=
  { queuedBehind with
    isRateLimited := false, inFlight := [], clock := 1005, drainTimers := [1105],
    settled := [(1, .error { name := "TypeError", message := "Failed to fetch" })] }

/-- The throttler after one `makeRequest` call at time 1000: the dispatch
callback is pending and the request waits in the queue. -/
def dispatchPending : Throttler :=
  { requestQueue := [firstRequest], isRateLimited := true, lastRequestTime := 0,
    dispatchTimers := [1000], drainTimers := [], inFlight := [], clock := 1000,
    dispatches := [], settled := [], uncaught := [] }


/-- A request to the card API whose URL contains the static-asset string
`./`. -/
def dottedApiRequest : SwRequest :=
  { url := "https://api.scryfall.com/cards/a./b", hostname := "api.scryfall.com",
    destination := "" }

/-- A cache at capacity: the page of the search `bolt` written at time 1000,
the page of the search `shock` written at time 2000, and 48 entries written at
the times 3000 to 3047; none has been touched since it was written. -/
def lruStore : Store :=
  { search_history := [], favorites := [],
    cached_cards :=
      [("search_bolt", { data := .str "bolt page", cached_at := 1000, access_count := 1,
                         last_accessed := 1000 }),
       ("search_shock", { data := .str "shock page", cached_at := 2000, access_count := 1,
                          last_accessed := 2000 })] ++
      (List.range 48).map fun i =>
        (String.mk (List.replicate (i + 1) 'k'),
          { data := .null, cached_at := 3000 + i, access_count := 1, last_accessed := 3000 + i }),
    app_settings := .null, analytics := none }


/-! ## Theorems -/

/-! ### Expiry of cache entries -/

theorem Obj.get_delete_self {β : Type} (o : Obj β) (k : String) :
    (o.delete k).get k = none := by
  induction o with
  | nil => rfl
  | cons e es ih =>
    obtain ⟨k', v⟩ := e
    by_cases h : k' = k
    · simpa [Obj.delete, Obj.get, List.filter_cons, h] using ih
    · have hne : (k == k') = false := by simpa using fun e => h e.symm
      simpa [Obj.delete, Obj.get, List.filter_cons, h, List.lookup_cons, hne] using ih

/-- C1: an entry for `k` with `cached_at = T` and `data = p`, looked up at
`t ≥ T`, is returned as `p` when `t - T < 24h`; when `t - T ≥ 24h` the lookup
returns `null` and the entry is gone from the cache afterwards. -/
theorem getCachedCard_ttl (s : Store) (k : String) (e : CacheEntry) (p : Json) (T t : Int)
    (hk : (getCachedCards s).get k = some e) (hT : e.cached_at = T) (hp : e.data = p)
    (_ht : T ≤ t) :
    (t - T < 24 * 60 * 60 * 1000 → (getCachedCard s k t).1 = p) ∧
    (t - T ≥ 24 * 60 * 60 * 1000 →
      (getCachedCard s k t).1 = Json.null ∧
      (getCachedCards (getCachedCard s k t).2).get k = none) := by
  subst hT hp
  have hmax : maxAge = 24 * 60 * 60 * 1000 := rfl
  constructor
  · intro h
    simp only [getCachedCard, hk, hmax]
    rw [if_pos h]
  · intro h
    have h' : ¬ (t - e.cached_at < 24 * 60 * 60 * 1000) := not_lt.mpr h
    simp only [getCachedCard, hk, hmax]
    rw [if_neg h']
    exact ⟨rfl, Obj.get_delete_self _ _⟩

/-- C1 at a concrete store: an entry written at `1000` is a hit one
millisecond before the 24 hours are over and a miss exactly at 24 hours. -/
theorem getCachedCard_ttl_witness :
    (getCachedCard sampleStore "search_bolt" (1000 + 86399999)).1 = .str "page" ∧
    (getCachedCard sampleStore "search_bolt" (1000 + 86400000)).1 = Json.null := by
  have h := getCachedCard_ttl sampleStore "search_bolt"
    { data := .str "page", cached_at := 1000, access_count := 1, last_accessed := 1000 }
    (.str "page") 1000
  exact ⟨(h (1000 + 86399999) (by decide) rfl rfl (by decide)).1 (by decide),
         ((h (1000 + 86400000) (by decide) rfl rfl (by decide)).2 (by decide)).1⟩

/-! ### Plain objects: reads, writes and removals -/

theorem Obj.has_eq_false_iff {β : Type} (o : Obj β) (k : String) :
    o.has k = false ↔ k ∉ o.keys := by
  induction o with
  | nil => simp [Obj.has, Obj.keys]
  | cons e es ih =>
    simp only [Obj.has, Obj.keys, List.any_cons, List.map_cons, List.mem_cons, not_or,
      Bool.or_eq_false_iff, beq_eq_false_iff_ne, ne_eq] at ih ⊢
    rw [ih]
    constructor
    · rintro ⟨h₁, h₂⟩; exact ⟨fun h => h₁ h.symm, h₂⟩
    · rintro ⟨h₁, h₂⟩; exact ⟨fun h => h₁ h.symm, h₂⟩

theorem Obj.get_eq_none_iff {β : Type} (o : Obj β) (k : String) :
    o.get k = none ↔ k ∉ o.keys := by
  induction o with
  | nil => simp [Obj.get, Obj.keys]
  | cons e es ih =>
    obtain ⟨k', v⟩ := e
    simp only [Obj.get, Obj.keys, List.map_cons, List.mem_cons, not_or] at ih ⊢
    by_cases h : k = k'
    · subst h
      simp
    · have hb : (k == k') = false := by simpa using h
      rw [List.lookup_cons, hb]
      simpa [h] using ih

theorem Obj.insertIndex_perm {β : Type} (n : Nat) (k : String) (v : β) (o : Obj β) :
    (Obj.insertIndex n k v o).Perm ((k, v) :: o) := by
  induction o with
  | nil => exact List.Perm.refl _
  | cons e es ih =>
    simp only [Obj.insertIndex]
    split
    · split
      · exact (List.Perm.cons e ih).trans (List.Perm.swap _ _ _)
      · exact List.Perm.refl _
    · exact List.Perm.refl _

theorem Obj.set_perm_of_not_mem {β : Type} (o : Obj β) (k : String) (v : β)
    (hk : k ∉ o.keys) : (o.set k v).Perm ((k, v) :: o) := by
  have hhas : o.has k = false := (Obj.has_eq_false_iff o k).2 hk
  simp only [Obj.set, hhas, Bool.false_eq_true, if_false]
  split
  · exact Obj.insertIndex_perm _ _ _ _
  · exact List.perm_append_singleton _ _

theorem Obj.get_of_mem {β : Type} (o : Obj β) (k : String) (v : β)
    (hnd : o.keys.Nodup) (hm : (k, v) ∈ o) : o.get k = some v := by
  induction o with
  | nil => cases hm
  | cons e es ih =>
    obtain ⟨k', v'⟩ := e
    simp only [Obj.keys, List.map_cons, List.nodup_cons] at hnd
    rcases List.mem_cons.1 hm with h | h
    · cases h
      simp [Obj.get]
    · have hne : k ≠ k' := by
        rintro rfl
        exact hnd.1 (List.mem_map.2 ⟨(k, v), h, rfl⟩)
      have hb : (k == k') = false := by simpa using hne
      have := ih hnd.2 h
      simpa [Obj.get, List.lookup_cons, hb] using this

theorem Obj.foldl_delete {β : Type} (ks : List (String × β)) (c : Obj β) :
    ks.foldl (fun c e => Obj.delete c e.1) c
      = c.filter (fun e => decide (e.1 ∉ ks.map Prod.fst)) := by
  induction ks generalizing c with
  | nil => simp
  | cons x xs ih =>
    rw [List.foldl_cons, ih, Obj.delete, List.filter_filter]
    congr 1
    funext e
    simp only [List.map_cons, List.mem_cons, not_or, Bool.decide_and, Bool.and_comm]

theorem Obj.filter_key_ne_length {β : Type} (o : Obj β) (e : String × β)
    (hnd : o.keys.Nodup) (he : e ∈ o) :
    (o.filter (fun x => decide (x.1 ≠ e.1))).length + 1 = o.length := by
  induction o with
  | nil => cases he
  | cons a as ih =>
    simp only [Obj.keys, List.map_cons, List.nodup_cons] at hnd
    rcases List.mem_cons.1 he with h | h
    · subst h
      have hall : as.filter (fun x => decide (x.1 ≠ e.1)) = as := by
        apply List.filter_eq_self.2
        intro x hx
        have : x.1 ≠ e.1 := fun hxe => hnd.1 (hxe ▸ List.mem_map.2 ⟨x, hx, rfl⟩)
        simpa using this
      rw [List.filter_cons, hall]
      simp
    · have hae : a.1 ≠ e.1 := fun hae => hnd.1 (hae ▸ List.mem_map.2 ⟨e, h, rfl⟩)
      have := ih hnd.2 h
      have hd : decide (a.1 ≠ e.1) = true := by simpa using hae
      rw [List.filter_cons, hd, if_pos rfl, List.length_cons, List.length_cons, this]

/-! ### Eviction -/

theorem manageCacheSize_eq (c : Obj CacheEntry) :
    manageCacheSize c =
      if c.length > 50 then
        c.filter (fun e => decide
          (e.1 ∉ ((c.insertionSort olderFirst).take (c.length - 50)).map Prod.fst))
      else c := by
  simp only [manageCacheSize, MAX_CACHED_CARDS, Obj.foldl_delete]

theorem manageCacheSize_length_le (c : Obj CacheEntry) :
    (manageCacheSize c).length ≤ 50 := by
  rw [manageCacheSize_eq]
  split
  · next hgt =>
    set srt := c.insertionSort olderFirst with hsrt
    set rm := (srt.take (c.length - 50)).map Prod.fst with hrm
    have hperm : srt.Perm c := List.perm_insertionSort olderFirst c
    have hlen : srt.length = c.length := hperm.length_eq
    have h1 : (c.filter (fun e => decide (e.1 ∉ rm))).length
        = (srt.filter (fun e => decide (e.1 ∉ rm))).length :=
      (hperm.filter _).length_eq.symm
    have h2 : (srt.take (c.length - 50)).filter (fun e => decide (e.1 ∉ rm)) = [] := by
      apply List.filter_eq_nil_iff.2
      intro x hx
      have : x.1 ∈ rm := List.mem_map.2 ⟨x, hx, rfl⟩
      simpa using this
    have h3 : srt.filter (fun e => decide (e.1 ∉ rm))
        = (srt.drop (c.length - 50)).filter (fun e => decide (e.1 ∉ rm)) := by
      conv_lhs => rw [← List.take_append_drop (c.length - 50) srt]
      rw [List.filter_append, h2, List.nil_append]
    rw [h1, h3]
    refine (List.length_filter_le _ _).trans ?_
    rw [List.length_drop, hlen]
    omega
  · next hle => omega

theorem Obj.eq_of_key_eq {β : Type} (o : Obj β) (hnd : o.keys.Nodup) (x y : String × β)
    (hx : x ∈ o) (hy : y ∈ o) (h : x.1 = y.1) : x = y :=
  List.inj_on_of_nodup_map hnd hx hy h

/-- C2: into a cache of exactly 50 entries (distinct keys) whose smallest
`last_accessed` belongs to the single entry `e`, `setCachedCard` of an absent
key `k`, at a time not earlier than any stored `last_accessed`, leaves 50
entries: `e` is gone, every other prior entry is still there, and `k` holds the
new entry. -/
theorem setCachedCard_evicts_oldest (s : Store) (k : String) (p : Json) (now : Int)
    (e : String × CacheEntry)
    (hnd : (getCachedCards s).keys.Nodup)
    (hlen : (getCachedCards s).length = 50)
    (he : e ∈ getCachedCards s)
    (hmin : ∀ x ∈ getCachedCards s, x ≠ e → e.2.last_accessed < x.2.last_accessed)
    (hk : k ∉ (getCachedCards s).keys)
    (hnow : ∀ x ∈ getCachedCards s, x.2.last_accessed ≤ now) :
    (getCachedCards (setCachedCard s k p now)).length = 50 ∧
    e.1 ∉ (getCachedCards (setCachedCard s k p now)).keys ∧
    (∀ x ∈ getCachedCards s, x ≠ e → x ∈ getCachedCards (setCachedCard s k p now)) ∧
    (getCachedCards (setCachedCard s k p now)).get k
      = some { data := p, cached_at := now, access_count := 1, last_accessed := now } := by
  obtain ⟨hist, favs, c, sett, ana⟩ := s
  simp only [getCachedCards] at hnd hlen he hmin hk hnow
  set ent : CacheEntry :=
    { data := p, cached_at := now, access_count := 1, last_accessed := now } with hent
  have hget : c.get k = none := (Obj.get_eq_none_iff c k).2 hk
  have hstore : getCachedCards (setCachedCard ⟨hist, favs, c, sett, ana⟩ k p now)
      = manageCacheSize (c.set k ent) := by
    simp only [setCachedCard, getCachedCards, hget, hent]
    rfl
  rw [hstore]
  set c1 := c.set k ent with hc1
  have hperm : c1.Perm ((k, ent) :: c) := Obj.set_perm_of_not_mem c k ent hk
  have hlen1 : c1.length = 51 := by rw [hperm.length_eq, List.length_cons, hlen]
  have hke : k ≠ e.1 := fun h => hk (h ▸ List.mem_map.2 ⟨e, he, rfl⟩)
  -- some entry other than `e` exists, so `e` is strictly older than `now`
  have hlt : e.2.last_accessed < now := by
    have hex : ∃ y ∈ c, y ≠ e := by
      by_contra hcon
      push_neg at hcon
      match c, hlen, hnd, hcon with
      | a :: b :: _, _, hnd', hcon' =>
        have ha := hcon' a (List.mem_cons_self _ _)
        have hb := hcon' b (List.mem_cons_of_mem _ (List.mem_cons_self _ _))
        simp only [Obj.keys, List.map_cons, List.nodup_cons, List.mem_cons, not_or] at hnd'
        exact hnd'.1.1 (by rw [ha, hb])
    obtain ⟨y, hy, hye⟩ := hex
    exact lt_of_lt_of_le (hmin y hy hye) (hnow y hy)
  -- the sorted entries start with `e`
  set srt := c1.insertionSort olderFirst with hsrt
  have hsperm : srt.Perm c1 := List.perm_insertionSort olderFirst c1
  have hsorted : srt.Sorted olderFirst := List.sorted_insertionSort olderFirst c1
  have hhead : srt.take (c1.length - 50) = [e] := by
    have hsl : srt.length = 51 := by rw [hsperm.length_eq, hlen1]
    match srt, hsl, hsperm, hsorted with
    | x :: rest, _, hsp, hso =>
      have hx1 : x ∈ (k, ent) :: c := (hsp.trans hperm).subset (List.mem_cons_self _ _)
      have he1 : e ∈ x :: rest := (hsp.trans hperm).symm.subset (List.mem_cons_of_mem _ he)
      have hxe : x = e := by
        by_contra hne
        have her : e ∈ rest := by
          rcases List.mem_cons.1 he1 with h | h
          · exact absurd h.symm hne
          · exact h
        have hle : x.2.last_accessed ≤ e.2.last_accessed := List.rel_of_sorted_cons hso e her
        rcases List.mem_cons.1 hx1 with h | h
        · have : x.2.last_accessed = now := by rw [h]
          omega
        · have := hmin x h hne
          omega
      rw [hlen1, hxe]
      rfl
  have hmc : manageCacheSize c1 = c1.filter (fun x => decide (x.1 ≠ e.1)) := by
    rw [manageCacheSize_eq, if_pos (by omega), hhead]
    congr 1
    funext x
    simp
  rw [hmc]
  have hnd1 : c1.keys.Nodup := by
    have : c1.keys.Perm (k :: c.keys) := by
      simpa [Obj.keys] using hperm.map Prod.fst
    exact this.nodup_iff.2 (List.nodup_cons.2 ⟨hk, hnd⟩)
  have he1 : e ∈ c1 := hperm.symm.subset (List.mem_cons_of_mem _ he)
  refine ⟨?_, ?_, ?_, ?_⟩
  · have := Obj.filter_key_ne_length c1 e hnd1 he1
    omega
  · intro hmem
    obtain ⟨x, hx, hxe⟩ := List.mem_map.1 hmem
    have := (List.mem_filter.1 hx).2
    simp only [ne_eq, decide_not, Bool.not_eq_true', decide_eq_false_iff_not] at this
    exact this hxe
  · intro x hx hxe
    refine List.mem_filter.2 ⟨hperm.symm.subset (List.mem_cons_of_mem _ hx), ?_⟩
    have : x.1 ≠ e.1 := fun h => hxe (Obj.eq_of_key_eq c hnd x e hx he h)
    simpa using this
  · apply Obj.get_of_mem
    · exact (List.filter_sublist c1).map Prod.fst |>.nodup hnd1
    · refine List.mem_filter.2 ⟨hperm.symm.subset (List.mem_cons_self _ _), ?_⟩
      simpa using hke

/-- C2 at the cache `fullCache`: storing `search_bolt` at time `200` evicts
the entry `k` (last accessed at `100`) and keeps 50 entries. -/
theorem setCachedCard_evicts_oldest_witness :
    (getCachedCards (setCachedCard fullStore "search_bolt" (.str "page") 200)).length = 50 ∧
    "k" ∉ (getCachedCards (setCachedCard fullStore "search_bolt" (.str "page") 200)).keys ∧
    (∀ x ∈ getCachedCards fullStore,
      x ≠ ("k", { data := .null, cached_at := 0, access_count := 1, last_accessed := 100 }) →
      x ∈ getCachedCards (setCachedCard fullStore "search_bolt" (.str "page") 200)) ∧
    (getCachedCards (setCachedCard fullStore "search_bolt" (.str "page") 200)).get "search_bolt"
      = some { data := .str "page", cached_at := 200, access_count := 1,
               last_accessed := 200 } :=
  setCachedCard_evicts_oldest fullStore "search_bolt" (.str "page") 200
    ("k", { data := .null, cached_at := 0, access_count := 1, last_accessed := 100 })
    (by decide) (by decide) (by decide) (by decide) (by decide) (by decide)

theorem Obj.insertIndex_length {β : Type} (n : Nat) (k : String) (v : β) (o : Obj β) :
    (Obj.insertIndex n k v o).length = o.length + 1 :=
  (Obj.insertIndex_perm n k v o).length_eq

theorem Obj.set_length_of_has {β : Type} (o : Obj β) (k : String) (v : β)
    (h : o.has k = true) : (o.set k v).length = o.length := by
  simp [Obj.set, h]

/-- C3: the cache persisted by `setCachedCard` holds at most 50 entries,
whatever the prior cache, key and payload; `getCachedCard`,
`updateCachedCardAccess`, `removeCachedCard` and `clearCardCache` never
increase the number of entries. -/
theorem cache_capacity_bound :
    (∀ (s : Store) (k : String) (p : Json) (now : Int),
      (getCachedCards (setCachedCard s k p now)).length ≤ 50) ∧
    (∀ (s : Store) (k : String) (now : Int),
      (getCachedCards (getCachedCard s k now).2).length ≤ (getCachedCards s).length) ∧
    (∀ (s : Store) (k : String) (now : Int),
      (getCachedCards (updateCachedCardAccess s k now)).length ≤ (getCachedCards s).length) ∧
    (∀ (s : Store) (k : String),
      (getCachedCards (removeCachedCard s k)).length ≤ (getCachedCards s).length) ∧
    (∀ s : Store,
      (getCachedCards (clearCardCache s)).length ≤ (getCachedCards s).length) := by
  have hrem : ∀ (s : Store) (k : String),
      (getCachedCards (removeCachedCard s k)).length ≤ (getCachedCards s).length := by
    intro s k
    simp only [removeCachedCard, getCachedCards, Obj.delete]
    exact List.length_filter_le _ _
  refine ⟨?_, ?_, ?_, hrem, ?_⟩
  · intro s k p now
    simp only [setCachedCard, getCachedCards]
    exact manageCacheSize_length_le _
  · intro s k now
    simp only [getCachedCard]
    split
    · split
      · exact le_refl _
      · exact hrem s k
    · exact le_refl _
  · intro s k now
    simp only [updateCachedCardAccess]
    split
    · next e he =>
      have hhas : (getCachedCards s).has k = true := by
        by_contra hc
        have hf : (getCachedCards s).has k = false := by simpa using hc
        have := (Obj.get_eq_none_iff _ k).2 ((Obj.has_eq_false_iff _ k).1 hf)
        rw [this] at he
        cases he
      simp only [getCachedCards] at hhas ⊢
      rw [Obj.set_length_of_has _ _ _ hhas]
    · exact le_refl _
  · intro s
    simp [clearCardCache, getCachedCards]

/-! ### Search history -/

theorem eraseIdx_findIdx?_eq_eraseP {α : Type} (p : α → Bool) (l : List α) :
    (match l.findIdx? p with
      | some i => l.eraseIdx i
      | none => l) = l.eraseP p := by
  induction l with
  | nil => rfl
  | cons x xs ih =>
    by_cases hx : p x = true
    · simp [List.findIdx?_cons, hx]
    · have hx' : p x = false := by simpa using hx
      rw [List.eraseP_cons_of_neg hx, ← ih, List.findIdx?_cons, hx']
      simp only [Bool.false_eq_true, if_false, List.findIdx?_succ]
      cases List.findIdx? p xs with
      | none => rfl
      | some i => rfl

theorem addToSearchHistory_eq (toLowerCase : String → String) (s : Store) (q : String)
    (t : Int) (id : String) :
    getSearchHistory (addToSearchHistory toLowerCase s q t id).2 =
      (({ query := trim q, timestamp := t, id := id } : HistoryItem) ::
        (getSearchHistory s).eraseP
          (fun item => toLowerCase item.query == toLowerCase q)).take 10 := by
  have herase := eraseIdx_findIdx?_eq_eraseP
    (fun item : HistoryItem => toLowerCase item.query == toLowerCase q) (getSearchHistory s)
  simp only [addToSearchHistory, getSearchHistory, MAX_SEARCH_HISTORY] at herase ⊢
  rw [herase]
  split
  · rfl
  · next h =>
    rw [List.take_of_length_le (by omega)]

/-- C5: the history after `addToSearchHistory(q, t)` has at most 10 entries
and is the new entry (trimmed `q`, timestamp `t`) followed by the old entries
without the first one matching `q` case-insensitively, in their old order, cut
to the first 10. -/
theorem addToSearchHistory_shape (toLowerCase : String → String) (s : Store) (q : String)
    (t : Int) (id : String) :
    (getSearchHistory (addToSearchHistory toLowerCase s q t id).2).length ≤ 10 ∧
    getSearchHistory (addToSearchHistory toLowerCase s q t id).2 =
      (({ query := trim q, timestamp := t, id := id } : HistoryItem) ::
        (getSearchHistory s).eraseP
          (fun item => toLowerCase item.query == toLowerCase q)).take 10 := by
  refine ⟨?_, addToSearchHistory_eq toLowerCase s q t id⟩
  rw [addToSearchHistory_eq]
  exact List.length_take_le _ _

theorem eraseP_no_match {α β : Type} [DecidableEq β] (f : α → β) (c : β) (l : List α)
    (hnd : (l.map f).Nodup) :
    ∀ x ∈ l.eraseP (fun a => f a == c), f x ≠ c := by
  induction l with
  | nil => intro x hx; cases hx
  | cons a as ih =>
    simp only [List.map_cons, List.nodup_cons] at hnd
    by_cases ha : f a = c
    · have hp : (fun a => f a == c) a = true := by simpa using ha
      intro x hx hxc
      rw [List.eraseP_cons_of_pos (p := fun a => f a == c) hp] at hx
      exact hnd.1 (List.mem_map.2 ⟨x, hx, hxc.trans ha.symm⟩)
    · have hp : ¬ (fun a => f a == c) a = true := by simpa using ha
      intro x hx
      rw [List.eraseP_cons_of_neg (p := fun a => f a == c) hp] at hx
      rcases List.mem_cons.1 hx with h | h
      · rw [h]; exact ha
      · exact ih hnd.2 x h

/-- For a query without surrounding white space the history stays free of
case-insensitive duplicates and the query is at the front with the new
timestamp. -/
theorem addToSearchHistory_unique_of_trimmed (toLowerCase : String → String) (s : Store)
    (q : String) (t : Int) (id : String) (hq : trim q = q)
    (hnd : ((getSearchHistory s).map (fun item => toLowerCase item.query)).Nodup) :
    ((getSearchHistory (addToSearchHistory toLowerCase s q t id).2).map
        (fun item => toLowerCase item.query)).Nodup ∧
    (getSearchHistory (addToSearchHistory toLowerCase s q t id).2).head?
      = some { query := q, timestamp := t, id := id } := by
  rw [addToSearchHistory_eq, hq]
  constructor
  · refine ((List.take_sublist _ _).map _).nodup ?_
    rw [List.map_cons, List.nodup_cons]
    constructor
    · intro hmem
      obtain ⟨x, hx, hxq⟩ := List.mem_map.1 hmem
      exact eraseP_no_match (fun item : HistoryItem => toLowerCase item.query)
        (toLowerCase q) _ hnd x hx hxq
    · exact ((List.eraseP_sublist _).map _).nodup hnd
  · rfl

/-- C4 at the failing input: with `bolt` in the history, adding the query
`bolt` followed by a blank leaves two entries whose queries are both `bolt`. -/
theorem addToSearchHistory_untrimmed_duplicate :
    getSearchHistory
      (addToSearchHistory asciiLower usedStore "bolt " 2 "b").2
    = [{ query := "bolt", timestamp := 2, id := "b" },
       { query := "bolt", timestamp := 1, id := "a" }] := by
  decide

/-! ### Favorites -/

theorem any_id_eq_true_iff (favs : List Favorite) (cardId : String) :
    favs.any (fun fav => fav.id == cardId) = true ↔ ∃ f ∈ favs, f.id = cardId := by
  simp

/-- C6: on a favorites list with pairwise distinct ids, `addToFavorites(c)`
returns `false` and changes nothing when `c.id` is present, and otherwise puts
`c` with its `favorited_at` time in front of the prior entries; after
`addToFavorites`, `removeFromFavorites` and `toggleFavorite` the ids are again
pairwise distinct. -/
theorem favorites_unique (s : Store) (c : Card) (now : Int)
    (hnd : ((getFavorites s).map (fun fav => fav.id)).Nodup) :
    ((∃ f ∈ getFavorites s, f.id = c.id) → addToFavorites s c now = (false, s)) ∧
    ((∀ f ∈ getFavorites s, f.id ≠ c.id) →
      (addToFavorites s c now).1 = true ∧
      getFavorites (addToFavorites s c now).2 =
        ({ id := c.id, props := c.props, favorited_at := now } : Favorite)
          :: getFavorites s) ∧
    ((getFavorites (addToFavorites s c now).2).map (fun fav => fav.id)).Nodup ∧
    (∀ cardId : String,
      ((getFavorites (removeFromFavorites s cardId).2).map (fun fav => fav.id)).Nodup) ∧
    ((getFavorites (toggleFavorite s c now).2).map (fun fav => fav.id)).Nodup := by
  have hadd : ((getFavorites (addToFavorites s c now).2).map (fun fav => fav.id)).Nodup := by
    simp only [addToFavorites]
    split
    · exact hnd
    · next h =>
      simp only [getFavorites, List.map_cons, List.nodup_cons]
      refine ⟨?_, hnd⟩
      intro hmem
      obtain ⟨f, hf, hfc⟩ := List.mem_map.1 hmem
      exact h ((any_id_eq_true_iff _ _).2 ⟨f, hf, hfc⟩)
  have hrem : ∀ cardId : String,
      ((getFavorites (removeFromFavorites s cardId).2).map (fun fav => fav.id)).Nodup := by
    intro cardId
    simp only [removeFromFavorites, getFavorites]
    exact ((List.filter_sublist _).map _).nodup hnd
  refine ⟨?_, ?_, hadd, hrem, ?_⟩
  · intro hex
    have := (any_id_eq_true_iff (getFavorites s) c.id).2 hex
    simp only [addToFavorites, this, if_true]
  · intro hall
    have hnot : (getFavorites s).any (fun fav => fav.id == c.id) = false := by
      rw [← Bool.not_eq_true, any_id_eq_true_iff]
      rintro ⟨f, hf, hfc⟩
      exact hall f hf hfc
    simp only [getFavorites] at hnot
    simp only [addToFavorites, getFavorites, hnot, Bool.false_eq_true, if_false, and_self]
  · simp only [toggleFavorite]
    split
    · exact hrem c.id
    · exact hadd

/-- C6 at the store `usedStore`, whose one favorite is `c1`: adding `c1`
again is refused, and the list after a toggle has distinct ids. -/
theorem favorites_unique_witness :
    addToFavorites usedStore { id := "c1", props := [] } 9 = (false, usedStore) ∧
    ((getFavorites (toggleFavorite usedStore { id := "c1", props := [] } 9).2).map
      (fun fav => fav.id)).Nodup :=
  have h := favorites_unique usedStore { id := "c1", props := [] } 9 (by decide)
  ⟨h.1 ⟨_, List.mem_cons_self _ _, rfl⟩, h.2.2.2.2⟩

/-! ### Export and import -/

/-- C7, counterexample: the document exported from a store without settings
has `app_settings: null`; importing it into `usedStore` keeps the dark theme of
`usedStore`, so the settings differ from those of the exporting store. -/
theorem importData_exportData_settings_differ :
    getAppSettings (importData usedStore (parseExported (exportData emptyStore 0))).2
      ≠ getAppSettings emptyStore := by
  decide

/-- C7, amended: when the exporting store `S` has settings (a truthy value),
`importData` of the document exported from `S` into any store `S'` returns
`true` and leaves the search history, favorites and settings of `S`. -/
theorem importData_exportData (S S' : Store) (now : Int)
    (hset : (getAppSettings S).truthy = true) :
    (importData S' (parseExported (exportData S now))).1 = true ∧
    getSearchHistory (importData S' (parseExported (exportData S now))).2
      = getSearchHistory S ∧
    getFavorites (importData S' (parseExported (exportData S now))).2 = getFavorites S ∧
    getAppSettings (importData S' (parseExported (exportData S now))).2
      = getAppSettings S := by
  simp only [getAppSettings] at hset
  simp [importData, parseExported, exportData, getSearchHistory, getFavorites,
    getAppSettings, hset]

/-- C7, amended, at concrete stores: exporting `usedStore` and importing
into `defaultStore` reproduces the history, favorites and settings of
`usedStore`. -/
theorem importData_exportData_witness :
    (importData defaultStore (parseExported (exportData usedStore 7))).1 = true ∧
    getSearchHistory (importData defaultStore (parseExported (exportData usedStore 7))).2
      = getSearchHistory usedStore ∧
    getFavorites (importData defaultStore (parseExported (exportData usedStore 7))).2
      = getFavorites usedStore ∧
    getAppSettings (importData defaultStore (parseExported (exportData usedStore 7))).2
      = getAppSettings usedStore :=
  importData_exportData usedStore defaultStore 7 (by decide)

/-! ### The search path -/

/-- C8 at the failing input: after page 1 of `bolt` was fetched and cached,
the call for page 2 of the same query finds the cached page 1 under the same
key, returns it and sends no request. -/
theorem searchCards_page_two_served_page_one :
    searchCacheKey asciiLower "bolt" = "search_bolt" ∧
    (searchCardsTwice asciiLower keepCard emptyStore "bolt" (pageOptions 1) (pageOptions 2)
      10 20 30 40 (.ok pageOne) (.ok pageTwo)).1.request
      = some [("q", "bolt"), ("order", "name"), ("dir", "auto"), ("unique", "cards"),
              ("page", "1")] ∧
    (searchCardsTwice asciiLower keepCard emptyStore "bolt" (pageOptions 1) (pageOptions 2)
      10 20 30 40 (.ok pageOne) (.ok pageTwo)).2.request = none ∧
    (searchCardsTwice asciiLower keepCard emptyStore "bolt" (pageOptions 1) (pageOptions 2)
      10 20 30 40 (.ok pageOne) (.ok pageTwo)).2.result = .ok pageOne := by
  refine ⟨by decide, by decide, by decide, ?_⟩
  rfl

/-! ### Error mapping of `searchCards` -/

theorem includesChars_nil (l : List Char) : includesChars l [] = true := by
  cases l <;> simp [includesChars]

theorem includesChars_append_right (a b sub : List Char)
    (h : includesChars a sub = true) : includesChars (a ++ b) sub = true := by
  induction a with
  | nil =>
    have : sub = [] := by simpa [includesChars] using h
    subst this
    exact includesChars_nil _
  | cons c cs ih =>
    simp only [includesChars, Bool.or_eq_true] at h
    simp only [List.cons_append, includesChars, Bool.or_eq_true]
    rcases h with h | h
    · left
      rw [List.isPrefixOf_iff_prefix] at h ⊢
      exact h.trans (List.prefix_append (c :: cs) b)
    · right
      exact ih h

theorem httpError_404_message (statusText : String) :
    (httpError 404 statusText).message = "HTTP 404: " ++ statusText := by
  have h : ("HTTP " ++ toString (404 : Nat) ++ ": " : String) = "HTTP 404: " := by decide
  simp only [httpError, h]

theorem httpError_429_message (statusText : String) :
    (httpError 429 statusText).message = "HTTP 429: " ++ statusText := by
  have h : ("HTTP " ++ toString (429 : Nat) ++ ": " : String) = "HTTP 429: " := by decide
  simp only [httpError, h]

theorem includes_http404 (statusText : String) :
    includes (httpError 404 statusText).message "404" = true := by
  rw [httpError_404_message]
  simp only [includes, String.data_append]
  exact includesChars_append_right _ _ _ (by decide)

theorem includes_http429 (statusText : String) :
    includes (httpError 429 statusText).message "429" = true := by
  rw [httpError_429_message]
  simp only [includes, String.data_append]
  exact includesChars_append_right _ _ _ (by decide)

theorem includes_http429_404 (statusText : String) :
    includes (httpError 429 statusText).message "404" = includes statusText "404" := by
  rw [httpError_429_message]
  simp only [includes, String.data_append]
  simp [includesChars, List.isPrefixOf]

theorem searchCards_result_of_failure (toLowerCase : String → String)
    (processCardData : Json → Except JsError Json) (s : Store) (q : String)
    (o : SearchOptions) (t0 t1 : Int) (e : JsError)
    (hreq : (searchCards toLowerCase processCardData s q o t0 t1 (.error e)).request.isSome
      = true) :
    (searchCards toLowerCase processCardData s q o t0 t1 (.error e)).result = searchCatch e := by
  simp only [searchCards] at hreq ⊢
  split
  · next h => simp [h] at hreq
  · rfl

/-- C10, counterexample: a JSON syntax error whose message mentions position
404 is a failure other than not-found, rate-limit and abort, yet `searchCards`
returns the not-found result for it; so it does for an HTTP 429 failure whose
status text contains `404`. -/
theorem searchCards_error_mapping_counterexample :
    (searchCards asciiLower keepCard emptyStore "bolt" (pageOptions 1) 10 20
      (.error { name := "SyntaxError",
                message := "Unexpected token < in JSON at position 404" })).result
      = .ok notFoundResult ∧
    (searchCards asciiLower keepCard emptyStore "bolt" (pageOptions 1) 10 20
      (.error (httpError 429 "Rate limit 404"))).result = .ok notFoundResult := by
  constructor
  · rw [searchCards_result_of_failure _ _ _ _ _ _ _ _ (by decide)]
    decide
  · rw [searchCards_result_of_failure _ _ _ _ _ _ _ _ (by decide)]
    decide

/-- C10, amended: when `searchCards` has sent its request and the request
fails with error `e`, the outcome is decided by the name and the message text
of `e`, in this order: the name `AbortError` raises the timeout failure;
otherwise a message containing `404` yields the returned not-found result
(`object` is `error`, `data` is empty); otherwise a message containing `429`
raises the retry-later failure; otherwise the generic connectivity failure is
raised.  So an HTTP 404 failure always yields the not-found result, and an
HTTP 429 failure raises retry-later when its status text does not contain
`404`. -/
theorem searchCards_error_mapping (toLowerCase : String → String)
    (processCardData : Json → Except JsError Json) (s : Store) (q : String)
    (o : SearchOptions) (t0 t1 : Int) (e : JsError)
    (hreq : (searchCards toLowerCase processCardData s q o t0 t1 (.error e)).request.isSome
      = true) :
    (e.name = "AbortError" →
      (searchCards toLowerCase processCardData s q o t0 t1 (.error e)).result
        = .error { name := "Error", message := "Request timed out. Please try again." }) ∧
    (e.name ≠ "AbortError" → includes e.message "404" = true →
      (searchCards toLowerCase processCardData s q o t0 t1 (.error e)).result
        = .ok notFoundResult) ∧
    (e.name ≠ "AbortError" → includes e.message "404" = false →
      includes e.message "429" = true →
      (searchCards toLowerCase processCardData s q o t0 t1 (.error e)).result
        = .error { name := "Error",
                   message := "Too many requests. Please wait a moment and try again." }) ∧
    (e.name ≠ "AbortError" → includes e.message "404" = false →
      includes e.message "429" = false →
      (searchCards toLowerCase processCardData s q o t0 t1 (.error e)).result
        = .error { name := "Error",
                   message := "Failed to search cards. Please check your connection." }) ∧
    (∀ statusText : String, e = httpError 404 statusText →
      (searchCards toLowerCase processCardData s q o t0 t1 (.error e)).result
        = .ok notFoundResult) ∧
    (∀ statusText : String, e = httpError 429 statusText →
      includes statusText "404" = false →
      (searchCards toLowerCase processCardData s q o t0 t1 (.error e)).result
        = .error { name := "Error",
                   message := "Too many requests. Please wait a moment and try again." }) ∧
    (spreadProps notFoundResult).get "object" = some (.str "error") ∧
    dataMember notFoundResult = some (.arr []) := by
  rw [searchCards_result_of_failure _ _ _ _ _ _ _ _ hreq]
  refine ⟨?_, ?_, ?_, ?_, ?_, ?_, by decide, by decide⟩
  · intro h
    simp [searchCatch, h]
  · intro h h4
    simp [searchCatch, h, h4]
  · intro h h4 h9
    simp [searchCatch, h, h4, h9]
  · intro h h4 h9
    simp [searchCatch, h, h4, h9]
  · intro st hst
    subst hst
    have hn : (httpError 404 st).name ≠ "AbortError" := by simp [httpError]
    simp [searchCatch, hn, includes_http404]
  · intro st hst h4
    subst hst
    have hn : (httpError 429 st).name ≠ "AbortError" := by simp [httpError]
    simp [searchCatch, hn, includes_http429, includes_http429_404, h4]

/-- C10, amended, at a concrete call: on an empty cache the search for `bolt`
whose request fails with HTTP 429 `Too Many Requests` raises the retry-later
failure. -/
theorem searchCards_error_mapping_witness :
    (searchCards asciiLower keepCard emptyStore "bolt" (pageOptions 1) 10 20
      (.error (httpError 429 "Too Many Requests"))).result
      = .error { name := "Error",
                 message := "Too many requests. Please wait a moment and try again." } :=
  (searchCards_error_mapping asciiLower keepCard emptyStore "bolt" (pageOptions 1) 10 20
    (httpError 429 "Too Many Requests") (by decide)).2.2.2.2.2.1
    "Too Many Requests" rfl (by decide)

/-! ### Two successive searches -/

theorem arrayIndex_searchCacheKey (toLowerCase : String → String) (q : String) :
    arrayIndex (searchCacheKey toLowerCase q) = none := by
  simp [arrayIndex, searchCacheKey, String.data_append, digitsValue, Char.isDigit]

theorem Obj.get_set_self {β : Type} (o : Obj β) (k : String) (v : β) :
    (o.set k v).get k = some v := by
  by_cases hhas : o.has k = true
  · simp only [Obj.set, hhas, if_true, Obj.get]
    induction o with
    | nil => simp [Obj.has] at hhas
    | cons e es ih =>
      obtain ⟨k', v'⟩ := e
      by_cases hk : k' = k
      · simp [hk]
      · have hb : (k == k') = false := by simpa using fun h : k = k' => hk h.symm
        have hes : Obj.has es k = true := by
          simpa [Obj.has, hk] using hhas
        simpa [List.lookup_cons, hk, hb] using ih hes
  · have hf : o.has k = false := by simpa using hhas
    have hk : k ∉ o.keys := (Obj.has_eq_false_iff o k).1 hf
    have hnone : o.get k = none := (Obj.get_eq_none_iff o k).2 hk
    simp only [Obj.set, hf, Bool.false_eq_true, if_false]
    split
    · next n _ =>
      clear hhas hf hnone
      induction o with
      | nil => simp [Obj.insertIndex, Obj.get]
      | cons e es ih =>
        obtain ⟨k', v'⟩ := e
        simp only [Obj.keys, List.map_cons, List.mem_cons, not_or] at hk
        have hb : (k == k') = false := by simpa using hk.1
        simp only [Obj.insertIndex]
        split
        · split
          · simpa [Obj.get, List.lookup_cons, hb] using ih hk.2
          · simp [Obj.get]
        · simp [Obj.get]
    · simp only [Obj.get] at hnone ⊢
      rw [List.lookup_append, hnone]
      simp

theorem orderedInsert_append_last (a x : String × CacheEntry) (l : List (String × CacheEntry))
    (h : olderFirst a x) :
    (l ++ [x]).orderedInsert olderFirst a = l.orderedInsert olderFirst a ++ [x] := by
  induction l with
  | nil => simp [List.orderedInsert, h]
  | cons b bs ih =>
    rw [List.cons_append, List.orderedInsert, List.orderedInsert]
    split
    · rfl
    · rw [ih]; rfl

theorem insertionSort_append_last (x : String × CacheEntry) (l : List (String × CacheEntry))
    (h : ∀ y ∈ l, olderFirst y x) :
    (l ++ [x]).insertionSort olderFirst = l.insertionSort olderFirst ++ [x] := by
  induction l with
  | nil => rfl
  | cons a as ih =>
    rw [List.cons_append, List.insertionSort, List.insertionSort,
      ih (fun y hy => h y (List.mem_cons_of_mem _ hy)),
      orderedInsert_append_last _ _ _ (h a (List.mem_cons_self _ _))]

/-- Writing a key that is no array index, into a cache with distinct keys,
within capacity and with no `last_accessed` later than `now`, leaves the new
entry in the cache. -/
theorem setCachedCard_get_self (s : Store) (k : String) (p : Json) (now : Int)
    (hidx : arrayIndex k = none)
    (hnd : (getCachedCards s).keys.Nodup)
    (hcap : (getCachedCards s).length ≤ 50)
    (hclock : ∀ x ∈ getCachedCards s, x.2.last_accessed ≤ now) :
    ∃ e, (getCachedCards (setCachedCard s k p now)).get k = some e ∧
      e.data = p ∧ e.cached_at = now := by
  obtain ⟨hist, favs, c, sett, ana⟩ := s
  simp only [getCachedCards] at hnd hcap hclock
  simp only [setCachedCard, getCachedCards]
  generalize hcnt : (match Obj.get c k with
    | some e => if e.access_count = 0 then (0 : Int) else e.access_count
    | none => 0) = cnt
  set ent : CacheEntry :=
    { data := p, cached_at := now, access_count := cnt + 1, last_accessed := now } with hent
  refine ⟨ent, ?_, rfl, rfl⟩
  by_cases hlen : (c.set k ent).length > 50
  · -- only a new key makes the cache grow
    have hhas : c.has k = false := by
      by_contra hc
      have ht : c.has k = true := by simpa using hc
      rw [Obj.set_length_of_has _ _ _ ht] at hlen
      omega
    have hk : k ∉ c.keys := (Obj.has_eq_false_iff c k).1 hhas
    have hset : c.set k ent = c ++ [(k, ent)] := by
      simp only [Obj.set, hhas, Bool.false_eq_true, if_false, hidx]
    rw [manageCacheSize_eq, if_pos hlen]
    have hsort : (c ++ [(k, ent)]).insertionSort olderFirst
        = c.insertionSort olderFirst ++ [(k, ent)] :=
      insertionSort_append_last _ _ (fun y hy => hclock y hy)
    have hslen : (c.insertionSort olderFirst).length = c.length :=
      List.length_insertionSort olderFirst c
    apply Obj.get_of_mem
    · refine ((List.filter_sublist _).map Prod.fst).nodup ?_
      rw [hset]
      simp only [Obj.keys, List.map_append, List.map_cons, List.map_nil]
      refine List.Nodup.append hnd (List.nodup_singleton k) ?_
      intro a ha hak
      rw [List.mem_singleton] at hak
      exact hk (hak ▸ ha)
    · refine List.mem_filter.2 ⟨by rw [hset]; simp, ?_⟩
      rw [hset, hsort, List.length_append, List.length_singleton,
        List.take_append_of_le_length (by rw [hslen]; omega)]
      simp only [decide_eq_true_eq]
      intro hmem
      obtain ⟨y, hy, hyk⟩ := List.mem_map.1 hmem
      have hyc : y ∈ c :=
        (List.mem_insertionSort olderFirst).1 (List.mem_of_mem_take hy)
      exact hk (List.mem_map.2 ⟨y, hyc, hyk⟩)
  · rw [manageCacheSize_eq, if_neg hlen]
    exact Obj.get_set_self c k ent

theorem getCachedCard_cache_sublist (s : Store) (k : String) (t : Int) :
    (getCachedCards (getCachedCard s k t).2).Sublist (getCachedCards s) := by
  simp only [getCachedCard]
  split
  · split
    · exact List.Sublist.refl _
    · simp only [removeCachedCard, getCachedCards, Obj.delete]
      exact List.filter_sublist _
  · exact List.Sublist.refl _

theorem processSearchData_truthy (processCardData : Json → Except JsError Json)
    (data page : Json) (h : processSearchData processCardData data = .ok page) :
    page.truthy = true := by
  unfold processSearchData at h
  split at h
  · cases h
  · split at h
    · split at h
      · cases h; rfl
      · cases h
    · split at h
      · cases h
      · cases h; rfl
    · cases h; rfl

theorem recordSearchAnalytics_cache (toLowerCase : String → String) (s s' : Store)
    (q : String) (n : Json) (now : Int)
    (h : recordSearchAnalytics toLowerCase s q n now = .ok s') :
    getCachedCards s' = getCachedCards s := by
  unfold recordSearchAnalytics at h
  split at h
  split at h
  · cases h
  · cases h; rfl

theorem getCachedCard_hit (s : Store) (k : String) (t : Int) (e : CacheEntry)
    (hget : (getCachedCards s).get k = some e) (hlive : t - e.cached_at < 24 * 60 * 60 * 1000) :
    getCachedCard s k t = (e.data, s) := by
  have hmax : maxAge = 24 * 60 * 60 * 1000 := rfl
  simp only [getCachedCard, hget, hmax]
  rw [if_pos hlive]

theorem SearchRun.requests_le_one (r : SearchRun) : r.requests ≤ 1 := by
  unfold SearchRun.requests
  split <;> omega

theorem searchCards_of_hit (toLowerCase : String → String)
    (processCardData : Json → Except JsError Json) (s : Store) (q : String)
    (o : SearchOptions) (t0 t1 : Int) (r : Except JsError Json) (e : CacheEntry)
    (hget : (getCachedCards s).get (searchCacheKey toLowerCase q) = some e)
    (hlive : t0 - e.cached_at < 24 * 60 * 60 * 1000)
    (htruthy : e.data.truthy = true) (hforce : o.forceRefresh = false) :
    (searchCards toLowerCase processCardData s q o t0 t1 r).request = none ∧
    (searchCards toLowerCase processCardData s q o t0 t1 r).result = .ok e.data := by
  simp [searchCards, getCachedCard_hit s _ t0 e hget hlive, htruthy, hforce]

/-- After a call of `searchCards` that sent its request and got a response
that processes to `page`, the cache holds `page` under the search key, stamped
with the time `t1`. -/
theorem searchCards_caches_page (toLowerCase : String → String)
    (processCardData : Json → Except JsError Json) (s : Store) (q : String)
    (o : SearchOptions) (t0 t1 : Int) (data page : Json)
    (hnd : (getCachedCards s).keys.Nodup)
    (hcap : (getCachedCards s).length ≤ 50)
    (hclock : ∀ x ∈ getCachedCards s, x.2.last_accessed ≤ t1)
    (hpage : processSearchData processCardData data = .ok page)
    (hreq : (searchCards toLowerCase processCardData s q o t0 t1 (.ok data)).request.isSome
      = true) :
    ∃ e, (getCachedCards
        (searchCards toLowerCase processCardData s q o t0 t1 (.ok data)).store).get
          (searchCacheKey toLowerCase q) = some e ∧
      e.data = page ∧ e.cached_at = t1 := by
  have hsub := getCachedCard_cache_sublist s (searchCacheKey toLowerCase q) t0
  rcases hgc : getCachedCard s (searchCacheKey toLowerCase q) t0 with ⟨cr, s0⟩
  rw [hgc] at hsub
  simp only at hsub
  have hset := setCachedCard_get_self s0 (searchCacheKey toLowerCase q) page t1
    (arrayIndex_searchCacheKey toLowerCase q)
    ((hsub.map Prod.fst).nodup hnd)
    (le_trans hsub.length_le hcap)
    (fun x hx => hclock x (hsub.subset hx))
  simp only [searchCards, hgc, hpage] at hreq ⊢
  split
  · next h => simp [h] at hreq
  · split
    · exact hset
    · next s' hs' =>
      rw [recordSearchAnalytics_cache _ _ _ _ _ _ hs']
      exact hset

/-- C9, counterexample: the first search for `bolt` fails with HTTP 404, so
nothing is cached and the second search sends a request of its own: two
requests in total. -/
theorem searchCards_twice_two_requests :
    (searchCardsTwice asciiLower keepCard emptyStore "bolt" (pageOptions 1) (pageOptions 1)
      10 20 30 40 (.error (httpError 404 "Not Found")) (.ok pageOne)).1.requests
    + (searchCardsTwice asciiLower keepCard emptyStore "bolt" (pageOptions 1) (pageOptions 1)
      10 20 30 40 (.error (httpError 404 "Not Found")) (.ok pageOne)).2.requests = 2 := by
  decide

/-- C9, amended: take a cache with distinct keys, within capacity, whose
`last_accessed` times are not later than the time `t1` at which the first
response is handled.  If the response to the first call is a success that
processes to a page, and the second call, without `forceRefresh`, looks the
cache up less than 24 hours after `t1`, then the two calls send at most one
request in total; when the first call sent one, the second sends none and
returns the page cached by the first. -/
theorem searchCards_twice_one_request (toLowerCase : String → String)
    (processCardData : Json → Except JsError Json) (s : Store) (q : String)
    (o₁ o₂ : SearchOptions) (t0 t1 t2 t3 : Int) (data page : Json) (r₂ : Except JsError Json)
    (hforce : o₂.forceRefresh = false)
    (hnd : (getCachedCards s).keys.Nodup)
    (hcap : (getCachedCards s).length ≤ 50)
    (hclock : ∀ x ∈ getCachedCards s, x.2.last_accessed ≤ t1)
    (hpage : processSearchData processCardData data = .ok page)
    (httl : t2 - t1 < 24 * 60 * 60 * 1000) :
    (searchCardsTwice toLowerCase processCardData s q o₁ o₂ t0 t1 t2 t3 (.ok data) r₂).1.requests
      + (searchCardsTwice toLowerCase processCardData s q o₁ o₂ t0 t1 t2 t3
          (.ok data) r₂).2.requests ≤ 1 ∧
    ((searchCardsTwice toLowerCase processCardData s q o₁ o₂ t0 t1 t2 t3
        (.ok data) r₂).1.request.isSome = true →
      (searchCardsTwice toLowerCase processCardData s q o₁ o₂ t0 t1 t2 t3
        (.ok data) r₂).2.request = none ∧
      (searchCardsTwice toLowerCase processCardData s q o₁ o₂ t0 t1 t2 t3
        (.ok data) r₂).2.result = .ok page) := by
  simp only [searchCardsTwice]
  have hsecond : (searchCards toLowerCase processCardData s q o₁ t0 t1 (.ok data)).request.isSome
        = true →
      (searchCards toLowerCase processCardData
        (searchCards toLowerCase processCardData s q o₁ t0 t1 (.ok data)).store
        q o₂ t2 t3 r₂).request = none ∧
      (searchCards toLowerCase processCardData
        (searchCards toLowerCase processCardData s q o₁ t0 t1 (.ok data)).store
        q o₂ t2 t3 r₂).result = .ok page := by
    intro hreq
    obtain ⟨e, hget, hdata, hat⟩ := searchCards_caches_page toLowerCase processCardData
      s q o₁ t0 t1 data page hnd hcap hclock hpage hreq
    have := searchCards_of_hit toLowerCase processCardData _ q o₂ t2 t3 r₂ e hget
      (by rw [hat]; exact httl)
      (by rw [hdata]; exact processSearchData_truthy _ _ _ hpage) hforce
    rw [hdata] at this
    exact this
  refine ⟨?_, hsecond⟩
  by_cases hreq : (searchCards toLowerCase processCardData s q o₁ t0 t1
      (.ok data)).request.isSome = true
  · have h2 := (hsecond hreq).1
    simp only [SearchRun.requests, hreq, h2, if_true, Option.isSome_none, Bool.false_eq_true,
      if_false]
    omega
  · have := SearchRun.requests_le_one (searchCards toLowerCase processCardData
      (searchCards toLowerCase processCardData s q o₁ t0 t1 (.ok data)).store q o₂ t2 t3 r₂)
    simp only [SearchRun.requests, hreq, Bool.false_eq_true, if_false, Nat.zero_add] at this ⊢
    exact this

/-- C9, amended, at a concrete run: from the empty store, the search for
`bolt` answered with `pageOne` at time `20`, then the same search at time `30`:
one request in total, the second call returns the cached page. -/
theorem searchCards_twice_one_request_witness :
    (searchCardsTwice asciiLower keepCard emptyStore "bolt" (pageOptions 1) (pageOptions 1)
      10 20 30 40 (.ok pageOne) (.ok pageTwo)).1.requests
    + (searchCardsTwice asciiLower keepCard emptyStore "bolt" (pageOptions 1) (pageOptions 1)
      10 20 30 40 (.ok pageOne) (.ok pageTwo)).2.requests ≤ 1 ∧
    (searchCardsTwice asciiLower keepCard emptyStore "bolt" (pageOptions 1) (pageOptions 1)
      10 20 30 40 (.ok pageOne) (.ok pageTwo)).2.result = .ok pageOne :=
  have h := searchCards_twice_one_request asciiLower keepCard emptyStore "bolt"
    (pageOptions 1) (pageOptions 1) 10 20 30 40 pageOne pageOne (.ok pageTwo)
    rfl (by decide) (by decide) (by decide) (by decide) (by decide)
  ⟨h.1, (h.2 (by decide)).2⟩

/-! ### Search analytics -/

/-- C11: whenever analytics are already stored (an earlier
`recordSearchAnalytics` call has written them), `recordSearchAnalytics` raises
a `TypeError` instead of completing: the stored `unique_searches` is an array,
which has no `add`. -/
theorem recordSearchAnalytics_raises_on_stored (toLowerCase : String → String) (s : Store)
    (stored : Analytics) (q : String) (n : Json) (now : Int) :
    recordSearchAnalytics toLowerCase { s with analytics := some stored } q n now
      = .error { name := "TypeError",
                 message := "analytics.unique_searches.add is not a function" } := by
  rfl

/-- The first search ever recorded is stored, the second one raises, and so
the second search that misses the cache fails although its request succeeded. -/
theorem recordSearchAnalytics_second_call :
    (recordSearchAnalytics asciiLower emptyStore "Bolt" (.num 3) 5).toOption.map
        (fun s => getAnalytics s)
      = some (some { total_searches := 1, unique_searches := .set ["bolt"],
                     popular_searches := [("bolt", 1)], last_search := some 5 }) ∧
    (searchCards asciiLower keepCard
      (searchCards asciiLower keepCard emptyStore "Bolt" (pageOptions 1) 10 20
        (.ok pageOne)).store
      "Shock" (pageOptions 1) 30 40 (.ok pageTwo)).result
      = .error { name := "Error",
                 message := "Failed to search cards. Please check your connection." } := by
  constructor
  · decide
  · rfl

/-! ### Mana symbols -/

theorem execAll_nil (fuel : Nat) : execAll fuel [] = [] := by
  cases fuel <;> rfl

theorem matchManaToken_braced (t rest : List Char) (hne : t ≠ [])
    (hclose : '}' ∉ t) :
    matchManaToken ('{' :: (t ++ '}' :: rest)) = some (t, rest) := by
  have hall : ∀ a ∈ t, (fun x : Char => x != '}') a = true := by
    intro a ha
    have : a ≠ '}' := fun h => hclose (h ▸ ha)
    simpa using this
  have htake : (t ++ '}' :: rest).takeWhile (fun x => x != '}') = t := by
    rw [List.takeWhile_append_of_pos hall]
    simp
  have hdrop : (t ++ '}' :: rest).dropWhile (fun x => x != '}') = '}' :: rest := by
    rw [List.dropWhile_append_of_pos hall]
    simp
  simp only [matchManaToken, if_true, htake, hdrop]
  cases t with
  | nil => exact absurd rfl hne
  | cons g gs => simp

theorem execAll_braced (ts : List String) (h : ∀ t ∈ ts, t ≠ "" ∧ '}' ∉ t.data) :
    ∀ fuel : Nat, ((ts.map fun t => '{' :: (t.data ++ ['}'])).flatten).length ≤ fuel →
      execAll fuel ((ts.map fun t => '{' :: (t.data ++ ['}'])).flatten) = ts := by
  induction ts with
  | nil => intro fuel _; exact execAll_nil fuel
  | cons t ts ih =>
    intro fuel hfuel
    have ht := h t (List.mem_cons_self _ _)
    have hne : t.data ≠ [] := by
      intro hd
      apply ht.1
      cases t
      simp only at hd
      subst hd
      rfl
    simp only [List.map_cons, List.flatten_cons, List.cons_append, List.append_assoc,
      List.singleton_append, List.length_cons, List.length_append] at hfuel ⊢
    cases fuel with
    | zero => omega
    | succ f =>
      rw [execAll, matchManaToken_braced _ _ hne ht.2]
      simp only [List.nil_append, List.length_nil, Nat.zero_add] at hfuel ⊢
      rw [ih (fun x hx => h x (List.mem_cons_of_mem _ hx)) f (by omega)]

/-- C12: for tokens that are non-empty and free of the closing brace,
`parseManaSymbols` of the concatenation of the braced tokens returns the
tokens, in order and with duplicates; an absent or empty notation gives the
empty list. -/
theorem parseManaSymbols_tokens (ts : List String)
    (h : ∀ t ∈ ts, t ≠ "" ∧ '}' ∉ t.data) :
    parseManaSymbols (some (String.join (ts.map braced))) = ts ∧
    parseManaSymbols none = [] ∧
    parseManaSymbols (some "") = [] := by
  refine ⟨?_, rfl, rfl⟩
  have hdata : (String.join (ts.map braced)).data
      = (ts.map fun t => '{' :: (t.data ++ ['}'])).flatten := by
    rw [String.data_join, List.map_map]
    congr 1
  simp only [parseManaSymbols]
  split
  · next hempty =>
    have hd := hdata
    rw [hempty] at hd
    cases ts with
    | nil => rfl
    | cons t ts => simp at hd
  · rw [hdata]
    exact execAll_braced ts h _ (le_refl _)

/-- C12 on the notation `{2}{W}{W}`. -/
theorem parseManaSymbols_tokens_witness :
    parseManaSymbols (some "{2}{W}{W}") = ["2", "W", "W"] :=
  (parseManaSymbols_tokens ["2", "W", "W"] (by decide)).1


/-! ### Derived flags -/

/-- C13, counterexample: for a card without type line the flag `is_creature`
is `undefined`, and for an empty type line the flag `is_land` is the empty
string; neither is the boolean `false`. -/
theorem processCardData_flag_not_boolean :
    (processCardData asciiLower { type_line := none, mana_cost := none } 0).is_creature
      ≠ some (.bool false) ∧
    (processCardData asciiLower { type_line := some "", mana_cost := none } 0).is_land
      ≠ some (.bool false) := by
  decide

/-- C13, amended: the four flags of `processCardData` depend on the type line
alone.  For a non-empty type line each flag is a boolean: `is_creature` is
`true` exactly when the lowercased type line contains `creature`,
`is_planeswalker` when it contains `planeswalker`, `is_spell` when it contains
`instant` or `sorcery`, `is_land` when it contains `land`, and `false`
otherwise.  For an absent type line the four flags are `undefined`, for an
empty one they are the empty string: falsy values, not booleans. -/
theorem processCardData_flags (toLowerCase : String → String) (card : RawCard) (now : Int) :
    (∀ t : String, card.type_line = some t → t ≠ "" →
      (processCardData toLowerCase card now).is_creature
        = some (.bool (includes (toLowerCase t) "creature")) ∧
      (processCardData toLowerCase card now).is_planeswalker
        = some (.bool (includes (toLowerCase t) "planeswalker")) ∧
      (processCardData toLowerCase card now).is_spell
        = some (.bool (includes (toLowerCase t) "instant"
            || includes (toLowerCase t) "sorcery")) ∧
      (processCardData toLowerCase card now).is_land
        = some (.bool (includes (toLowerCase t) "land"))) ∧
    (card.type_line = none →
      (processCardData toLowerCase card now).is_creature = none ∧
      (processCardData toLowerCase card now).is_planeswalker = none ∧
      (processCardData toLowerCase card now).is_spell = none ∧
      (processCardData toLowerCase card now).is_land = none) ∧
    (card.type_line = some "" →
      (processCardData toLowerCase card now).is_creature = some (.str "") ∧
      (processCardData toLowerCase card now).is_planeswalker = some (.str "") ∧
      (processCardData toLowerCase card now).is_spell = some (.str "") ∧
      (processCardData toLowerCase card now).is_land = some (.str "")) ∧
    ((card.type_line = none ∨ card.type_line = some "") →
      jsTruthy (processCardData toLowerCase card now).is_creature = false ∧
      jsTruthy (processCardData toLowerCase card now).is_planeswalker = false ∧
      jsTruthy (processCardData toLowerCase card now).is_spell = false ∧
      jsTruthy (processCardData toLowerCase card now).is_land = false) := by
  refine ⟨?_, ?_, ?_, ?_⟩
  · intro t ht hne
    simp [processCardData, isCreature, isPlaneswalker, isSpell, isLand, guardTypeLine, ht, hne]
  · intro ht
    simp [processCardData, isCreature, isPlaneswalker, isSpell, isLand, guardTypeLine, ht]
  · intro ht
    simp [processCardData, isCreature, isPlaneswalker, isSpell, isLand, guardTypeLine, ht]
  · rintro (ht | ht) <;>
      simp [processCardData, isCreature, isPlaneswalker, isSpell, isLand, guardTypeLine, ht,
        jsTruthy, Json.truthy]

/-- C13, amended, on the type line `Legendary Creature — Human Wizard`:
`is_creature` is `true` and `is_land` is `false`. -/
theorem processCardData_flags_witness :
    (processCardData asciiLower
      { type_line := some "Legendary Creature — Human Wizard", mana_cost := some "{2}{W}{W}" }
      0).is_creature = some (.bool true) ∧
    (processCardData asciiLower
      { type_line := some "Legendary Creature — Human Wizard", mana_cost := some "{2}{W}{W}" }
      0).is_land = some (.bool false) := by
  have h := (processCardData_flags asciiLower
    { type_line := some "Legendary Creature — Human Wizard", mana_cost := some "{2}{W}{W}" }
    0).1 "Legendary Creature — Human Wizard" rfl (by decide)
  have hc : includes (asciiLower "Legendary Creature — Human Wizard") "creature" = true := by
    decide
  have hl : includes (asciiLower "Legendary Creature — Human Wizard") "land" = false := by
    decide
  rw [hc, hl] at h
  exact ⟨h.1, h.2.2.2⟩

/-! ### Image URL -/

/-- C14, counterexample: the image map has a URL for the tier `huge`, which
is none of the six tiers of `qualityMap`, and `getCardImageUrl` returns the
`normal` URL instead; it also returns the `normal` URL when the URL of the
requested tier `small` is the empty string. -/
theorem getCardImageUrl_falls_back :
    getCardImageUrl
      [("image_uris", .obj [("huge", .str "https://img/huge.jpg"),
                            ("normal", .str "https://img/normal.jpg")])] "huge"
      = some (.json (.str "https://img/normal.jpg")) ∧
    getCardImageUrl
      [("image_uris", .obj [("small", .str ""),
                            ("normal", .str "https://img/normal.jpg")])] "small"
      = some (.json (.str "https://img/normal.jpg")) := by
  decide

theorem qualityMap_get (m : Json) (quality : String) :
    Obj.get
      ([("small", readTier m "small"), ("normal", readTier m "normal"),
        ("large", readTier m "large"), ("png", readTier m "png"),
        ("art_crop", readTier m "art_crop"), ("border_crop", readTier m "border_crop")] :
        Obj (Option PropertyValue)) quality
      = if quality ∈ qualityTiers then some (readTier m quality) else none := by
  by_cases h : quality ∈ qualityTiers
  · rw [if_pos h]
    simp only [qualityTiers, List.mem_cons, List.mem_singleton, List.not_mem_nil, or_false] at h
    rcases h with rfl | rfl | rfl | rfl | rfl | rfl <;> rfl
  · rw [if_neg h]
    simp only [qualityTiers, List.mem_cons, List.mem_singleton, List.not_mem_nil, or_false,
      not_or] at h
    obtain ⟨h1, h2, h3, h4, h5, h6⟩ := h
    have e1 : (quality == "small") = false := by simpa using h1
    have e2 : (quality == "normal") = false := by simpa using h2
    have e3 : (quality == "large") = false := by simpa using h3
    have e4 : (quality == "png") = false := by simpa using h4
    have e5 : (quality == "art_crop") = false := by simpa using h5
    have e6 : (quality == "border_crop") = false := by simpa using h6
    simp only [Obj.get, List.lookup, e1, e2, e3, e4, e5, e6]

theorem objectPrototypeMembers_not_tier :
    ∀ name ∈ objectPrototypeMembers, name ∉ qualityTiers := by
  decide

/-- C14, amended: `getCardImageUrl` returns `null` when the card has no image
map.  Otherwise, with `readTier` the read of a tier from the image map (for an
object map, its entry of that name): when the requested quality is one of the
six tiers `small`, `normal`, `large`, `png`, `art_crop`, `border_crop` and the
map has a truthy (non-empty) URL for it, that URL is returned; when the quality
is the name of a member inherited from `Object.prototype`, such as
`constructor` or `toString`, that inherited member is returned, which is no
URL; for any other quality, or when the map has no truthy URL for the tier, the
value of the `normal` tier is returned, which is `undefined` when the map lacks
it. -/
theorem getCardImageUrl_tiers (card : Obj Json) (quality : String) :
    ((card.get "image_uris" = none ∨
        ∃ m, card.get "image_uris" = some m ∧ m.truthy = false) →
      getCardImageUrl card quality = some (.json .null)) ∧
    (∀ m : Json, card.get "image_uris" = some m → m.truthy = true →
      (∀ entries : Obj Json, m = .obj entries →
        ∀ tier, readTier m tier = (entries.lookup tier).map PropertyValue.json) ∧
      (∀ url : PropertyValue, quality ∈ qualityTiers → readTier m quality = some url →
        url.truthy = true → getCardImageUrl card quality = some url) ∧
      (quality ∈ objectPrototypeMembers →
        getCardImageUrl card quality = some (.inherited "Object.prototype" quality)) ∧
      (((quality ∈ qualityTiers ∧
            (readTier m quality = none ∨
              ∃ url, readTier m quality = some url ∧ url.truthy = false)) ∨
          (quality ∉ qualityTiers ∧ quality ∉ objectPrototypeMembers)) →
        getCardImageUrl card quality = readTier m "normal")) := by
  constructor
  · rintro (h | ⟨m, h, hm⟩)
    · simp [getCardImageUrl, h]
    · simp [getCardImageUrl, h, hm]
  · intro m h hm
    refine ⟨?_, ?_, ?_, ?_⟩
    · intro entries hobj tier
      subst hobj
      rfl
    · intro url hq hurl htruthy
      simp only [getCardImageUrl, h, hm, Bool.not_true, Bool.false_eq_true, if_false,
        qualityMap_get, if_pos hq, hurl, htruthy, if_true]
    · intro hq
      have hnot : quality ∉ qualityTiers := objectPrototypeMembers_not_tier quality hq
      simp only [getCardImageUrl, h, hm, Bool.not_true, Bool.false_eq_true, if_false,
        qualityMap_get, if_neg hnot, if_pos hq, PropertyValue.truthy, if_true]
    · rintro (⟨hq, hnone | ⟨url, hurl, hfalsy⟩⟩ | ⟨hq, hproto⟩)
      · simp only [getCardImageUrl, h, hm, Bool.not_true, Bool.false_eq_true, if_false,
          qualityMap_get, if_pos hq, hnone]
      · simp only [getCardImageUrl, h, hm, Bool.not_true, Bool.false_eq_true, if_false,
          qualityMap_get, if_pos hq, hurl, hfalsy]
      · simp only [getCardImageUrl, h, hm, Bool.not_true, Bool.false_eq_true, if_false,
          qualityMap_get, if_neg hq, if_neg hproto]

/-- C14, amended, on a card with a `small` and a `normal` image: the `small`
URL is returned for `small`, the `normal` URL for `large` and for `thumbnail`,
and the inherited member `constructor` for `constructor`. -/
theorem getCardImageUrl_tiers_witness :
    getCardImageUrl
      [("image_uris", .obj [("small", .str "https://img/small.jpg"),
                            ("normal", .str "https://img/normal.jpg")])] "small"
      = some (.json (.str "https://img/small.jpg")) ∧
    getCardImageUrl
      [("image_uris", .obj [("small", .str "https://img/small.jpg"),
                            ("normal", .str "https://img/normal.jpg")])] "large"
      = some (.json (.str "https://img/normal.jpg")) ∧
    getCardImageUrl
      [("image_uris", .obj [("small", .str "https://img/small.jpg"),
                            ("normal", .str "https://img/normal.jpg")])] "thumbnail"
      = some (.json (.str "https://img/normal.jpg")) ∧
    getCardImageUrl
      [("image_uris", .obj [("small", .str "https://img/small.jpg"),
                            ("normal", .str "https://img/normal.jpg")])] "constructor"
      = some (.inherited "Object.prototype" "constructor") :=
  ⟨((getCardImageUrl_tiers
      [("image_uris", .obj [("small", .str "https://img/small.jpg"),
                            ("normal", .str "https://img/normal.jpg")])] "small").2
      _ rfl rfl).2.1 _ (by decide) rfl rfl,
   ((getCardImageUrl_tiers
      [("image_uris", .obj [("small", .str "https://img/small.jpg"),
                            ("normal", .str "https://img/normal.jpg")])] "large").2
      _ rfl rfl).2.2.2 (Or.inl ⟨by decide, Or.inl rfl⟩),
   ((getCardImageUrl_tiers
      [("image_uris", .obj [("small", .str "https://img/small.jpg"),
                            ("normal", .str "https://img/normal.jpg")])] "thumbnail").2
      _ rfl rfl).2.2.2 (Or.inr ⟨by decide, by decide⟩),
   ((getCardImageUrl_tiers
      [("image_uris", .obj [("small", .str "https://img/small.jpg"),
                            ("normal", .str "https://img/normal.jpg")])] "constructor").2
      _ rfl rfl).2.2.1 (by decide)⟩

/-! ### Suggestions -/

theorem mapM_cardSuggestion (cards : List Json) (h : ∀ c ∈ cards, c ≠ .null) :
    cards.mapM cardSuggestion = .ok (cards.map cardSuggestionOf) := by
  induction cards with
  | nil => rfl
  | cons c cs ih =>
    have hc : cardSuggestion c = .ok (cardSuggestionOf c) := by
      have := h c (List.mem_cons_self _ _)
      cases c <;> first | rfl | exact absurd rfl this
    rw [List.mapM_cons, hc, ih (fun x hx => h x (List.mem_cons_of_mem _ hx))]
    rfl

theorem getRecentSearchSuggestions_length (toLowerCase : String → String) (s : Store)
    (query : String) (limit : Nat) :
    (getRecentSearchSuggestions toLowerCase s query limit).length ≤ limit := by
  simp only [getRecentSearchSuggestions, List.length_map]
  exact List.length_take_le _ _

theorem sliceTo_sublist {α : Type} (xs : List α) (stop : Int) : (sliceTo xs stop).Sublist xs := by
  unfold sliceTo
  split <;> exact List.take_sublist _ _

/-- C15: for a query of at least two code units, `getCardSuggestions` returns
at most `limit` suggestions.  When the live search returns a page with a list
of cards, the result is the first (at most 3) past queries that contain the
query case-insensitively, in history order, followed by suggestions for
cards of the page, cut to `limit`; when the live search fails, the result is
made of history suggestions only. -/
theorem getCardSuggestions_shape (toLowerCase : String → String) (s : Store)
    (query : String) (limit : Nat) (outcome : Except JsError Json)
    (hq : 2 ≤ utf16Length query) :
    (getCardSuggestions toLowerCase s query limit outcome).length ≤ limit ∧
    (getRecentSearchSuggestions toLowerCase s query 3).length ≤ 3 ∧
    getRecentSearchSuggestions toLowerCase s query 3
      = (((getSearchHistory s).filter
          (fun item => includes (toLowerCase item.query) (toLowerCase query))).map
            (fun item => item.query)).take 3 ∧
    (∀ (page : Json) (cards : List Json), outcome = .ok page →
      dataMember page = some (.arr cards) → (∀ c ∈ cards, c ≠ .null) →
      getCardSuggestions toLowerCase s query limit outcome
        = ((getRecentSearchSuggestions toLowerCase s query 3).map Suggestion.history
            ++ (sliceTo cards ((limit : Int)
                - (getRecentSearchSuggestions toLowerCase s query 3).length)).map
                  cardSuggestionOf).take limit) ∧
    (∀ e : JsError, outcome = .error e →
      getCardSuggestions toLowerCase s query limit outcome
        = (getRecentSearchSuggestions toLowerCase s query limit).map Suggestion.history) := by
  have hnot : ¬ utf16Length query < 2 := by omega
  have hfall : ((getRecentSearchSuggestions toLowerCase s query limit).map
      Suggestion.history).length ≤ limit := by
    rw [List.length_map]
    exact getRecentSearchSuggestions_length _ _ _ _
  refine ⟨?_, getRecentSearchSuggestions_length _ _ _ _, ?_, ?_, ?_⟩
  · simp only [getCardSuggestions, if_neg hnot]
    split
    · exact hfall
    · exact hfall
    · split
      · exact hfall
      · exact List.length_take_le _ _
  · simp only [getRecentSearchSuggestions, List.map_take]
  · intro page cards hout hdata hcards
    subst hout
    have hslice : ∀ c ∈ sliceTo cards ((limit : Int)
        - (getRecentSearchSuggestions toLowerCase s query 3).length), c ≠ .null :=
      fun c hc => hcards c ((sliceTo_sublist _ _).subset hc)
    cases page with
    | obj kvs => simp only [getCardSuggestions, if_neg hnot, hdata, mapM_cardSuggestion _ hslice]
    | _ => simp [dataMember] at hdata
  · intro e hout
    subst hout
    simp only [getCardSuggestions, if_neg hnot]

/-- C15 on the store `usedStore`, whose history holds the query `bolt`: for
the query `bo` and limit 2 the result has at most 2 entries, and a failed live
search gives history suggestions only. -/
theorem getCardSuggestions_shape_witness :
    (getCardSuggestions asciiLower usedStore "bo" 2 (.ok pageOne)).length ≤ 2 ∧
    getCardSuggestions asciiLower usedStore "bo" 2 (.error (httpError 500 ""))
      = (getRecentSearchSuggestions asciiLower usedStore "bo" 2).map Suggestion.history :=
  have h := getCardSuggestions_shape asciiLower usedStore "bo" 2 (.ok pageOne) (by decide)
  have h' := getCardSuggestions_shape asciiLower usedStore "bo" 2
    (.error (httpError 500 "")) (by decide)
  ⟨h.1, h'.2.2.2.2 _ rfl⟩


/-! ### The throttler -/

/-- C16 at the failing input: the first request is dispatched at time 1000
and its fetch fails at 1005 with a network error, which leaves
`lastRequestTime` untouched; the request made at 1010 is dispatched at once,
10 ms after the first dispatch. -/
theorem throttler_dispatches_ten_ms_apart :
    ((Throttler.init 1000).run offlineBurst).map Throttler.dispatchTimes
      = some [1000, 1010] ∧
    ((Throttler.init 1000).run offlineBurst).map (fun t => t.lastRequestTime) = some 0 := by
  decide

/-- C17 at the failing input: for the options of `getMultipleCards` the
dispatched request has the single header `Content-Type`; neither `User-Agent`
nor `Accept` is sent.  For options without `headers` both are present. -/
theorem fetchInit_drops_client_headers :
    (∀ cardIds : List String,
      (fetchInit (getMultipleCardsOptions cardIds)).headers
        = [("Content-Type", "application/json")]) ∧
    ((Throttler.init 1000).run batchLookup).map
        (fun t => t.dispatches.map (fun d => d.init.headers.keys))
      = some [["Content-Type"]] ∧
    (fetchInit noOptions).headers
      = [("User-Agent", "Mystical Teachings PWA/1.0"), ("Accept", "application/json")] := by
  refine ⟨fun _ => rfl, by decide, by decide⟩


/-! ### The service worker -/

/-- C18, counterexample: a script of the application is requested, the cache
has no copy and the network is down; the listener answers with no response. -/
theorem onFetch_no_response :
    onFetch scriptRequest none none (.error networkDown) 800000000 = .nothing := by
  decide

/-- C18, amended.  For a request whose URL contains none of the strings of
`STATIC_ASSETS`: on the host `api.scryfall.com` the listener answers with the
response of `handleApiRequest`, and on the hosts `cards.scryfall.io` and
`c1.scryfall.com` with the response of `handleImageRequest`, whatever the cache
holds and whatever the network does; on any other host it answers with the
cached copy when there is one, otherwise with the response of the network when
it answers, and when the network rejects with the cached application shell if
the request is a document request and the shell is cached, and with no response
otherwise.  For a request whose URL contains a string of `STATIC_ASSETS`,
whatever its host, it answers with the cached copy when there is one, otherwise
with the response of the network when it answers, and it is rejected with the
error of the network when the network rejects. -/
theorem onFetch_responds (request : SwRequest) (cached shell : Option SwResponse)
    (net : Except JsError SwResponse) (now : Int) :
    (STATIC_ASSETS.any (fun asset => includes request.url asset) = false →
      (request.hostname = "api.scryfall.com" →
        onFetch request cached shell net now
          = .replied (handleApiRequest cached net now).reply) ∧
      (request.hostname = "cards.scryfall.io" ∨ request.hostname = "c1.scryfall.com" →
        onFetch request cached shell net now
          = .replied (handleImageRequest cached net now).reply) ∧
      (request.hostname ≠ "api.scryfall.com" → request.hostname ≠ "cards.scryfall.io" →
        request.hostname ≠ "c1.scryfall.com" →
        (∀ copy : SwResponse, cached = some copy →
          onFetch request cached shell net now = .replied (.cache copy)) ∧
        (∀ response : SwResponse, cached = none → net = .ok response →
          onFetch request cached shell net now = .replied (.network response)) ∧
        (∀ e : JsError, cached = none → net = .error e →
          onFetch request cached shell net now =
            if request.destination = "document" then
              match shell with
              | some response => .replied (.cache response)
              | none => .nothing
            else .nothing))) ∧
    (STATIC_ASSETS.any (fun asset => includes request.url asset) = true →
      (∀ copy : SwResponse, cached = some copy →
        onFetch request cached shell net now = .replied (.cache copy)) ∧
      (∀ response : SwResponse, cached = none → net = .ok response →
        onFetch request cached shell net now = .replied (.network response)) ∧
      (∀ e : JsError, cached = none → net = .error e →
        onFetch request cached shell net now = .rejected e)) := by
  constructor
  · intro hstatic
    refine ⟨?_, ?_, ?_⟩
    · intro hapi
      simp only [onFetch, hstatic, Bool.false_eq_true, if_false, if_pos hapi]
    · intro himg
      have hapi : request.hostname ≠ "api.scryfall.com" := by
        rcases himg with h | h
        · rw [h]
          decide
        · rw [h]
          decide
      simp only [onFetch, hstatic, Bool.false_eq_true, if_false, if_neg hapi, if_pos himg]
    · intro h1 h2 h3
      have himg : ¬ (request.hostname = "cards.scryfall.io" ∨
          request.hostname = "c1.scryfall.com") := fun h => h.elim h2 h3
      refine ⟨?_, ?_, ?_⟩
      · intro copy hc
        subst hc
        simp only [onFetch, hstatic, Bool.false_eq_true, if_false, if_neg h1, if_neg himg]
      · intro response hc hnet
        subst hc
        subst hnet
        simp only [onFetch, hstatic, Bool.false_eq_true, if_false, if_neg h1, if_neg himg]
      · intro e hc hnet
        subst hc
        subst hnet
        simp only [onFetch, hstatic, Bool.false_eq_true, if_false, if_neg h1, if_neg himg]
  · intro hstatic
    refine ⟨?_, ?_, ?_⟩
    · intro copy hc
      subst hc
      simp only [onFetch, hstatic, if_true]
    · intro response hc hnet
      subst hc
      subst hnet
      simp only [onFetch, hstatic, if_true]
    · intro e hc hnet
      subst hc
      subst hnet
      simp only [onFetch, hstatic, if_true]

/-- C18, amended, with an empty cache and the network down: an image request
is answered with the placeholder response and an API request with the offline
response, while the API request whose URL contains `./` is rejected with the
error of the network. -/
theorem onFetch_responds_witness :
    onFetch imageRequest none none (.error networkDown) 800000000
      = .replied (.synthesized imageNotFound) ∧
    onFetch apiRequest none none (.error networkDown) 800000000
      = .replied (.synthesized offlineResponse) ∧
    onFetch dottedApiRequest none none (.error networkDown) 800000000
      = .rejected networkDown :=
  ⟨((onFetch_responds imageRequest none none (.error networkDown) 800000000).1
      (by decide)).2.1 (Or.inl rfl),
   ((onFetch_responds apiRequest none none (.error networkDown) 800000000).1
      (by decide)).1 rfl,
   ((onFetch_responds dottedApiRequest none none (.error networkDown) 800000000).2
      (by decide)).2.2 networkDown rfl rfl⟩

/-- C19: `handleImageRequest` returns the placeholder 404 response only when
the network gives no `ok` response and the cache has no copy, and it does
return it then; when the cache has a copy, of whatever age, and the network
fails (it rejects or answers with a status that is not `ok`), the cached copy
is the response. -/
theorem handleImageRequest_not_found (cached : Option SwResponse)
    (net : Except JsError SwResponse) (now : Int) :
    ((handleImageRequest cached net now).reply = .synthesized imageNotFound →
      cached = none ∧ ¬ ∃ response, net = .ok response ∧ statusOk response.status = true) ∧
    (cached = none → (¬ ∃ response, net = .ok response ∧ statusOk response.status = true) →
      (handleImageRequest cached net now).reply = .synthesized imageNotFound) ∧
    (∀ copy : SwResponse, cached = some copy →
      (¬ ∃ response, net = .ok response ∧ statusOk response.status = true) →
      (handleImageRequest cached net now).reply = .cache copy) := by
  refine ⟨?_, ?_, ?_⟩
  · intro h
    cases cached with
    | some c =>
      exfalso
      simp only [handleImageRequest] at h
      split at h
      · cases h
      · cases net with
        | error e => cases h
        | ok r =>
          simp only at h
          split at h <;> cases h
    | none =>
      refine ⟨rfl, ?_⟩
      rintro ⟨r, rfl, hok⟩
      simp only [handleImageRequest, hok, if_true] at h
      cases h
  · intro hc hnet
    subst hc
    cases net with
    | error e => rfl
    | ok r =>
      have hok : statusOk r.status = false := by
        by_contra hcon
        exact hnet ⟨r, rfl, by simpa using hcon⟩
      simp only [handleImageRequest, hok, Bool.false_eq_true, if_false]
  · intro copy hc hnet
    subst hc
    simp only [handleImageRequest]
    split
    · rfl
    · cases net with
      | error e => rfl
      | ok r =>
        have hok : statusOk r.status = false := by
          by_contra hcon
          exact hnet ⟨r, rfl, by simpa using hcon⟩
        simp only [hok, Bool.false_eq_true, if_false]

/-- C19 on an image cached eight days ago with the network down: the stale
copy is the response. -/
theorem handleImageRequest_not_found_witness :
    (handleImageRequest (some staleImage) (.error networkDown) 800000000).reply
      = .cache staleImage :=
  (handleImageRequest_not_found (some staleImage) (.error networkDown) 800000000).2.2
    staleImage rfl (by rintro ⟨r, h, _⟩; cases h)

/-- C20: `handleApiRequest` returns the network response whenever it is `ok`,
whatever the cache holds.  When the network fails (it rejects or answers with
a status that is not `ok`), the cached response is returned if it carries a
`sw-cached-at` time less than 24 hours old, and the 503 offline response is
returned if there is no cached response or its time is missing or 24 hours old
or more. -/
theorem handleApiRequest_network_first (cached : Option SwResponse)
    (net : Except JsError SwResponse) (now : Int) :
    (∀ response : SwResponse, net = .ok response → statusOk response.status = true →
      (handleApiRequest cached net now).reply = .network response) ∧
    ((¬ ∃ response, net = .ok response ∧ statusOk response.status = true) →
      (∀ (copy : SwResponse) (t : Int), cached = some copy → copy.cachedAt = some t →
        now - t < 24 * 60 * 60 * 1000 →
        (handleApiRequest cached net now).reply = .cache copy) ∧
      ((cached = none ∨ ∃ copy, cached = some copy ∧
          (copy.cachedAt = none ∨ ∃ t, copy.cachedAt = some t ∧ 24 * 60 * 60 * 1000 ≤ now - t)) →
        (handleApiRequest cached net now).reply = .synthesized offlineResponse)) := by
  have hdur : API_CACHE_DURATION = 24 * 60 * 60 * 1000 := rfl
  constructor
  · intro response hnet hok
    subst hnet
    simp only [handleApiRequest, hok, if_true]
  · intro hnet
    have hfall : (handleApiRequest cached net now).reply =
        (match cached with
          | some cachedResponse =>
            if isFresh cachedResponse now API_CACHE_DURATION then SwReply.cache cachedResponse
            else SwReply.synthesized offlineResponse
          | none => SwReply.synthesized offlineResponse) := by
      cases net with
      | error e =>
        cases cached with
        | none => rfl
        | some c => simp only [handleApiRequest]; split <;> rfl
      | ok r =>
        have hok : statusOk r.status = false := by
          by_contra hcon
          exact hnet ⟨r, rfl, by simpa using hcon⟩
        cases cached with
        | none => simp only [handleApiRequest, hok, Bool.false_eq_true, if_false]
        | some c =>
          simp only [handleApiRequest, hok, Bool.false_eq_true, if_false]
          split <;> rfl
    rw [hfall]
    constructor
    · intro copy t hc ht hlt
      subst hc
      have : isFresh copy now API_CACHE_DURATION = true := by
        simp only [isFresh, ht, hdur, decide_eq_true_eq]
        exact hlt
      simp only [this, if_true]
    · rintro (hc | ⟨copy, hc, hold⟩)
      · subst hc; rfl
      · subst hc
        have : isFresh copy now API_CACHE_DURATION = false := by
          rcases hold with hnone | ⟨t, ht, hge⟩
          · simp only [isFresh, hnone]
          · simp only [isFresh, ht, hdur, decide_eq_false_iff_not, not_lt]
            exact hge
        simp only [this, Bool.false_eq_true, if_false]

/-- C20 on a page cached an hour ago: it is returned when the network is
down, and replaced by the network response when the network answers `ok`. -/
theorem handleApiRequest_network_first_witness :
    (handleApiRequest (some recentPage) (.error networkDown) 800000000).reply
      = .cache recentPage ∧
    (handleApiRequest (some recentPage) (.ok staleImage) 800000000).reply
      = .network staleImage :=
  ⟨((handleApiRequest_network_first (some recentPage) (.error networkDown) 800000000).2
      (by rintro ⟨r, h, _⟩; cases h)).1 recentPage _ rfl rfl (by decide),
   (handleApiRequest_network_first (some recentPage) (.ok staleImage) 800000000).1
      staleImage rfl (by decide)⟩


/-! ### Writing and touching cache entries -/

theorem manageCacheSize_set_get (c : Obj CacheEntry) (k : String) (ent : CacheEntry)
    (hidx : arrayIndex k = none) (hnd : c.keys.Nodup) (hcap : c.length ≤ 50)
    (hnew : ∀ x ∈ c, x.2.last_accessed ≤ ent.last_accessed) :
    (manageCacheSize (c.set k ent)).get k = some ent := by
  by_cases hlen : (c.set k ent).length > 50
  · have hhas : c.has k = false := by
      by_contra hc
      have ht : c.has k = true := by simpa using hc
      rw [Obj.set_length_of_has _ _ _ ht] at hlen
      omega
    have hk : k ∉ c.keys := (Obj.has_eq_false_iff c k).1 hhas
    have hset : c.set k ent = c ++ [(k, ent)] := by
      simp only [Obj.set, hhas, Bool.false_eq_true, if_false, hidx]
    rw [manageCacheSize_eq, if_pos hlen]
    have hsort : (c ++ [(k, ent)]).insertionSort olderFirst
        = c.insertionSort olderFirst ++ [(k, ent)] :=
      insertionSort_append_last _ _ (fun y hy => hnew y hy)
    have hslen : (c.insertionSort olderFirst).length = c.length :=
      List.length_insertionSort olderFirst c
    apply Obj.get_of_mem
    · refine ((List.filter_sublist _).map Prod.fst).nodup ?_
      rw [hset]
      simp only [Obj.keys, List.map_append, List.map_cons, List.map_nil]
      refine List.Nodup.append hnd (List.nodup_singleton k) ?_
      intro a ha hak
      rw [List.mem_singleton] at hak
      exact hk (hak ▸ ha)
    · refine List.mem_filter.2 ⟨by rw [hset]; simp, ?_⟩
      rw [hset, hsort, List.length_append, List.length_singleton,
        List.take_append_of_le_length (by rw [hslen]; omega)]
      simp only [decide_eq_true_eq]
      intro hmem
      obtain ⟨y, hy, hyk⟩ := List.mem_map.1 hmem
      have hyc : y ∈ c :=
        (List.mem_insertionSort olderFirst).1 (List.mem_of_mem_take hy)
      exact hk (List.mem_map.2 ⟨y, hyc, hyk⟩)
  · rw [manageCacheSize_eq, if_neg hlen]
    exact Obj.get_set_self c k ent

/-- C21, counterexample: the cache holds 50 entries whose `last_accessed`
times (100 to 149) are later than the time 50 of the call; the entry written
by `setCachedCard` is then the oldest of the 51 and is evicted at once, so the
key has no entry afterwards. -/
theorem setCachedCard_new_entry_evicted :
    (getCachedCards (setCachedCard fullStore "search_bolt" (.str "page") 50)).get
      "search_bolt" = none := by
  decide

/-- C21, amended: for a cache with distinct keys, within its capacity of 50,
whose `last_accessed` times are not later than `now`, and a key that is no
array index: after `setCachedCard(k, p)` at time `now` the entry for `k` has
`data = p`, `cached_at = now`, `last_accessed = now` and an `access_count` one
above that of the previous entry, or 1 when `k` had no entry. -/
theorem setCachedCard_entry (s : Store) (k : String) (p : Json) (now : Int)
    (hidx : arrayIndex k = none)
    (hnd : (getCachedCards s).keys.Nodup)
    (hcap : (getCachedCards s).length ≤ 50)
    (hclock : ∀ x ∈ getCachedCards s, x.2.last_accessed ≤ now) :
    (getCachedCards (setCachedCard s k p now)).get k
      = some { data := p, cached_at := now,
               access_count := (match (getCachedCards s).get k with
                 | some previous => previous.access_count + 1
                 | none => 1),
               last_accessed := now } := by
  have hprior : (match (getCachedCards s).get k with
      | some e => if e.access_count = 0 then (0 : Int) else e.access_count
      | none => 0) + 1
      = (match (getCachedCards s).get k with
        | some previous => previous.access_count + 1
        | none => 1) := by
    cases (getCachedCards s).get k with
    | none => rfl
    | some e =>
      simp only
      split
      · next h0 => rw [h0]
      · rfl
  simp only [setCachedCard]
  rw [hprior]
  exact manageCacheSize_set_get _ k _ hidx hnd hcap hclock

/-- C21, amended, on two stores: inserting `search_bolt` into the empty
cache gives `access_count = 1`; overwriting the entry of `sampleStore`, whose
`access_count` is 1, gives `access_count = 2` and the new times. -/
theorem setCachedCard_entry_witness :
    (getCachedCards (setCachedCard emptyStore "search_bolt" (.str "new") 2000)).get
      "search_bolt"
      = some { data := .str "new", cached_at := 2000, access_count := 1,
               last_accessed := 2000 } ∧
    (getCachedCards (setCachedCard sampleStore "search_bolt" (.str "new") 2000)).get
      "search_bolt"
      = some { data := .str "new", cached_at := 2000, access_count := 2,
               last_accessed := 2000 } :=
  ⟨setCachedCard_entry emptyStore "search_bolt" (.str "new") 2000
      (by decide) (by decide) (by decide) (by decide),
   setCachedCard_entry sampleStore "search_bolt" (.str "new") 2000
      (by decide) (by decide) (by decide) (by decide)⟩

theorem Obj.get_set_of_ne {β : Type} (o : Obj β) (k k' : String) (v : β) (hne : k' ≠ k) :
    (o.set k v).get k' = o.get k' := by
  have hb : (k' == k) = false := by simpa using hne
  by_cases hhas : o.has k = true
  · simp only [Obj.set, hhas, if_true, Obj.get]
    clear hhas
    induction o with
    | nil => rfl
    | cons e es ih =>
      obtain ⟨k₁, v₁⟩ := e
      by_cases hk : k₁ = k
      · subst hk
        simp only [List.map_cons, if_true, List.lookup_cons, hb]
        exact ih
      · simp only [List.map_cons, if_neg hk, List.lookup_cons]
        cases k' == k₁ with
        | true => rfl
        | false => exact ih
  · have hf : o.has k = false := by simpa using hhas
    simp only [Obj.set, hf, Bool.false_eq_true, if_false]
    split
    · next n _ =>
      clear hhas hf
      induction o with
      | nil => simp [Obj.insertIndex, Obj.get, List.lookup_cons, hb]
      | cons e es ih =>
        obtain ⟨k₁, v₁⟩ := e
        simp only [Obj.insertIndex]
        split
        · split
          · simp only [Obj.get, List.lookup_cons] at ih ⊢
            cases k' == k₁ with
            | true => rfl
            | false => exact ih
          · simp [Obj.get, List.lookup_cons, hb]
        · simp [Obj.get, List.lookup_cons, hb]
    · simp only [Obj.get]
      rw [List.lookup_append]
      cases List.lookup k' o with
      | none => simp [List.lookup_cons, hb]
      | some w => rfl

theorem Obj.keys_set_of_has {β : Type} (o : Obj β) (k : String) (v : β)
    (h : o.has k = true) : (o.set k v).keys = o.keys := by
  simp only [Obj.set, h, if_true, Obj.keys, List.map_map]
  apply List.map_congr_left
  intro e _
  simp only [Function.comp_apply]
  split
  · next hk => exact hk.symm
  · rfl

theorem Obj.has_of_get {β : Type} (o : Obj β) (k : String) (v : β)
    (h : o.get k = some v) : o.has k = true := by
  by_contra hc
  have hf : o.has k = false := by simpa using hc
  rw [(Obj.get_eq_none_iff o k).2 ((Obj.has_eq_false_iff o k).1 hf)] at h
  cases h

/-- C22: when `k` has an entry, `updateCachedCardAccess(k)` at time `now`
sets the `last_accessed` of that entry to `now` and adds 1 to its
`access_count`, keeps its `cached_at` and `data`, and leaves the entry of every
other key and the order of the keys as they were; when `k` has no entry the
store is unchanged. -/
theorem updateCachedCardAccess_frame (s : Store) (k : String) (now : Int) :
    (∀ e : CacheEntry, (getCachedCards s).get k = some e →
      (getCachedCards (updateCachedCardAccess s k now)).get k
        = some { data := e.data, cached_at := e.cached_at,
                 access_count := e.access_count + 1, last_accessed := now } ∧
      (∀ k' : String, k' ≠ k →
        (getCachedCards (updateCachedCardAccess s k now)).get k'
          = (getCachedCards s).get k') ∧
      (getCachedCards (updateCachedCardAccess s k now)).keys = (getCachedCards s).keys) ∧
    ((getCachedCards s).get k = none → updateCachedCardAccess s k now = s) := by
  constructor
  · intro e he
    have hhas := Obj.has_of_get _ _ _ he
    simp only [getCachedCards] at he hhas
    simp only [updateCachedCardAccess, getCachedCards, he]
    exact ⟨Obj.get_set_self _ _ _, fun k' hk' => Obj.get_set_of_ne _ _ _ _ hk',
      Obj.keys_set_of_has _ _ _ hhas⟩
  · intro hnone
    simp only [getCachedCards] at hnone
    simp only [updateCachedCardAccess, getCachedCards, hnone]

/-- C22 on `sampleStore`, whose entry was written at time 1000: touching it
at time 5000 moves `last_accessed` to 5000 and `access_count` to 2, and keeps
`cached_at = 1000`. -/
theorem updateCachedCardAccess_frame_witness :
    (getCachedCards (updateCachedCardAccess sampleStore "search_bolt" 5000)).get "search_bolt"
      = some { data := .str "page", cached_at := 1000, access_count := 2,
               last_accessed := 5000 } ∧
    updateCachedCardAccess sampleStore "search_shock" 5000 = sampleStore :=
  ⟨((updateCachedCardAccess_frame sampleStore "search_bolt" 5000).1
      { data := .str "page", cached_at := 1000, access_count := 1, last_accessed := 1000 }
      rfl).1,
   (updateCachedCardAccess_frame sampleStore "search_shock" 5000).2 rfl⟩

theorem getCachedCard_leaves_store (s : Store) (k : String) (t : Int) (e : CacheEntry)
    (hget : (getCachedCards s).get k = some e)
    (hlive : t - e.cached_at < 24 * 60 * 60 * 1000) :
    (getCachedCard s k t).1 = e.data ∧ (getCachedCard s k t).2 = s := by
  rw [getCachedCard_hit s k t e hget hlive]
  exact ⟨rfl, rfl⟩

/-- C23, at the failing input `lruStore`: a lookup of `search_bolt` at time
5000 returns the page and leaves the store as it was, `access_count` 1 and
`last_accessed` 1000 included; so does the search for `bolt` at time 5000,
which is served from the cache without a request.  When a new page is stored
at time 6000, the eviction removes `search_bolt`, used at time 5000, and keeps
`search_shock`, last used at time 2000. -/
theorem getCachedCard_hit_not_recorded :
    getCachedCard lruStore "search_bolt" 5000 = (.str "bolt page", lruStore) ∧
    (getCachedCards (getCachedCard lruStore "search_bolt" 5000).2).get "search_bolt"
      = some { data := .str "bolt page", cached_at := 1000, access_count := 1,
               last_accessed := 1000 } ∧
    (searchCards asciiLower keepCard lruStore "bolt" (pageOptions 1) 5000 5001
      (.error networkDown)).result = .ok (.str "bolt page") ∧
    (searchCards asciiLower keepCard lruStore "bolt" (pageOptions 1) 5000 5001
      (.error networkDown)).request = none ∧
    (searchCards asciiLower keepCard lruStore "bolt" (pageOptions 1) 5000 5001
      (.error networkDown)).store = lruStore ∧
    (getCachedCards (setCachedCard
      (searchCards asciiLower keepCard lruStore "bolt" (pageOptions 1) 5000 5001
        (.error networkDown)).store
      "search_lava" (.str "lava page") 6000)).get "search_bolt" = none ∧
    ((getCachedCards (setCachedCard
      (searchCards asciiLower keepCard lruStore "bolt" (pageOptions 1) 5000 5001
        (.error networkDown)).store
      "search_lava" (.str "lava page") 6000)).get "search_shock").isSome = true := by
  decide

/-! ### The exported document -/

/-- C24, counterexample: `sampleStore` holds a cached page and `emptyStore`
holds none, and `exportData` produces the same document for both: the cache is
not part of the document. -/
theorem exportData_omits_cache :
    getCachedCards sampleStore ≠ getCachedCards emptyStore ∧
    exportData sampleStore 0 = exportData emptyStore 0 := by
  decide

/-- C24, amended: the document produced by `exportData` holds three records
of the store, the search history, the favorites and the application settings,
together with the export time and the version tag `1.0.0`; the card cache is
not in it, so stores that differ in the cache only export the same
document. -/
theorem exportData_records (s : Store) (now : Int) :
    (exportData s now).search_history = getSearchHistory s ∧
    (exportData s now).favorites = getFavorites s ∧
    (exportData s now).app_settings = getAppSettings s ∧
    (exportData s now).exported_at = now ∧
    (exportData s now).version = "1.0.0" ∧
    ∀ cache : Obj CacheEntry,
      exportData { s with cached_cards := cache } now = exportData s now :=
  ⟨rfl, rfl, rfl, rfl, rfl, fun _ => rfl⟩

/-! ### Cache keys of the card lookups -/

/-- C25, at the failing input: the key of `getCardByName("id_abc")` and the
key of `getCardById("abc")` are both `card_id_abc`.  A lookup of the name
`id_abc` on an empty cache stores the card it fetched, and a later
`getCardById("abc")` returns that card from the cache without sending a
request. -/
theorem card_lookup_keys_collide :
    cardNameCacheKey asciiLower "id_abc" = cardIdCacheKey "abc" ∧
    (getCardByName asciiLower keepCard emptyStore "id_abc" false 1000 1001
      (.ok sampleCard)).result = .ok sampleCard ∧
    (getCardById keepCard
      (getCardByName asciiLower keepCard emptyStore "id_abc" false 1000 1001
        (.ok sampleCard)).store
      "abc" 2000 2001 (.ok (.str "another card"))).result = .ok sampleCard ∧
    (getCardById keepCard
      (getCardByName asciiLower keepCard emptyStore "id_abc" false 1000 1001
        (.ok sampleCard)).store
      "abc" 2000 2001 (.ok (.str "another card"))).request = none := by
  decide


/-! ### Which entries the eviction removes -/

theorem insertionSort_take_disjoint_drop (c : Obj CacheEntry) (hnd : c.keys.Nodup) (n : Nat)
    (x : String × CacheEntry) (hx : x ∈ (c.insertionSort olderFirst).take n) :
    x ∉ (c.insertionSort olderFirst).drop n := by
  have hc : c.Nodup := List.Nodup.of_map Prod.fst hnd
  have hs : (c.insertionSort olderFirst).Nodup :=
    (List.perm_insertionSort olderFirst c).nodup_iff.2 hc
  rw [← List.take_append_drop n (c.insertionSort olderFirst)] at hs
  exact fun hd => (List.nodup_append.1 hs).2.2 hx hd

theorem manageCacheSize_mem_iff (c : Obj CacheEntry) (hnd : c.keys.Nodup)
    (hlen : 50 < c.length) (x : String × CacheEntry) :
    x ∈ manageCacheSize c ↔ x ∈ (c.insertionSort olderFirst).drop (c.length - 50) := by
  have hgt : c.length > 50 := hlen
  rw [manageCacheSize_eq, if_pos hgt, List.mem_filter]
  simp only [decide_eq_true_eq]
  constructor
  · rintro ⟨hxc, hxr⟩
    have hxs : x ∈ c.insertionSort olderFirst := (List.mem_insertionSort olderFirst).2 hxc
    rw [← List.take_append_drop (c.length - 50) (c.insertionSort olderFirst),
      List.mem_append] at hxs
    rcases hxs with hxt | hxd
    · exact absurd (List.mem_map.2 ⟨x, hxt, rfl⟩) hxr
    · exact hxd
  · intro hxd
    have hxc : x ∈ c :=
      (List.mem_insertionSort olderFirst).1 (List.mem_of_mem_drop hxd)
    refine ⟨hxc, fun hmem => ?_⟩
    obtain ⟨y, hy, hyx⟩ := List.mem_map.1 hmem
    have hyc : y ∈ c :=
      (List.mem_insertionSort olderFirst).1 (List.mem_of_mem_take hy)
    have hyx' : y = x := Obj.eq_of_key_eq c hnd y x hyc hxc hyx
    exact insertionSort_take_disjoint_drop c hnd _ y hy (hyx' ▸ hxd)

theorem manageCacheSize_length_of_gt (c : Obj CacheEntry) (hnd : c.keys.Nodup)
    (hlen : 50 < c.length) : (manageCacheSize c).length = 50 := by
  have hc : c.Nodup := List.Nodup.of_map Prod.fst hnd
  have hm : (manageCacheSize c).Nodup := by
    have hgt : c.length > 50 := hlen
    rw [manageCacheSize_eq, if_pos hgt]
    exact hc.filter _
  have hd : ((c.insertionSort olderFirst).drop (c.length - 50)).Nodup :=
    ((List.perm_insertionSort olderFirst c).nodup_iff.2 hc).sublist (List.drop_sublist _ _)
  have hperm : (manageCacheSize c).Perm ((c.insertionSort olderFirst).drop (c.length - 50)) :=
    (List.perm_ext_iff_of_nodup hm hd).2 (fun x => manageCacheSize_mem_iff c hnd hlen x)
  rw [hperm.length_eq, List.length_drop, List.length_insertionSort]
  omega

/-- C26: for a cache `c` (keys distinct, as in an object): with at most 50
entries `manageCacheSize` leaves `c` as it is; with `n > 50` entries it keeps 50
of them in their order, so removes `n - 50`, every removed entry has a
`last_accessed` less than or equal to that of every kept entry, and of two
entries with equal `last_accessed` the one later in key order is removed only
if the earlier one is. -/
theorem manageCacheSize_evicts (c : Obj CacheEntry) (hnd : c.keys.Nodup) :
    (c.length ≤ MAX_CACHED_CARDS → manageCacheSize c = c) ∧
    (MAX_CACHED_CARDS < c.length →
      (manageCacheSize c).Sublist c ∧
      (manageCacheSize c).length = MAX_CACHED_CARDS ∧
      (∀ x ∈ c, x ∉ manageCacheSize c → ∀ y ∈ manageCacheSize c,
        x.2.last_accessed ≤ y.2.last_accessed) ∧
      (∀ x y : String × CacheEntry, [x, y].Sublist c →
        x.2.last_accessed = y.2.last_accessed →
        y ∉ manageCacheSize c → x ∉ manageCacheSize c)) := by
  simp only [MAX_CACHED_CARDS]
  constructor
  · intro hle
    rw [manageCacheSize_eq, if_neg (by omega)]
  · intro hlen
    have hremoved : ∀ x ∈ c, x ∉ manageCacheSize c →
        x ∈ (c.insertionSort olderFirst).take (c.length - 50) := by
      intro x hxc hx
      have hxs : x ∈ c.insertionSort olderFirst := (List.mem_insertionSort olderFirst).2 hxc
      rw [← List.take_append_drop (c.length - 50) (c.insertionSort olderFirst),
        List.mem_append] at hxs
      rcases hxs with hxt | hxd
      · exact hxt
      · exact absurd ((manageCacheSize_mem_iff c hnd hlen x).2 hxd) hx
    refine ⟨?_, manageCacheSize_length_of_gt c hnd hlen, ?_, ?_⟩
    · have hgt : c.length > 50 := hlen
      rw [manageCacheSize_eq, if_pos hgt]
      exact List.filter_sublist _
    · intro x hxc hx y hy
      exact List.Sorted.rel_of_mem_take_of_mem_drop (List.sorted_insertionSort olderFirst c)
        (hremoved x hxc hx) ((manageCacheSize_mem_iff c hnd hlen y).1 hy)
    · intro x y hsub hxy hy hx
      have hyc : y ∈ c := hsub.subset (by simp)
      have hyt := hremoved y hyc hy
      have hxd := (manageCacheSize_mem_iff c hnd hlen x).1 hx
      have hrel : olderFirst x y := le_of_eq hxy
      have hs : [x, y].Sublist (c.insertionSort olderFirst) :=
        List.pair_sublist_insertionSort hrel hsub
      rw [← List.take_append_drop (c.length - 50) (c.insertionSort olderFirst)] at hs
      obtain ⟨l₁, l₂, hl, h₁, h₂⟩ := List.sublist_append_iff.1 hs
      cases l₁ with
      | nil =>
        simp only [List.nil_append] at hl
        subst hl
        exact insertionSort_take_disjoint_drop c hnd _ y hyt (h₂.subset (by simp))
      | cons a l₁ =>
        simp only [List.cons_append, List.cons.injEq] at hl
        obtain ⟨hxa, -⟩ := hl
        subst hxa
        exact insertionSort_take_disjoint_drop c hnd _ x (h₁.subset (by simp)) hxd

/-- C26 on two caches: `fullCache` with its 50 entries is left as it is; of
the 52 entries of `overfullCache` 50 are kept, and since `tie`, which has the
`last_accessed` of the earlier entry `k`, is removed, `k` is removed too. -/
theorem manageCacheSize_evicts_witness :
    manageCacheSize fullCache = fullCache ∧
    (manageCacheSize overfullCache).length = 50 ∧
    ("k", { data := .null, cached_at := 0, access_count := 1, last_accessed := 100 })
      ∉ manageCacheSize overfullCache :=
  ⟨(manageCacheSize_evicts fullCache (by decide)).1 (by decide),
   ((manageCacheSize_evicts overfullCache (by decide)).2 (by decide)).2.1,
   ((manageCacheSize_evicts overfullCache (by decide)).2 (by decide)).2.2.2
      ("k", { data := .null, cached_at := 0, access_count := 1, last_accessed := 100 })
      ("tie", { data := .null, cached_at := 0, access_count := 1, last_accessed := 100 })
      (by decide) rfl (by decide)⟩


/-! ### Error responses of the remote API -/

/-- C29: when `fetch` settles with a response whose status is not `ok`,
`handleApiRequest` returns either the cached response, and then that response
is still fresh, or the offline response with status 503; it never returns the
network response, and it stores nothing. -/
theorem handleApiRequest_hides_http_errors (cached : Option SwResponse)
    (networkResponse : SwResponse) (now : Int)
    (hnotok : statusOk networkResponse.status = false) :
    ((∃ c, cached = some c ∧ isFresh c now API_CACHE_DURATION = true ∧
        (handleApiRequest cached (.ok networkResponse) now).reply = .cache c) ∨
      ((handleApiRequest cached (.ok networkResponse) now).reply = .synthesized offlineResponse ∧
        offlineResponse.status = 503)) ∧
    (handleApiRequest cached (.ok networkResponse) now).reply ≠ .network networkResponse ∧
    (handleApiRequest cached (.ok networkResponse) now).stored = none := by
  cases cached with
  | none =>
    have h : handleApiRequest none (.ok networkResponse) now
        = { reply := .synthesized offlineResponse, stored := none } := by
      simp only [handleApiRequest, hnotok, Bool.false_eq_true, if_false]
    rw [h]
    exact ⟨Or.inr ⟨rfl, rfl⟩, fun h => SwReply.noConfusion h, rfl⟩
  | some c =>
    by_cases hfresh : isFresh c now API_CACHE_DURATION = true
    · have h : handleApiRequest (some c) (.ok networkResponse) now
          = { reply := .cache c, stored := none } := by
        simp only [handleApiRequest, hnotok, Bool.false_eq_true, if_false, hfresh, if_true]
      rw [h]
      exact ⟨Or.inl ⟨c, rfl, hfresh, rfl⟩, fun h => SwReply.noConfusion h, rfl⟩
    · have h : handleApiRequest (some c) (.ok networkResponse) now
          = { reply := .synthesized offlineResponse, stored := none } := by
        simp only [handleApiRequest, hnotok, Bool.false_eq_true, if_false, hfresh]
      rw [h]
      exact ⟨Or.inr ⟨rfl, rfl⟩, fun h => SwReply.noConfusion h, rfl⟩

/-- C29 on a 404 and on a 429 of the remote API: with nothing cached the
caller gets the offline response; with the page stored an hour before it gets
that page. -/
theorem handleApiRequest_hides_http_errors_witness :
    (handleApiRequest none
        (.ok { status := 404, statusText := "Not Found", body := "", cachedAt := none })
        800000000).reply = .synthesized offlineResponse ∧
    (handleApiRequest (some recentPage)
        (.ok { status := 429, statusText := "Too Many Requests", body := "", cachedAt := none })
        800000000).reply = .cache recentPage :=
  ⟨((handleApiRequest_hides_http_errors none
        { status := 404, statusText := "Not Found", body := "", cachedAt := none }
        800000000 (by decide)).1).elim
      (fun h => h.elim fun _ hc => Option.noConfusion hc.1)
      (fun h => h.1),
   ((handleApiRequest_hides_http_errors (some recentPage)
        { status := 429, statusText := "Too Many Requests", body := "", cachedAt := none }
        800000000 (by decide)).1).elim
      (fun h => h.elim fun c hc => (Option.some.inj hc.1) ▸ hc.2.2)
      (fun h => absurd h.1 (by decide))⟩


/-! ### Invariants of the throttler -/

theorem Throttler.init_serialized (now : Int) : (Throttler.init now).Serialized :=
  ⟨rfl, Or.inl ⟨rfl, rfl, rfl⟩⟩

theorem processQueue_serialized (t : Throttler) (now : Int) (hs : t.Serialized) :
    (processQueue t now).Serialized := by
  unfold processQueue
  split
  · exact hs
  · next hcond =>
    simp only [Bool.or_eq_true, not_or, Bool.not_eq_true, List.isEmpty_eq_false] at hcond
    obtain ⟨hflag, hq⟩ := hcond
    obtain ⟨hu, hA | hB | hC⟩ := hs
    · refine ⟨hu, Or.inr (Or.inl ⟨rfl, ?_, hA.2.2, hq⟩)⟩
      simp only [hA.2.1, List.nil_append]
      exact ⟨_, rfl⟩
    · rw [hB.1] at hflag
      cases hflag
    · rw [hC.1] at hflag
      cases hflag

theorem find?_inFlight_singleton (f₀ f : InFlight) (p : InFlight → Bool) (id : Nat)
    (hp : ∀ g, p g = true → g.request.id = id)
    (h : [f₀].find? p = some f) : f = f₀ ∧ f₀.request.id = id := by
  simp only [List.find?_cons] at h
  cases hp0 : p f₀ with
  | true =>
    rw [hp0] at h
    simp only [Option.some.injEq] at h
    exact ⟨h.symm, hp f₀ hp0⟩
  | false =>
    rw [hp0] at h
    simp at h

theorem settle_serialized (t : Throttler) (now : Int) (id : Nat)
    (outcome : Except JsError Json) (f₀ : InFlight)
    (hu : t.uncaught = []) (hd : t.dispatchTimers = []) (hf : t.inFlight = [f₀])
    (hid : f₀.request.id = id) :
    (settle t now id outcome).Serialized := by
  refine ⟨hu, Or.inl ⟨rfl, hd, ?_⟩⟩
  simp only [settle, finish, hf, List.filter_cons, List.filter_nil, hid, bne_self_eq_false,
    Bool.false_eq_true, if_false]

theorem Throttler.step_serialized (t t' : Throttler) (now : Int) (ev : Event)
    (hs : t.Serialized) (h : t.step now ev = some t') : t'.Serialized := by
  unfold Throttler.step at h
  split at h
  · cases h
  · obtain ⟨hu, hcases⟩ := hs
    cases ev with
    | request r =>
      simp only [Option.some.injEq] at h
      subst h
      apply processQueue_serialized
      refine ⟨hu, ?_⟩
      rcases hcases with hA | hB | hC
      · exact Or.inl hA
      · exact Or.inr (Or.inl ⟨hB.1, hB.2.1, hB.2.2.1, by simp⟩)
      · exact Or.inr (Or.inr hC)
    | dispatchTimer due =>
      simp only at h
      split at h
      · next hdue =>
        simp only [Option.some.injEq] at h
        subst h
        rcases hcases with hA | hB | hC
        · rw [hA.2.1] at hdue
          simp at hdue
        · obtain ⟨hflag, ⟨d, hd⟩, hfl, hq⟩ := hB
          rw [hd] at hdue
          have hdd : due = d := by simpa using hdue.1
          subst hdd
          cases hqq : t.requestQueue with
          | nil => exact absurd hqq hq
          | cons head rest =>
            refine ⟨?_, Or.inr (Or.inr ⟨?_, ?_, ?_⟩)⟩
            · simp only [dispatchHead, hqq, hu]
            · simp only [dispatchHead, hqq, hflag]
            · simp only [dispatchHead, hqq, hd, List.erase_cons_head]
            · simp only [dispatchHead, hqq, hfl, List.nil_append]
              exact ⟨_, rfl⟩
        · rw [hC.2.1] at hdue
          simp at hdue
      · cases h
    | drainTimer due =>
      simp only at h
      split at h
      · simp only [Option.some.injEq] at h
        subst h
        apply processQueue_serialized
        exact ⟨hu, hcases⟩
      · cases h
    | response id status statusText =>
      simp only at h
      rcases hcases with hA | hB | hC
      · rw [hA.2.2] at h
        simp at h
      · rw [hB.2.2.1] at h
        simp at h
      · obtain ⟨hflag, hd, f₀, hf⟩ := hC
        rw [hf] at h
        split at h
        · next f hfind =>
          obtain ⟨hff, hid⟩ := find?_inFlight_singleton f₀ f _ id
            (fun g hg => by
              simp only [Bool.and_eq_true, beq_iff_eq] at hg
              exact hg.1) hfind
          split at h
          · simp only [Option.some.injEq] at h
            subst h
            refine ⟨hu, Or.inr (Or.inr ⟨hflag, hd, ?_⟩)⟩
            simp only [List.map_cons, List.map_nil]
            exact ⟨_, rfl⟩
          · simp only [Option.some.injEq] at h
            subst h
            exact settle_serialized _ now id _ f₀ hu hd rfl hid
        · cases h
    | networkError id message =>
      simp only at h
      rcases hcases with hA | hB | hC
      · rw [hA.2.2] at h
        simp at h
      · rw [hB.2.2.1] at h
        simp at h
      · obtain ⟨hflag, hd, f₀, hf⟩ := hC
        rw [hf] at h
        split at h
        · next f hfind =>
          obtain ⟨hff, hid⟩ := find?_inFlight_singleton f₀ f _ id
            (fun g hg => by
              simp only [Bool.and_eq_true, beq_iff_eq] at hg
              exact hg.1) hfind
          simp only [Option.some.injEq] at h
          subst h
          exact settle_serialized _ now id _ f₀ hu hd rfl hid
        · cases h
    | timeout id =>
      simp only at h
      rcases hcases with hA | hB | hC
      · rw [hA.2.2] at h
        simp at h
      · rw [hB.2.2.1] at h
        simp at h
      · obtain ⟨hflag, hd, f₀, hf⟩ := hC
        rw [hf] at h
        split at h
        · next f hfind =>
          obtain ⟨hff, hid⟩ := find?_inFlight_singleton f₀ f _ id
            (fun g hg => by
              simp only [Bool.and_eq_true, beq_iff_eq] at hg
              exact hg.1) hfind
          split at h
          · simp only [Option.some.injEq] at h
            subst h
            exact settle_serialized _ now id _ f₀ hu hd rfl hid
          · cases h
        · cases h
    | body id result =>
      simp only at h
      rcases hcases with hA | hB | hC
      · rw [hA.2.2] at h
        simp at h
      · rw [hB.2.2.1] at h
        simp at h
      · obtain ⟨hflag, hd, f₀, hf⟩ := hC
        rw [hf] at h
        split at h
        · next f hfind =>
          obtain ⟨hff, hid⟩ := find?_inFlight_singleton f₀ f _ id
            (fun g hg => by
              simp only [Bool.and_eq_true, beq_iff_eq] at hg
              exact hg.1) hfind
          simp only [Option.some.injEq] at h
          subst h
          exact settle_serialized _ now id _ f₀ hu hd rfl hid
        · cases h

theorem Throttler.run_serialized (events : List (Int × Event)) (t t' : Throttler)
    (hs : t.Serialized) (h : t.run events = some t') : t'.Serialized := by
  induction events generalizing t with
  | nil =>
    simp only [Throttler.run, Option.some.injEq] at h
    exact h ▸ hs
  | cons e rest ih =>
    obtain ⟨now, ev⟩ := e
    simp only [Throttler.run] at h
    split at h
    · next t₁ hstep => exact ih t₁ (Throttler.step_serialized t t₁ now ev hs hstep) h
    · cases h


theorem processQueue_frame (t : Throttler) (now : Int) :
    (processQueue t now).requestQueue = t.requestQueue ∧
    (processQueue t now).dispatches = t.dispatches ∧
    (processQueue t now).settled = t.settled ∧
    (processQueue t now).inFlight = t.inFlight ∧
    (processQueue t now).uncaught = t.uncaught := by
  unfold processQueue
  split
  · exact ⟨rfl, rfl, rfl, rfl, rfl⟩
  · exact ⟨rfl, rfl, rfl, rfl, rfl⟩

theorem Throttler.inFlight_of_find (t : Throttler) (hs : t.Serialized) (f : InFlight)
    (p : InFlight → Bool) (id : Nat) (hp : ∀ g, p g = true → g.request.id = id)
    (h : t.inFlight.find? p = some f) : t.inFlight = [f] ∧ f.request.id = id := by
  obtain ⟨-, hA | hB | hC⟩ := hs
  · rw [hA.2.2] at h
    cases h
  · rw [hB.2.2.1] at h
    cases h
  · obtain ⟨-, -, f₀, hf⟩ := hC
    rw [hf] at h
    obtain ⟨hff, hid⟩ := find?_inFlight_singleton f₀ f p id hp h
    exact ⟨hff ▸ hf, hff ▸ hid⟩

theorem requestsOf_cons (e : Int × Event) (rest : List (Int × Event)) :
    requestsOf (e :: rest) = requestsOf [e] ++ requestsOf rest := by
  obtain ⟨now, ev⟩ := e
  cases ev <;> rfl

theorem Throttler.step_order (t t' : Throttler) (now : Int) (ev : Event)
    (h : t.step now ev = some t') :
    t'.dispatches.map (fun d => d.id) ++ t'.requestQueue.map (fun r => r.id)
      = t.dispatches.map (fun d => d.id) ++ t.requestQueue.map (fun r => r.id)
        ++ (requestsOf [(now, ev)]).map (fun r => r.id) := by
  unfold Throttler.step at h
  split at h
  · cases h
  · cases ev with
    | request r =>
      simp only [Option.some.injEq] at h
      subst h
      simp only [makeRequest, processQueue_frame, requestsOf, List.map_append, List.map_cons,
        List.map_nil, List.append_assoc]
    | dispatchTimer due =>
      simp only at h
      split at h
      · simp only [Option.some.injEq] at h
        subst h
        cases hq : t.requestQueue with
        | nil => simp [dispatchHead, hq, requestsOf]
        | cons head rest => simp [dispatchHead, hq, requestsOf]
      · cases h
    | drainTimer due =>
      simp only at h
      split at h
      · simp only [Option.some.injEq] at h
        subst h
        simp only [processQueue_frame, requestsOf, List.map_nil, List.append_nil]
      · cases h
    | response id status statusText =>
      simp only at h
      split at h
      · split at h
        · simp only [Option.some.injEq] at h
          subst h
          simp only [requestsOf, List.map_nil, List.append_nil]
        · simp only [Option.some.injEq] at h
          subst h
          simp only [settle, finish, requestsOf, List.map_nil, List.append_nil]
      · cases h
    | networkError id message =>
      simp only at h
      split at h
      · simp only [Option.some.injEq] at h
        subst h
        simp only [settle, finish, requestsOf, List.map_nil, List.append_nil]
      · cases h
    | timeout id =>
      simp only at h
      split at h
      · split at h
        · simp only [Option.some.injEq] at h
          subst h
          simp only [settle, finish, requestsOf, List.map_nil, List.append_nil]
        · cases h
      · cases h
    | body id result =>
      simp only at h
      split at h
      · simp only [Option.some.injEq] at h
        subst h
        simp only [settle, finish, requestsOf, List.map_nil, List.append_nil]
      · cases h

theorem Throttler.run_order (events : List (Int × Event)) (t t' : Throttler)
    (h : t.run events = some t') :
    t'.dispatches.map (fun d => d.id) ++ t'.requestQueue.map (fun r => r.id)
      = t.dispatches.map (fun d => d.id) ++ t.requestQueue.map (fun r => r.id)
        ++ (requestsOf events).map (fun r => r.id) := by
  induction events generalizing t with
  | nil =>
    simp only [Throttler.run, Option.some.injEq] at h
    subst h
    simp only [requestsOf, List.map_nil, List.append_nil]
  | cons e rest ih =>
    obtain ⟨now, ev⟩ := e
    simp only [Throttler.run] at h
    split at h
    · next t₁ hstep =>
      rw [ih t₁ h, Throttler.step_order t t₁ now ev hstep, requestsOf_cons (now, ev) rest,
        List.map_append, List.append_assoc]
    · cases h

theorem settle_accounted (t : Throttler) (now : Int) (id : Nat)
    (outcome : Except JsError Json) (f : InFlight)
    (ha : t.Accounted) (hf : t.inFlight = [f]) (hid : f.request.id = id) :
    (settle t now id outcome).Accounted := by
  simp only [Throttler.Accounted, hf, List.map_cons, List.map_nil, hid] at ha
  simp only [Throttler.Accounted, settle, finish, hf, List.filter_cons, List.filter_nil, hid,
    bne_self_eq_false, Bool.false_eq_true, if_false, List.map_append, List.map_cons,
    List.map_nil, List.append_nil]
  exact ha

theorem Throttler.step_accounted (t t' : Throttler) (now : Int) (ev : Event)
    (hs : t.Serialized) (ha : t.Accounted) (h : t.step now ev = some t') : t'.Accounted := by
  have hclock : ({ t with clock := now } : Throttler).Serialized := hs
  unfold Throttler.step at h
  split at h
  · cases h
  · cases ev with
    | request r =>
      simp only [Option.some.injEq] at h
      subst h
      simp only [Throttler.Accounted, makeRequest, processQueue_frame]
      exact ha
    | dispatchTimer due =>
      simp only at h
      split at h
      · simp only [Option.some.injEq] at h
        subst h
        cases hq : t.requestQueue with
        | nil =>
          simp only [Throttler.Accounted, dispatchHead, hq]
          exact ha
        | cons head rest =>
          simp only [Throttler.Accounted, dispatchHead, hq, List.map_append, List.map_cons,
            List.map_nil, ← List.append_assoc]
          exact congrArg (fun l => l ++ [head.id]) ha
      · cases h
    | drainTimer due =>
      simp only at h
      split at h
      · simp only [Option.some.injEq] at h
        subst h
        simp only [Throttler.Accounted, processQueue_frame]
        exact ha
      · cases h
    | response id status statusText =>
      simp only at h
      split at h
      · next f hfind =>
        obtain ⟨hf, hid⟩ := Throttler.inFlight_of_find _ hclock f _ id
          (fun g hg => by
            simp only [Bool.and_eq_true, beq_iff_eq] at hg
            exact hg.1) hfind
        split at h
        · simp only [Option.some.injEq] at h
          subst h
          simp only [Throttler.Accounted, List.map_map]
          refine Eq.trans ?_ ha
          congr 1
          apply List.map_congr_left
          intro g _
          simp only [Function.comp_apply]
          split <;> rfl
        · simp only [Option.some.injEq] at h
          subst h
          exact settle_accounted _ now id _ f ha hf hid
      · cases h
    | networkError id message =>
      simp only at h
      split at h
      · next f hfind =>
        obtain ⟨hf, hid⟩ := Throttler.inFlight_of_find _ hclock f _ id
          (fun g hg => by
            simp only [Bool.and_eq_true, beq_iff_eq] at hg
            exact hg.1) hfind
        simp only [Option.some.injEq] at h
        subst h
        exact settle_accounted _ now id _ f ha hf hid
      · cases h
    | timeout id =>
      simp only at h
      split at h
      · next f hfind =>
        obtain ⟨hf, hid⟩ := Throttler.inFlight_of_find _ hclock f _ id
          (fun g hg => by
            simp only [Bool.and_eq_true, beq_iff_eq] at hg
            exact hg.1) hfind
        split at h
        · simp only [Option.some.injEq] at h
          subst h
          exact settle_accounted _ now id _ f ha hf hid
        · cases h
      · cases h
    | body id result =>
      simp only at h
      split at h
      · next f hfind =>
        obtain ⟨hf, hid⟩ := Throttler.inFlight_of_find _ hclock f _ id
          (fun g hg => by
            simp only [Bool.and_eq_true, beq_iff_eq] at hg
            exact hg.1) hfind
        simp only [Option.some.injEq] at h
        subst h
        exact settle_accounted _ now id _ f ha hf hid
      · cases h

theorem Throttler.run_accounted (events : List (Int × Event)) (t t' : Throttler)
    (hs : t.Serialized) (ha : t.Accounted) (h : t.run events = some t') : t'.Accounted := by
  induction events generalizing t with
  | nil =>
    simp only [Throttler.run, Option.some.injEq] at h
    exact h ▸ ha
  | cons e rest ih =>
    obtain ⟨now, ev⟩ := e
    simp only [Throttler.run] at h
    split at h
    · next t₁ hstep =>
      exact ih t₁ (Throttler.step_serialized t t₁ now ev hs hstep)
        (Throttler.step_accounted t t₁ now ev hs ha hstep) h
    · cases h


theorem Throttler.reachable_serialized (t : Throttler) (h : t.Reachable) : t.Serialized := by
  obtain ⟨start, events, hrun⟩ := h
  exact Throttler.run_serialized events _ t (Throttler.init_serialized start) hrun

theorem Throttler.step_failure (t t' : Throttler) (now : Int) (ev : Event) (id : Nat)
    (e : JsError) (hstep : t.step now ev = some t') (hfail : ev.failure = some (id, e)) :
    (∃ f, t.inFlight.find? (fun f => f.request.id == id && !f.awaitingBody) = some f) ∧
    t'.settled = t.settled ++ [(id, .error e)] ∧
    t'.requestQueue = t.requestQueue ∧
    t'.inFlight = t.inFlight.filter (fun f => f.request.id != id) ∧
    t'.dispatchTimers = t.dispatchTimers ∧
    t'.isRateLimited = false ∧
    t'.drainTimers = (if t.requestQueue.isEmpty then t.drainTimers
      else t.drainTimers ++ [now + minRequestInterval]) ∧
    t'.uncaught = t.uncaught ∧
    t'.clock = now := by
  unfold Throttler.step at hstep
  split at hstep
  · cases hstep
  · cases ev with
    | request r => cases hfail
    | dispatchTimer due => cases hfail
    | drainTimer due => cases hfail
    | body i result => cases hfail
    | response i status statusText =>
      simp only [Event.failure] at hfail
      split at hfail
      · cases hfail
      · next hok =>
        simp only [Option.some.injEq, Prod.mk.injEq] at hfail
        obtain ⟨hi, he⟩ := hfail
        subst hi
        subst he
        simp only at hstep
        split at hstep
        · next f hfind =>
          simp only [hok, Bool.false_eq_true, if_false, Option.some.injEq] at hstep
          subst hstep
          exact ⟨⟨f, hfind⟩, rfl, rfl, rfl, rfl, rfl, rfl, rfl, rfl⟩
        · cases hstep
    | networkError i message =>
      simp only [Event.failure, Option.some.injEq, Prod.mk.injEq] at hfail
      obtain ⟨hi, he⟩ := hfail
      subst hi
      subst he
      simp only at hstep
      split at hstep
      · next f hfind =>
        simp only [Option.some.injEq] at hstep
        subst hstep
        exact ⟨⟨f, hfind⟩, rfl, rfl, rfl, rfl, rfl, rfl, rfl, rfl⟩
      · cases hstep
    | timeout i =>
      simp only [Event.failure, Option.some.injEq, Prod.mk.injEq] at hfail
      obtain ⟨hi, he⟩ := hfail
      subst hi
      subst he
      simp only at hstep
      split at hstep
      · next f hfind =>
        split at hstep
        · simp only [Option.some.injEq] at hstep
          subst hstep
          exact ⟨⟨f, hfind⟩, rfl, rfl, rfl, rfl, rfl, rfl, rfl, rfl⟩
        · cases hstep
      · cases hstep

/-- C27: in every state `t` that the throttler reaches from its construction
by a sequence of events, at most one dispatch callback is pending or running
(so at most one drain cycle is active and at most one request is in flight),
and none is when `isRateLimited` is not set; a `processQueue` call made while
`isRateLimited` is set changes nothing; and the requests dispatched so far
followed by the requests still queued are the requests passed to `makeRequest`,
in the order of the calls. -/
theorem throttler_serializes (start : Int) (events : List (Int × Event)) (t : Throttler)
    (hrun : (Throttler.init start).run events = some t) :
    t.dispatchTimers.length + t.inFlight.length ≤ 1 ∧
    (t.isRateLimited = false → t.dispatchTimers = [] ∧ t.inFlight = []) ∧
    (∀ now : Int, t.isRateLimited = true → processQueue t now = t) ∧
    t.dispatches.map (fun d => d.id) ++ t.requestQueue.map (fun r => r.id)
      = (requestsOf events).map (fun r => r.id) := by
  have hs : t.Serialized :=
    Throttler.run_serialized events _ t (Throttler.init_serialized start) hrun
  refine ⟨?_, ?_, ?_, ?_⟩
  · obtain ⟨-, hA | hB | hC⟩ := hs
    · rw [hA.2.1, hA.2.2]
      exact Nat.zero_le 1
    · obtain ⟨-, ⟨d, hd⟩, hf, -⟩ := hB
      rw [hd, hf]
      exact Nat.le_refl 1
    · obtain ⟨-, hd, f, hf⟩ := hC
      rw [hd, hf]
      exact Nat.le_refl 1
  · intro hflag
    obtain ⟨-, hA | hB | hC⟩ := hs
    · exact hA.2
    · rw [hB.1] at hflag
      cases hflag
    · rw [hC.1] at hflag
      cases hflag
  · intro now hflag
    simp only [processQueue, hflag, Bool.true_or, if_true]
  · have h := Throttler.run_order events _ t hrun
    simpa [Throttler.init] using h

/-- C27 on the trace `oneInFlight`: two requests are made at the same time;
afterwards the first is in flight, the second waits in the queue, and no
dispatch callback is pending. -/
theorem throttler_serializes_witness :
    (Throttler.init 0).run oneInFlight = some queuedBehind ∧
    queuedBehind.dispatchTimers.length + queuedBehind.inFlight.length ≤ 1 ∧
    processQueue queuedBehind 1001 = queuedBehind ∧
    queuedBehind.dispatches.map (fun d => d.id) ++ queuedBehind.requestQueue.map (fun r => r.id)
      = [1, 2] :=
  ⟨rfl,
   (throttler_serializes 0 oneInFlight queuedBehind rfl).1,
   (throttler_serializes 0 oneInFlight queuedBehind rfl).2.2.1 1001 rfl,
   (throttler_serializes 0 oneInFlight queuedBehind rfl).2.2.2⟩

/-- C28: when, in a state `t` reached from the construction of the throttler,
the dispatch of request `id` fails with error `e` (network error, timeout, or a
response that is not `ok`): that request was the one in flight; its promise is
rejected with `e` and nothing else is settled; the promise was not settled
before when the requests carry distinct names; the queue is as it was; no
request is in flight, no dispatch callback is pending and `isRateLimited` is
cleared; and when the queue is not empty a `processQueue` call is scheduled
`minRequestInterval` later, which, when it runs, schedules the dispatch of the
queue head. -/
theorem failed_dispatch_is_isolated (start : Int) (events : List (Int × Event))
    (t t' : Throttler) (now : Int) (ev : Event) (id : Nat) (e : JsError)
    (hrun : (Throttler.init start).run events = some t)
    (hstep : t.step now ev = some t')
    (hfail : ev.failure = some (id, e)) :
    (∃ f, t.inFlight = [f] ∧ f.request.id = id) ∧
    t'.settled = t.settled ++ [(id, .error e)] ∧
    (((requestsOf events).map (fun r => r.id)).Nodup → id ∉ t.settled.map Prod.fst) ∧
    t'.requestQueue = t.requestQueue ∧
    t'.inFlight = [] ∧
    t'.dispatchTimers = [] ∧
    t'.isRateLimited = false ∧
    (t.requestQueue = [] → t'.drainTimers = t.drainTimers) ∧
    (t.requestQueue ≠ [] →
      t'.drainTimers = t.drainTimers ++ [now + minRequestInterval] ∧
      ∀ later : Int, now + minRequestInterval ≤ later →
        ∃ t₂, t'.step later (.drainTimer (now + minRequestInterval)) = some t₂ ∧
          t₂.isRateLimited = true ∧ t₂.dispatchTimers.length = 1 ∧
          t₂.requestQueue = t.requestQueue) := by
  have hs : t.Serialized :=
    Throttler.run_serialized events _ t (Throttler.init_serialized start) hrun
  have ha : t.Accounted :=
    Throttler.run_accounted events _ t (Throttler.init_serialized start) rfl hrun
  have horder := Throttler.run_order events _ t hrun
  obtain ⟨⟨f, hfind⟩, hsettled, hqueue, hflight, htimers, hflag, hdrain, -, hclock⟩ :=
    Throttler.step_failure t t' now ev id e hstep hfail
  obtain ⟨hf, hid⟩ := Throttler.inFlight_of_find t hs f _ id
    (fun g hg => by
      simp only [Bool.and_eq_true, beq_iff_eq] at hg
      exact hg.1) hfind
  have hnone : t.dispatchTimers = [] := by
    obtain ⟨-, hA | hB | hC⟩ := hs
    · exact hA.2.1
    · rw [hB.2.2.1] at hf
      cases hf
    · exact hC.2.1
  have hflight' : t'.inFlight = [] := by
    rw [hflight, hf]
    simp only [List.filter_cons, List.filter_nil, hid, bne_self_eq_false, Bool.false_eq_true,
      if_false]
  refine ⟨⟨f, hf, hid⟩, hsettled, ?_, hqueue, hflight', htimers.trans hnone, hflag, ?_, ?_⟩
  · intro hnd hmem
    simp only [Throttler.init, List.map_nil, List.nil_append] at horder
    rw [← horder, ← ha, hf] at hnd
    simp only [List.map_cons, List.map_nil, hid] at hnd
    have h1 := (List.nodup_append.1 hnd).1
    exact (List.nodup_append.1 h1).2.2 hmem (List.mem_singleton.2 rfl) 
  · intro hq
    rw [hdrain, hq]
    rfl
  · intro hq
    have hne : t.requestQueue.isEmpty = false := by
      cases hqq : t.requestQueue with
      | nil => exact absurd hqq hq
      | cons a l => rfl
    have hd : t'.drainTimers = t.drainTimers ++ [now + minRequestInterval] := by
      rw [hdrain, hne]
      rfl
    refine ⟨hd, fun later hlater => ?_⟩
    have hmin : (0 : Int) ≤ minRequestInterval := by decide
    have hnl : ¬ later < t'.clock := by
      rw [hclock]
      omega
    have hmem : now + minRequestInterval ∈ t'.drainTimers := by
      rw [hd]
      simp
    refine ⟨processQueue { t' with
      clock := later,
      drainTimers := t'.drainTimers.erase (now + minRequestInterval) } later, ?_, ?_⟩
    · simp only [Throttler.step, if_neg hnl]
      rw [if_pos ⟨hmem, hlater⟩]
    · simp only [processQueue, hflag, hqueue, hne, Bool.or_self, Bool.false_eq_true, if_false,
        htimers, hnone, List.nil_append, List.length_singleton, and_self]

/-- C28 on the state `queuedBehind`, reached by `oneInFlight`: the fetch of
request 1 fails at time 1005; its promise is rejected with the network error,
request 2 stays in the queue, the flag is cleared and a `processQueue` call is
scheduled for time 1105. -/
theorem failed_dispatch_is_isolated_witness :
    (Throttler.init 0).run oneInFlight = some queuedBehind ∧
    queuedBehind.step 1005 (.networkError 1 "Failed to fetch") = some afterFailure ∧
    afterFailure.settled
      = [(1, .error { name := "TypeError", message := "Failed to fetch" })] ∧
    afterFailure.requestQueue = [secondRequest] ∧
    afterFailure.isRateLimited = false ∧
    afterFailure.drainTimers = [1105] :=
  have h := failed_dispatch_is_isolated 0 oneInFlight queuedBehind afterFailure 1005
    (.networkError 1 "Failed to fetch") 1 { name := "TypeError", message := "Failed to fetch" }
    rfl rfl rfl
  ⟨rfl, rfl, h.2.1, h.2.2.2.1, h.2.2.2.2.2.2.1, (h.2.2.2.2.2.2.2.2 (by decide)).1⟩

/-- C30: in every state `t` that the throttler reaches from its
construction: no dispatch callback has thrown; a dispatch callback that runs
finds the queue non-empty, takes its head and puts it in flight; and when
`isRateLimited` is set and no request is in flight, exactly one dispatch
callback is pending, the queue has at least one element, and the callback can
run at any time from its due time on. -/
theorem dispatch_callback_finds_request (t : Throttler) (hreach : t.Reachable) :
    t.uncaught = [] ∧
    (∀ (now due : Int) (t' : Throttler), t.step now (.dispatchTimer due) = some t' →
      ∃ head rest, t.requestQueue = head :: rest ∧ t'.requestQueue = rest ∧
        t'.inFlight = [{ request := head, started := now, awaitingBody := false }] ∧
        t'.uncaught = []) ∧
    (t.isRateLimited = true → t.inFlight = [] →
      t.dispatchTimers.length = 1 ∧ 1 ≤ t.requestQueue.length ∧
      ∀ due ∈ t.dispatchTimers, ∀ now : Int, t.clock ≤ now → due ≤ now →
        ∃ t', t.step now (.dispatchTimer due) = some t') := by
  have hs := Throttler.reachable_serialized t hreach
  obtain ⟨hu, hcases⟩ := hs
  refine ⟨hu, ?_, ?_⟩
  · intro now due t' hstep
    unfold Throttler.step at hstep
    split at hstep
    · cases hstep
    · simp only at hstep
      split at hstep
      · next hdue =>
        simp only [Option.some.injEq] at hstep
        subst hstep
        rcases hcases with hA | hB | hC
        · rw [hA.2.1] at hdue
          simp at hdue
        · obtain ⟨-, -, hfl, hq⟩ := hB
          cases hqq : t.requestQueue with
          | nil => exact absurd hqq hq
          | cons head rest =>
            refine ⟨head, rest, rfl, ?_, ?_, ?_⟩
            · simp only [dispatchHead, hqq]
            · simp only [dispatchHead, hqq, hfl, List.nil_append]
            · simp only [dispatchHead, hqq, hu]
        · rw [hC.2.1] at hdue
          simp at hdue
      · cases hstep
  · intro hflag hfl
    rcases hcases with hA | hB | hC
    · rw [hA.1] at hflag
      cases hflag
    · obtain ⟨-, ⟨d, hd⟩, -, hq⟩ := hB
      refine ⟨by rw [hd]; rfl, ?_, ?_⟩
      · cases hqq : t.requestQueue with
        | nil => exact absurd hqq hq
        | cons head rest => simp
      · intro due hdue now hclock hnow
        have hnl : ¬ now < t.clock := by omega
        refine ⟨dispatchHead { t with
          clock := now, dispatchTimers := t.dispatchTimers.erase due } now, ?_⟩
        simp only [Throttler.step, if_neg hnl]
        rw [if_pos ⟨hdue, hnow⟩]
    · obtain ⟨-, -, f, hf⟩ := hC
      rw [hf] at hfl
      cases hfl

/-- C30 on the state `dispatchPending`, reached by one `makeRequest` call at
time 1000: the flag is set, nothing is in flight, one dispatch callback is
pending and the queue holds the request. -/
theorem dispatch_callback_finds_request_witness :
    dispatchPending.Reachable ∧
    dispatchPending.uncaught = [] ∧
    dispatchPending.dispatchTimers.length = 1 ∧
    1 ≤ dispatchPending.requestQueue.length :=
  have hreach : dispatchPending.Reachable := ⟨0, [(1000, .request firstRequest)], rfl⟩
  have h := dispatch_callback_finds_request dispatchPending hreach
  ⟨hreach, h.1, (h.2.2 rfl rfl).1, (h.2.2 rfl rfl).2.1⟩


end MysticalTeachings
